import Mathlib

/-!
# ConfigurePackage plugin: embedding of `agent/plugins/configurepackage/configurepackage.go`

The Go functions of the plugin are translated one by one.  The collaborators the
file only reaches through interfaces (`localpackages.Repository`,
`packageservice.PackageService`, `installer.Installer`) are records of functions
over an abstract host state `σ`; every call the plugin makes through them is
written to a call log, so that statements such as "no installer hook is invoked"
are statements about that log.  What a collaborator does inside one of its calls,
such as running the download delegate it is handed, is part of that call.

Calls on the tracer and on the logger only produce diagnostics and are left out.
A Go `error` is an `Option Error` (`none` is `nil`); a Go function that returns
either `(value, nil)` or `(nil, err)` returns an `Except Error value`.  An
interface value that may be `nil` is an `Option`; calling a method on `nil`
panics, which the embedding keeps as the `Res.panicked` outcome.
-/

namespace ConfigurePackage

/-- Text of a Go `error`. -/
abbrev Error := String

/-- InstallAction represents the json command to install package. -/
def InstallAction : String := "Install"

/-- UninstallAction represents the json command to uninstall package. -/
def UninstallAction : String := "Uninstall"

/-- Modelled from the spec: `localpackages.InstallState`, whose declaration is in another
package: the closed set of section 3.  `None` is the state of an absent record and the
value a Go variable of this type holds before it is assigned. -/
inductive InstallState where
  | None
  | Installing
  | Installed
  | Uninstalling
  | Uninstalled
  | Failed
  | RollbackInstall
  | RollbackUninstall
  | Unknown
  deriving DecidableEq, Repr

/-- Modelled from the spec: `contracts.ResultStatus`, declared in another package: the
request statuses of section 6, `TimedOut` of section 4.4, and `NotStarted` for the value
of a status nothing has marked yet. -/
inductive ResultStatus where
  | NotStarted
  | Success
  | Failed
  | Cancelled
  | Shutdown
  | RebootRequested
  | TimedOut
  deriving DecidableEq, Repr

/-- Modelled from the spec: `ResultStatus.IsReboot`, true of the reboot status only. -/
def ResultStatus.IsReboot (s : ResultStatus) : Bool :=
  s == ResultStatus.RebootRequested

/-- ConfigurePackagePluginInput represents one set of commands executed by the
ConfigurePackage plugin. -/
structure ConfigurePackagePluginInput where
  Name : String
  Version : String
  Action : String
  Source : String
  Repository : String
  deriving DecidableEq, Repr

/-- The part of `contracts.Configuration` the plugin reads: the raw properties. -/
structure Configuration where
  Properties : String
  deriving DecidableEq, Repr

/-- The two bits of `task.CancelFlag`. -/
structure CancelFlag where
  ShutDown : Bool
  Canceled : Bool
  deriving DecidableEq, Repr

/-- The fields of `packageservice.PackageResult` that do not come from the tracer or
from the exit code. -/
structure PackageResult where
  Operation : String
  PackageName : String
  PreviousPackageVersion : String
  Version : String
  deriving DecidableEq, Repr

/-- Modelled from the spec: `trace.PluginOutputTrace`, declared in another package: the
status of the request and the error text appended to it. -/
structure PluginOutputTrace where
  Status : ResultStatus := ResultStatus.NotStarted
  Stderr : List String := []
  deriving DecidableEq, Repr

/-- What `Plugin.execute` leaves in the `iohandler.IOHandler` it is given. -/
structure IOHandler where
  Status : ResultStatus
  deriving DecidableEq, Repr

/-- The output of an installer hook (`contracts.PluginOutputter`). -/
structure HookOutput where
  Status : ResultStatus
  deriving DecidableEq, Repr

/-- One call made by the plugin to a collaborator. -/
inductive Event where
  | parseAndValidateInput (raw : String)
  | packageServiceSelector (serviceEndpoint : String)
  | DownloadManifest (name version : String)
  | ReportResult (result : PackageResult)
  | LockPackage (id action : String)
  | UnlockPackage (id : String)
  | GetInstalledVersion (id : String)
  | GetInstallState (id : String)
  | SetInstallState (id version : String) (state : InstallState)
  | ValidatePackage (id version : String)
  | RefreshPackage (id version serviceName : String)
  | GetInstaller (id version : String)
  | LoadTraces (id : String)
  | PersistTraces (id : String)
  | Install (packageName version : String)
  | Uninstall (packageName version : String)
  | Validate (packageName version : String)
  | cleanupAfterUninstall (packageName version : String)
  | executeConfigurePackage
  deriving DecidableEq, Repr

/-- Installer hooks: `Install`, `Uninstall` and `Validate` of an installer. -/
def Event.isHook : Event → Bool
  | Event.Install _ _ => true
  | Event.Uninstall _ _ => true
  | Event.Validate _ _ => true
  | _ => false

/-- Calls of `Repository.SetInstallState`. -/
def Event.isSetInstallState : Event → Bool
  | Event.SetInstallState _ _ _ => true
  | _ => false

/-- Calls of `Repository.RefreshPackage`, the only call that is handed the download
delegate. -/
def Event.isRefreshPackage : Event → Bool
  | Event.RefreshPackage _ _ _ => true
  | _ => false

/-- Calls of `Repository.ValidatePackage`. -/
def Event.isValidatePackage : Event → Bool
  | Event.ValidatePackage _ _ => true
  | _ => false

/-- Calls of `Repository.GetInstaller`. -/
def Event.isGetInstaller : Event → Bool
  | Event.GetInstaller _ _ => true
  | _ => false

/-- The interface `installer.Installer` over the host state `σ`: the two getters and the
three hooks, which return their output and the host they leave. -/
structure Installer (σ : Type) where
  PackageName : String
  Version : String
  Install : σ → HookOutput × σ
  Uninstall : σ → HookOutput × σ
  Validate : σ → HookOutput × σ

/-- The interface `localpackages.Repository` over the host state `σ`.  The getters
`GetInstalledVersion`, `GetInstallState` and `GetInstaller` read the host; the other
methods return their result and the host they leave.  `GetInstaller` has no error result
and always builds an installer (section 4.1 of the specification).  `RefreshPackage` is
handed the download delegate as its last argument. -/
structure Repository (σ : Type) where
  LockPackage : σ → String → String → Option Error × σ
  UnlockPackage : σ → String → σ
  GetInstalledVersion : σ → String → String
  GetInstallState : σ → String → InstallState × String
  SetInstallState : σ → String → String → InstallState → Option Error × σ
  ValidatePackage : σ → String → String → Option Error × σ
  RefreshPackage : σ → String → String → String → (String → σ → Option Error × σ) →
    Option Error × σ
  GetInstaller : σ → Configuration → String → String → Installer σ
  LoadTraces : σ → String → Option Error × σ
  PersistTraces : σ → String → Option Error × σ

/-- The interface `packageservice.PackageService` over the host state `σ`.
`DownloadManifest` returns `(packageArn, version, isSameAsCache, err)`. -/
structure PackageService (σ : Type) where
  PackageServiceName : String
  DownloadManifest : σ → String → String → (String × String × Bool × Option Error) × σ
  DownloadArtifact : σ → String → String → (String × Option Error) × σ
  ReportResult : σ → PackageResult → Option Error × σ

/-- What a run can see and change: the host and the output of the request. -/
structure St (σ : Type) where
  host : σ
  out : PluginOutputTrace

/-- A Go call either returns a value or panics. -/
inductive Res (α : Type) where
  | ok (a : α)
  | panicked (msg : String)
  deriving DecidableEq, Repr

/-- The result of running a piece of the plugin: its value, the state it leaves and the
calls it made, oldest first. -/
structure Run (σ α : Type) where
  val : Res α
  st : St σ
  calls : List Event

/-- A piece of the plugin, run from a state. -/
def M (σ α : Type) : Type := St σ → Run σ α

/-- Return a value, touching nothing. -/
def M.pure {σ α : Type} (a : α) : M σ α :=
  fun s => { val := Res.ok a, st := s, calls := [] }

/-- The run `r` after the calls `c`. -/
def Run.after {σ α : Type} (c : List Event) (r : Run σ α) : Run σ α :=
  { val := r.val, st := r.st, calls := c ++ r.calls }

/-- Sequencing: a panic stops the run where it happened. -/
def M.bind {σ α β : Type} (m : M σ α) (f : α → M σ β) : M σ β :=
  fun s =>
    match m s with
    | { val := Res.ok a, st := s1, calls := c1 } => Run.after c1 (f a s1)
    | { val := Res.panicked msg, st := s1, calls := c1 } =>
      { val := Res.panicked msg, st := s1, calls := c1 }

instance instMonadM {σ : Type} : Monad (M σ) where
  pure := M.pure
  bind := M.bind

/-- A logged call that may change the host. -/
def call {σ α : Type} (e : Event) (f : σ → α × σ) : M σ α :=
  fun s => { val := Res.ok (f s.host).1, st := { s with host := (f s.host).2 }, calls := [e] }

/-- A logged call that only reads the host. -/
def read {σ α : Type} (e : Event) (f : σ → α) : M σ α :=
  fun s => { val := Res.ok (f s.host), st := s, calls := [e] }

/-- A logged evaluation of a value. -/
def note {σ α : Type} (e : Event) (a : α) : M σ α :=
  fun s => { val := Res.ok a, st := s, calls := [e] }

/-- A logged step of another file of the package, which may change host and output. -/
def step {σ : Type} (e : Event) (f : St σ → St σ) : M σ Unit :=
  fun s => { val := Res.ok (), st := f s, calls := [e] }

/-- A method call on an interface value: a nil receiver panics. -/
def deref {σ α : Type} (x : Option α) : M σ α :=
  fun s =>
    match x with
    | (some a) => { val := Res.ok a, st := s, calls := [] }
    | none =>
      { val := Res.panicked "invalid memory address or nil pointer dereference", st := s,
        calls := [] }

/-- Go `defer`: the deferred call runs when the rest of the function is over, also when
it panicked. -/
def deferring {σ α : Type} (deferred : M σ Unit) (rest : M σ α) : M σ α :=
  fun s =>
    match rest s with
    | { val := v, st := s1, calls := c1 } =>
      match deferred s1 with
      | { val := Res.ok _, st := s2, calls := c2 } => { val := v, st := s2, calls := c1 ++ c2 }
      | { val := Res.panicked msg, st := s2, calls := c2 } =>
        { val := Res.panicked msg, st := s2, calls := c1 ++ c2 }

/-- `out.GetStatus()`. -/
def GetStatus {σ : Type} : M σ ResultStatus :=
  fun s => { val := Res.ok s.out.Status, st := s, calls := [] }

/-- The fresh `trace.PluginOutputTrace` of a request. -/
def newOutput {σ : Type} : M σ Unit :=
  fun s => { val := Res.ok (), st := { s with out := {} }, calls := [] }

/-- Modelled from the spec: `MarkAsFailed` of `trace.PluginOutputTrace`: the request is
marked failed. -/
def MarkAsFailed {σ : Type} : M σ Unit :=
  fun s =>
    { val := Res.ok (), st := { s with out := { s.out with Status := ResultStatus.Failed } },
      calls := [] }

/-- Modelled from the spec: `MarkAsSucceeded` of `trace.PluginOutputTrace`: the request
is marked succeeded. -/
def MarkAsSucceeded {σ : Type} : M σ Unit :=
  fun s =>
    { val := Res.ok (), st := { s with out := { s.out with Status := ResultStatus.Success } },
      calls := [] }

/-- Modelled from the spec: `MarkAsShutdown` of `trace.PluginOutputTrace`. -/
def MarkAsShutdown {σ : Type} : M σ Unit :=
  fun s =>
    { val := Res.ok (), st := { s with out := { s.out with Status := ResultStatus.Shutdown } },
      calls := [] }

/-- Modelled from the spec: `MarkAsCancelled` of `trace.PluginOutputTrace`. -/
def MarkAsCancelled {σ : Type} : M σ Unit :=
  fun s =>
    { val := Res.ok (),
      st := { s with out := { s.out with Status := ResultStatus.Cancelled } }, calls := [] }

/-- Modelled from the spec: `AppendErrorf` of `trace.PluginOutputTrace`: a warning, the
status is unchanged. -/
def AppendErrorf {σ : Type} (msg : String) : M σ Unit :=
  fun s =>
    { val := Res.ok (),
      st := { s with out := { s.out with Stderr := s.out.Stderr ++ [msg] } }, calls := [] }

/-- Modelled from the spec: `packageservice.Latest`, the sentinel version. -/
def Latest : String := "latest"

/-- The functions of other files and packages the plugin calls directly:
`jsonutil.Remarshal`, `packageservice.IsLatest`, `filesysdep.Uncompress`,
`filesysdep.RemoveAll`, and `cleanupAfterUninstall` and `executeConfigurePackage` of the
package itself. -/
structure Deps (σ : Type) where
  Remarshal : String → Except Error ConfigurePackagePluginInput
  IsLatest : String → Bool
  Uncompress : σ → String → String → Option Error × σ
  RemoveAll : σ → String → Option Error × σ
  cleanupAfterUninstall : Repository σ → Installer σ → St σ → St σ
  executeConfigurePackage : Repository σ → Option (Installer σ) → Option (Installer σ) →
    InstallState → St σ → St σ

/-- Plugin is the type for the configurepackage plugin. -/
structure Plugin (σ : Type) where
  packageServiceSelector : String → PackageService σ
  localRepository : Repository σ

/-- validateInput ensures the plugin input matches the defined schema.  The input is
passed by pointer in Go; the third component is the input after the call. -/
def validateInput (input : ConfigurePackagePluginInput) :
    Bool × Option Error × ConfigurePackagePluginInput :=
  if input.Source != "" then
    (false, some "source parameter is not supported in this version", input)
  else if input.Name == "" then
    (false, some "empty name field", input)
  else
    let input :=
      if input.Repository != "beta" && input.Repository != "gamma" then
        { input with Repository := "" }
      else input
    (true, none, input)

/-- parseAndValidateInput marshals raw JSON and returns the result of input validation
or an error. -/
def parseAndValidateInput {σ : Type} (deps : Deps σ) (rawPluginInput : String) :
    Except Error ConfigurePackagePluginInput :=
  match deps.Remarshal rawPluginInput with
  | Except.error err =>
    Except.error ("invalid format in plugin properties " ++ rawPluginInput ++ "; \nerror " ++ err)
  | Except.ok input =>
    match validateInput input with
    | (valid, err, input) =>
      if !valid then Except.error ("invalid input: " ++ err.getD "<nil>")
      else Except.ok input

/-- `repository.LockPackage`, logged. -/
def Repository.lockPackage {σ : Type} (r : Repository σ) (id action : String) :
    M σ (Option Error) :=
  call (Event.LockPackage id action) (fun h => r.LockPackage h id action)

/-- `repository.UnlockPackage`, logged. -/
def Repository.unlockPackage {σ : Type} (r : Repository σ) (id : String) : M σ Unit :=
  call (Event.UnlockPackage id) (fun h => ((), r.UnlockPackage h id))

/-- `repository.GetInstalledVersion`, logged. -/
def Repository.getInstalledVersion {σ : Type} (r : Repository σ) (id : String) : M σ String :=
  read (Event.GetInstalledVersion id) (fun h => r.GetInstalledVersion h id)

/-- `repository.GetInstallState`, logged. -/
def Repository.getInstallState {σ : Type} (r : Repository σ) (id : String) :
    M σ (InstallState × String) :=
  read (Event.GetInstallState id) (fun h => r.GetInstallState h id)

/-- `repository.SetInstallState`, logged. -/
def Repository.setInstallState {σ : Type} (r : Repository σ) (id version : String)
    (state : InstallState) : M σ (Option Error) :=
  call (Event.SetInstallState id version state) (fun h => r.SetInstallState h id version state)

/-- `repository.ValidatePackage`, logged. -/
def Repository.validatePackage {σ : Type} (r : Repository σ) (id version : String) :
    M σ (Option Error) :=
  call (Event.ValidatePackage id version) (fun h => r.ValidatePackage h id version)

/-- `repository.RefreshPackage`, logged.  The delegate runs inside the repository. -/
def Repository.refreshPackage {σ : Type} (r : Repository σ) (id version serviceName : String)
    (delegate : String → σ → Option Error × σ) : M σ (Option Error) :=
  call (Event.RefreshPackage id version serviceName)
    (fun h => r.RefreshPackage h id version serviceName delegate)

/-- `repository.GetInstaller`, logged. -/
def Repository.getInstaller {σ : Type} (r : Repository σ) (config : Configuration)
    (id version : String) : M σ (Installer σ) :=
  read (Event.GetInstaller id version) (fun h => r.GetInstaller h config id version)

/-- `repository.LoadTraces`, logged. -/
def Repository.loadTraces {σ : Type} (r : Repository σ) (id : String) : M σ (Option Error) :=
  call (Event.LoadTraces id) (fun h => r.LoadTraces h id)

/-- `repository.PersistTraces`, logged. -/
def Repository.persistTraces {σ : Type} (r : Repository σ) (id : String) : M σ (Option Error) :=
  call (Event.PersistTraces id) (fun h => r.PersistTraces h id)

/-- `packageService.DownloadManifest`, logged. -/
def PackageService.downloadManifest {σ : Type} (ps : PackageService σ) (name version : String) :
    M σ (String × String × Bool × Option Error) :=
  call (Event.DownloadManifest name version) (fun h => ps.DownloadManifest h name version)

/-- `packageService.ReportResult`, logged. -/
def PackageService.reportResult {σ : Type} (ps : PackageService σ) (result : PackageResult) :
    M σ (Option Error) :=
  call (Event.ReportResult result) (fun h => ps.ReportResult h result)

/-- The hook `Validate` of an installer, logged. -/
def Installer.validate {σ : Type} (i : Installer σ) : M σ HookOutput :=
  call (Event.Validate i.PackageName i.Version) i.Validate

/-- buildDownloadDelegate constructs the delegate used by the repository to download a
package from the service. -/
def buildDownloadDelegate {σ : Type} (deps : Deps σ) (packageService : PackageService σ)
    (packageName version : String) : String → σ → Option Error × σ :=
  fun targetDirectory h =>
    match packageService.DownloadArtifact h packageName version with
    | ((_, some err), h1) => (some err, h1)
    | ((filePath, none), h1) =>
      match deps.Uncompress h1 filePath targetDirectory with
      | (some uncompressErr, h2) =>
        (some ("failed to extract package installer package " ++ filePath ++ " from " ++
          targetDirectory ++ ", " ++ uncompressErr), h2)
      | (none, h2) =>
        match deps.RemoveAll h2 filePath with
        | (some cleanupErr, h3) =>
          (some ("failed to delete compressed package " ++ filePath ++ ", " ++ cleanupErr), h3)
        | (none, h3) => (none, h3)

/-- ensurePackage validates local copy of the manifest and package and downloads if
needed, returning the installer. -/
def ensurePackage {σ : Type} (deps : Deps σ) (repository : Repository σ)
    (packageService : PackageService σ) (packageName version : String) (isSameAsCache : Bool)
    (config : Configuration) : M σ (Except Error (Installer σ)) := do
  let (currentState, currentVersion) ← repository.getInstallState packageName
  let err ← repository.validatePackage packageName version
  if err.isSome ||
      (currentVersion == version &&
        (currentState == InstallState.Failed || !isSameAsCache)) then do
    let err ← repository.refreshPackage packageName version packageService.PackageServiceName
      (buildDownloadDelegate deps packageService packageName version)
    match err with
    | (some e) => pure (Except.error e)
    | none => do
      let err ← repository.validatePackage packageName version
      match err with
      | (some e) => pure (Except.error e)
      | none => do
        let i ← repository.getInstaller config packageName version
        pure (Except.ok i)
  else do
    let i ← repository.getInstaller config packageName version
    pure (Except.ok i)

/-- getVersionToInstall decides which version to install and whether there is an
existing version (that is not in the process of installing). -/
def getVersionToInstall {σ : Type} (repository : Repository σ) (packageArn : String) :
    M σ (String × InstallState) := do
  let installedVersion ← repository.getInstalledVersion packageArn
  let (currentState, currentVersion) ← repository.getInstallState packageArn
  if currentState == InstallState.Failed then
    pure (currentVersion, currentState)
  else
    pure (installedVersion, currentState)

/-- getVersionToUninstall decides which version to uninstall. -/
def getVersionToUninstall {σ : Type} (repository : Repository σ) (packageArn : String) :
    M σ (String × InstallState) := do
  let installedVersion ← repository.getInstalledVersion packageArn
  let (currentState, _) ← repository.getInstallState packageArn
  if installedVersion == "" then
    pure ("", InstallState.None)
  else
    pure (installedVersion, currentState)

/-- prepareConfigurePackage ensures the packages are present with the right version for
the scenario requested and returns their installers.  The result is
`(inst, uninst, installState, installedVersion)`; `output` is the output of the state. -/
def prepareConfigurePackage {σ : Type} (deps : Deps σ) (config : Configuration)
    (repository : Repository σ) (packageService : PackageService σ)
    (input : ConfigurePackagePluginInput) (packageArn version : String) (isSameAsCache : Bool) :
    M σ (Option (Installer σ) × Option (Installer σ) × InstallState × String) :=
  if input.Action == InstallAction then do
    let (installedVersion, installState) ← getVersionToInstall repository packageArn
    let r ← ensurePackage deps repository packageService packageArn version isSameAsCache config
    match r with
    | Except.error _ => do
      MarkAsFailed
      pure (none, none, installState, installedVersion)
    | Except.ok inst =>
      if !(installedVersion == "" || installState == InstallState.None) &&
          (installedVersion != version || !isSameAsCache) then do
        let r ← ensurePackage deps repository packageService packageArn installedVersion
          isSameAsCache config
        match r with
        | Except.error _ => pure (some inst, none, installState, installedVersion)
        | Except.ok uninst => pure (some inst, some uninst, installState, installedVersion)
      else
        pure (some inst, none, installState, installedVersion)
  else if input.Action == UninstallAction then do
    let (installedVersion, installState) ← getVersionToUninstall repository packageArn
    let version :=
      if input.Version == "" || deps.IsLatest input.Version then installedVersion else version
    if (installedVersion == "" || version != installedVersion) ||
        (installState == InstallState.None || installState == InstallState.Uninstalled) then do
      MarkAsSucceeded
      pure (none, none, InstallState.None, installedVersion)
    else do
      let r ← ensurePackage deps repository packageService packageArn installedVersion
        isSameAsCache config
      match r with
      | Except.error _ => do
        MarkAsFailed
        pure (none, none, installState, installedVersion)
      | Except.ok uninst => pure (none, some uninst, installState, installedVersion)
  else do
    MarkAsFailed
    pure (none, none, InstallState.None, "")

/-- `cleanupAfterUninstall` of the package, logged. -/
def cleanupAfterUninstall {σ : Type} (deps : Deps σ) (repository : Repository σ)
    (inst : Installer σ) : M σ Unit :=
  step (Event.cleanupAfterUninstall inst.PackageName inst.Version)
    (deps.cleanupAfterUninstall repository inst)

/-- `executeConfigurePackage` of the package, logged. -/
def executeConfigurePackage {σ : Type} (deps : Deps σ) (repository : Repository σ)
    (inst uninst : Option (Installer σ)) (installState : InstallState) : M σ Unit :=
  step Event.executeConfigurePackage
    (deps.executeConfigurePackage repository inst uninst installState)

/-- checkAlreadyInstalled returns true if the version being installed is already in a
valid installed state. -/
def checkAlreadyInstalled {σ : Type} (deps : Deps σ) (repository : Repository σ)
    (installedVersion : String) (installState : InstallState)
    (inst uninst : Option (Installer σ)) : M σ Bool :=
  match inst with
  | none => pure false
  | (some i) =>
    let targetVersion := i.Version
    let packageName := i.PackageName
    let instToCheck : Option (Installer σ) := none
    let instToCheck :=
      if uninst.isSome && installState == InstallState.RollbackInstall then uninst
      else instToCheck
    let instToCheck :=
      if (targetVersion == installedVersion &&
            (installState == InstallState.Installed || installState == InstallState.Unknown)) ||
          installState == InstallState.Installing then some i
      else instToCheck
    match instToCheck with
    | none => pure false
    | (some c) => do
      let validateOutput ← c.validate
      if validateOutput.Status == ResultStatus.Success then do
        if installState == InstallState.Installing then do
          match uninst with
          | (some u) => cleanupAfterUninstall deps repository u
          | none => pure ()
          MarkAsSucceeded
        else if installState == InstallState.RollbackInstall then do
          let _ ← deref uninst
          cleanupAfterUninstall deps repository i
          MarkAsFailed
        else
          MarkAsSucceeded
        if installState != InstallState.Installed && installState != InstallState.Unknown then do
          let _ ← repository.setInstallState packageName c.Version InstallState.Installed
          pure true
        else
          pure true
      else
        pure false

/-- The manifest download of a request: the version hint is `input.Version`, with the
sentinel for a latest version. -/
def getPackageArnAndVersion {σ : Type} (deps : Deps σ) (packageService : PackageService σ)
    (input : ConfigurePackagePluginInput) : M σ (String × String × Bool × Option Error) := do
  let version := if deps.IsLatest input.Version then Latest else input.Version
  let (packageArn, version, isSameAsCache, err) ←
    packageService.downloadManifest input.Name version
  match err with
  | (some e) => pure ("", "", false, some e)
  | none => pure (packageArn, version, isSameAsCache, none)

/-- The end of `Plugin.execute`: the status of the request is copied to the output. -/
def setOutput {σ : Type} : M σ IOHandler := do
  let status ← GetStatus
  pure { Status := status }

/-- The part of `Plugin.execute` that runs with the package locked, up to the report. -/
def executeLocked {σ : Type} (p : Plugin σ) (deps : Deps σ) (config : Configuration)
    (packageService : PackageService σ) (input : ConfigurePackagePluginInput)
    (packageArn manifestVersion : String) (isSameAsCache : Bool) : M σ Unit := do
  let (inst, uninst, installState, installedVersion) ←
    prepareConfigurePackage deps config p.localRepository packageService input packageArn
      manifestVersion isSameAsCache
  let status ← GetStatus
  if status != ResultStatus.Failed && status != ResultStatus.Success then do
    let alreadyInstalled ←
      checkAlreadyInstalled deps p.localRepository installedVersion installState inst uninst
    if !alreadyInstalled || !isSameAsCache then
      executeConfigurePackage deps p.localRepository inst uninst installState
    else
      pure ()
  else
    pure ()
  let _ ← p.localRepository.loadTraces packageArn
  let status ← GetStatus
  if status.IsReboot then do
    let _ ← p.localRepository.persistTraces packageArn
    pure ()
  else do
    let version ←
      if input.Action == InstallAction then do
        let i ← deref inst
        pure i.Version
      else if input.Action == UninstallAction then do
        let u ← deref uninst
        pure u.Version
      else
        pure manifestVersion
    let err ← packageService.reportResult
      { Operation := input.Action, PackageName := input.Name,
        PreviousPackageVersion := installedVersion, Version := version }
    match err with
    | (some e) => AppendErrorf ("Error reporting results: " ++ e)
    | none => pure ()

/-- The method `execute` of the plugin.  The deferred `UnlockPackage` runs when the
function is over, after the status has been copied to the output. -/
def Plugin.execute {σ : Type} (p : Plugin σ) (deps : Deps σ) (config : Configuration)
    (cancelFlag : CancelFlag) : M σ IOHandler := do
  newOutput
  if cancelFlag.ShutDown then do
    MarkAsShutdown
    setOutput
  else if cancelFlag.Canceled then do
    MarkAsCancelled
    setOutput
  else do
    let r ← note (Event.parseAndValidateInput config.Properties)
      (parseAndValidateInput deps config.Properties)
    match r with
    | Except.error _ => do
      MarkAsFailed
      setOutput
    | Except.ok input => do
      let packageService ← note (Event.packageServiceSelector input.Repository)
        (p.packageServiceSelector input.Repository)
      let (packageArn, manifestVersion, isSameAsCache, err) ←
        getPackageArnAndVersion deps packageService input
      match err with
      | (some _) => do
        MarkAsFailed
        setOutput
      | none => do
        let err ← p.localRepository.lockPackage packageArn input.Action
        match err with
        | (some _) => do
          MarkAsFailed
          setOutput
        | none =>
          deferring (p.localRepository.unlockPackage packageArn) (do
            executeLocked p deps config packageService input packageArn manifestVersion
              isSameAsCache
            setOutput)

/-- Calls of `Repository.UnlockPackage`. -/
def Event.isUnlockPackage : Event → Bool
  | Event.UnlockPackage _ => true
  | _ => false

/-- The calls `prepareConfigurePackage` can make: the reads of the record and the calls of
`ensurePackage`. -/
def Event.isEnsure : Event → Bool
  | Event.GetInstalledVersion _ => true
  | Event.GetInstallState _ => true
  | Event.ValidatePackage _ _ => true
  | Event.RefreshPackage _ _ _ => true
  | Event.GetInstaller _ _ => true
  | _ => false

/-- The calls `checkAlreadyInstalled` can make: the Validate hook, cleanupAfterUninstall and
SetInstallState. -/
def Event.isFastPath : Event → Bool
  | Event.Validate _ _ => true
  | Event.cleanupAfterUninstall _ _ => true
  | Event.SetInstallState _ _ _ => true
  | _ => false

/-- The calls that end the locked part of `Plugin.execute`: LoadTraces, PersistTraces and
ReportResult. -/
def Event.isReport : Event → Bool
  | Event.LoadTraces _ => true
  | Event.PersistTraces _ => true
  | Event.ReportResult _ => true
  | _ => false

/-- The calls the locked part of `Plugin.execute` can make. -/
def Event.isLocked (e : Event) : Bool :=
  e.isEnsure || e.isFastPath || e.isReport || e == Event.executeConfigurePackage

/-- Whether every call of a run satisfies `P`. -/
def Run.callsAll {σ α : Type} (P : Event → Bool) (r : Run σ α) : Bool :=
  r.calls.all P

/-! ## selectService -/

/-- The part of the `Birdwatcher` section of the application configuration that
selectService reads. -/
structure BirdwatcherCfg where
  ForceEnable : Bool
  deriving DecidableEq, Repr

/-- The part of `appconfig.SsmagentConfig` that selectService reads. -/
structure SsmagentConfig where
  Birdwatcher : BirdwatcherCfg
  deriving DecidableEq, Repr

/-- What selectService asks of the host: `platform.Region()`, `appconfig.Config(false)`, each
with its error, and the probe `ssms3.UseSSMS3Service` of a service endpoint and a region. -/
structure HostEnvironment where
  Region : String × Option Error
  Config : SsmagentConfig × Option Error
  UseSSMS3Service : String → String → Bool

/-- The client selectService builds: `birdwatcher.New(serviceEndpoint, localrepo)` or
`ssms3.New(serviceEndpoint, region)`. -/
inductive ServiceClient (ρ : Type) where
  | birdwatcher (serviceEndpoint : String) (localrepo : ρ)
  | ssms3 (serviceEndpoint region : String)
  deriving DecidableEq, Repr

/-- selectService chooses the implementation of PackageService to use for a given execution
of the plugin. -/
def selectService {ρ : Type} (env : HostEnvironment) (serviceEndpoint : String)
    (localrepo : ρ) : ServiceClient ρ :=
  let region := env.Region.1
  let (appCfg, err) := env.Config
  if (err.isNone && appCfg.Birdwatcher.ForceEnable) ||
      !env.UseSSMS3Service serviceEndpoint region then
    ServiceClient.birdwatcher serviceEndpoint localrepo
  else
    ServiceClient.ssms3 serviceEndpoint region

/-! ## A small host to run the plugin on -/

namespace Sample

/-- The host of the examples: the record of the one package, the versions whose local
copy validates, the versions for which the service serves a sound artifact, and whether
the service can be reached. -/
structure Host where
  installedVersion : String
  state : InstallState
  currentVersion : String
  valid : List String
  served : List String
  reachable : Bool
  deriving DecidableEq, Repr

/-- An installer all of whose hooks succeed. -/
def installer (packageName version : String) : Installer Host :=
  { PackageName := packageName
    Version := version
    Install := fun h => ({ Status := ResultStatus.Success }, h)
    Uninstall := fun h => ({ Status := ResultStatus.Success }, h)
    Validate := fun h => ({ Status := ResultStatus.Success }, h) }

/-- A repository over `Host`, following section 4.1 of the specification. -/
def repository : Repository Host :=
  { LockPackage := fun h _ _ => (none, h)
    UnlockPackage := fun h _ => h
    GetInstalledVersion := fun h _ => h.installedVersion
    GetInstallState := fun h _ => (h.state, h.currentVersion)
    SetInstallState := fun h _ version state =>
      (none,
        { h with
          state := state
          currentVersion := version
          installedVersion :=
            if state = InstallState.Installed then version else h.installedVersion })
    ValidatePackage := fun h _ version =>
      (if version ∈ h.valid then none else some "package content does not validate", h)
    RefreshPackage := fun h _ version _ delegate =>
      match delegate "scratch" { h with valid := h.valid.erase version } with
      | (some err, h1) => (some err, h1)
      | (none, h1) =>
        (none, if version ∈ h1.served then { h1 with valid := version :: h1.valid } else h1)
    GetInstaller := fun _ _ id version => installer id version
    LoadTraces := fun h _ => (none, h)
    PersistTraces := fun h _ => (none, h) }

/-- A package service that resolves every name and keeps the version it is asked for. -/
def service : PackageService Host :=
  { PackageServiceName := "birdwatcher"
    DownloadManifest := fun h name version => (("arn:" ++ name, version, true, none), h)
    DownloadArtifact := fun h id version =>
      if h.reachable then ((id ++ "_" ++ version ++ ".zip", none), h)
      else (("", some "artifact download failed"), h)
    ReportResult := fun h _ => (none, h) }

/-- A package service whose manifest is never the cached one. -/
def changedService : PackageService Host :=
  { service with
    DownloadManifest := fun h name version => (("arn:" ++ name, version, false, none), h) }

/-- The other functions the plugin calls; the raw properties parse to `input`. -/
def deps (input : ConfigurePackagePluginInput) : Deps Host :=
  { Remarshal := fun _ => Except.ok input
    IsLatest := fun version => version == Latest
    Uncompress := fun h _ _ => (none, h)
    RemoveAll := fun h _ => (none, h)
    cleanupAfterUninstall := fun _ _ s => s
    executeConfigurePackage := fun _ _ _ _ s => s }

/-- A request to install version 1.0 of package A. -/
def installA : ConfigurePackagePluginInput :=
  { Name := "A", Version := "1.0", Action := "Install", Source := "", Repository := "" }

/-- A request to install version 2.0 of package A. -/
def installA2 : ConfigurePackagePluginInput :=
  { Name := "A", Version := "2.0", Action := "Install", Source := "", Repository := "" }

/-- A request to uninstall package A, whatever its version. -/
def uninstallA : ConfigurePackagePluginInput :=
  { Name := "A", Version := "", Action := "Uninstall", Source := "", Repository := "" }

/-- A request to uninstall version 2.0 of package A. -/
def uninstallA2 : ConfigurePackagePluginInput :=
  { Name := "A", Version := "2.0", Action := "Uninstall", Source := "", Repository := "" }

/-- The plugin of the examples. -/
def plugin : Plugin Host :=
  { packageServiceSelector := fun _ => service
    localRepository := repository }

/-- A repository whose packages are locked by another request. -/
def lockedRepository : Repository Host :=
  { repository with LockPackage := fun h _ _ => (some "package is locked", h) }

/-- A plugin over the locked repository. -/
def lockedPlugin : Plugin Host :=
  { packageServiceSelector := fun _ => service
    localRepository := lockedRepository }

/-- An installer whose Validate hook fails. -/
def failingInstaller (packageName version : String) : Installer Host :=
  { installer packageName version with
    Validate := fun h => ({ Status := ResultStatus.Failed }, h) }

/-- A repository whose installers fail to validate. -/
def failingRepository : Repository Host :=
  { repository with GetInstaller := fun _ _ id version => failingInstaller id version }

/-- A plugin over the repository whose installers fail to validate. -/
def failingPlugin : Plugin Host :=
  { packageServiceSelector := fun _ => service
    localRepository := failingRepository }

/-- A plugin whose service never finds the manifest in the cache. -/
def changedPlugin : Plugin Host :=
  { packageServiceSelector := fun _ => changedService
    localRepository := repository }

/-- A request with an action that is neither Install nor Uninstall. -/
def repairA : ConfigurePackagePluginInput :=
  { Name := "A", Version := "1.0", Action := "Repair", Source := "", Repository := "" }

/-- A host on which nothing is installed and no local copy exists. -/
def emptyHost : Host :=
  { installedVersion := "", state := InstallState.None, currentVersion := "", valid := [],
    served := ["1.0"], reachable := true }

/-- A host on which version 1.0 is installed and validates. -/
def installedHost : Host :=
  { installedVersion := "1.0", state := InstallState.Installed, currentVersion := "1.0",
    valid := ["1.0"], served := ["1.0"], reachable := true }

/-- A host on which version 1.0 is installed and validates, and version 2.0 is served. -/
def upgradeHost : Host :=
  { installedVersion := "1.0", state := InstallState.Installed, currentVersion := "1.0",
    valid := ["1.0"], served := ["1.0", "2.0"], reachable := true }

/-- A host on which version 1.0 is installed, its local copy is lost and the service only
serves version 2.0. -/
def lostOldHost : Host :=
  { installedVersion := "1.0", state := InstallState.Installed, currentVersion := "1.0",
    valid := [], served := ["2.0"], reachable := true }

/-- A host on which nothing is installed and from which the service cannot be reached. -/
def unreachableHost : Host :=
  { installedVersion := "", state := InstallState.None, currentVersion := "", valid := [],
    served := ["1.0"], reachable := false }

/-- A host on which version 1.0 is installed, its local copy is lost and the service still
serves it. -/
def lostHost : Host :=
  { installedVersion := "1.0", state := InstallState.Installed, currentVersion := "1.0",
    valid := [], served := ["1.0"], reachable := true }

/-- The functions of `deps` with an execution that ends asking for a reboot. -/
def rebootDeps (input : ConfigurePackagePluginInput) : Deps Host :=
  { deps input with
    executeConfigurePackage := fun _ _ _ _ s =>
      { s with out := { s.out with Status := ResultStatus.RebootRequested } } }

/-- The state a request starts from on a host. -/
def start (h : Host) : St Host :=
  { host := h, out := {} }

/-- No cancellation. -/
def noCancel : CancelFlag :=
  { ShutDown := false, Canceled := false }

/-- The configuration of the examples. -/
def config : Configuration :=
  { Properties := "properties" }

end Sample

end ConfigurePackage

/-!
# File manager: embedding of `agent/plugins/executecommand/filemanager/filemanager.go`

The interface `FileSystem` is a record of functions over the state `φ` of the file
system; each method returns its results and the state it leaves.  Calls on the logger are
left out.  A Go `error` is an `Option Error`; a byte slice that may be `nil` is an `Option`
of the list of its bytes.
-/

namespace FileManager

/-- A Go `error` value, carried as its message. -/
abbrev Error := String

/-- FileSystem implements dependency on filesystem and os utility functions. -/
structure FileSystem (φ : Type) where
  MakeDirs : φ → String → Option Error × φ
  WriteFile : φ → String → String → Option Error × φ
  ReadFile : φ → String → (String × Option Error) × φ
  MoveAndRenameFile : φ → String → String → String → String → (Bool × Option Error) × φ
  DeleteFile : φ → String → Option Error × φ

/-- The conversion `[]byte(s)`: the bytes of the string, which is its UTF-8 encoding. -/
def bytes (s : String) : List Nat :=
  s.toUTF8.data.toList.map UInt8.toNat

/-- ReadFileContents is a method to read the contents of a give file path. -/
def ReadFileContents {φ : Type} (filesysdep : FileSystem φ) (destinationPath : String)
    (fs : φ) : (Option (List Nat) × Option Error) × φ :=
  match filesysdep.ReadFile fs destinationPath with
  | ((_, some err), fs1) => ((none, some err), fs1)
  | ((rawFile, none), fs1) =>
    if rawFile == "" then ((some (bytes rawFile), some "File is empty!"), fs1)
    else ((some (bytes rawFile), none), fs1)

namespace Sample

/-- A file system whose state is the list of its files, each a path and a content. -/
def disk : FileSystem (List (String × String)) :=
  { MakeDirs := fun fs _ => (none, fs)
    WriteFile := fun fs filename content =>
      (none, (filename, content) :: fs.filter (fun f => f.1 != filename))
    ReadFile := fun fs filename =>
      match fs.lookup filename with
      | some content => ((content, none), fs)
      | none => (("", some ("open " ++ filename ++ ": no such file or directory")), fs)
    MoveAndRenameFile := fun fs sourcePath sourceName destPath destName =>
      match fs.lookup (sourcePath ++ "/" ++ sourceName) with
      | some content =>
        ((true, none),
          (destPath ++ "/" ++ destName, content) ::
            fs.filter (fun f => f.1 != sourcePath ++ "/" ++ sourceName &&
              f.1 != destPath ++ "/" ++ destName))
      | none => ((false, some "no such file or directory"), fs)
    DeleteFile := fun fs filename => (none, fs.filter (fun f => f.1 != filename)) }

/-- A disk with a script and an empty file. -/
def files : List (String × String) :=
  [("run.sh", "ok"), ("empty.txt", "")]

end Sample

end FileManager

namespace ConfigurePackage

/-! ## The monad of runs -/

/-- Sequencing in `M` is `M.bind`. -/
theorem bind_run {σ α β : Type} (m : M σ α) (f : α → M σ β) (s : St σ) :
    (m >>= f) s = M.bind m f s := rfl

/-- Returning a value makes no call and leaves the state. -/
theorem pure_run {σ α : Type} (a : α) (s : St σ) :
    (pure a : M σ α) s = { val := Res.ok a, st := s, calls := [] } := rfl

/-! ## validateInput -/

/-- C1: validateInput returns `(true, nil)` exactly when `Source` is empty and `Name` is
not, and `(false, err)` with a non-nil `err` exactly when `Source` is non-empty or `Name`
is empty. -/
theorem validateInput_accepts_iff (input : ConfigurePackagePluginInput) :
    (((validateInput input).1 = true ∧ (validateInput input).2.1 = none) ↔
        (input.Source = "" ∧ input.Name ≠ "")) ∧
      (((validateInput input).1 = false ∧ (validateInput input).2.1 ≠ none) ↔
        (input.Source ≠ "" ∨ input.Name = "")) := by
  unfold validateInput
  by_cases hs : input.Source = "" <;> by_cases hn : input.Name = "" <;> simp [hs, hn]

/-- C2: on an accepted input validateInput keeps `"beta"` and `"gamma"` in `Repository`
and replaces every other value by `""`; `Name`, `Version`, `Action` and `Source` are
unchanged, and validating the validated input again accepts it and changes nothing. -/
theorem validateInput_normalizes_repository (input : ConfigurePackagePluginInput)
    (h : (validateInput input).1 = true) :
    (validateInput input).2.2.Repository =
        (if input.Repository = "beta" then "beta"
         else if input.Repository = "gamma" then "gamma" else "") ∧
      (validateInput input).2.2.Name = input.Name ∧
      (validateInput input).2.2.Version = input.Version ∧
      (validateInput input).2.2.Action = input.Action ∧
      (validateInput input).2.2.Source = input.Source ∧
      validateInput (validateInput input).2.2 = (true, none, (validateInput input).2.2) := by
  unfold validateInput at h ⊢
  by_cases hs : input.Source = ""
  · by_cases hn : input.Name = ""
    · simp [hs, hn] at h
    · by_cases hb : input.Repository = "beta"
      · simp [hs, hn, hb]
      · by_cases hg : input.Repository = "gamma"
        · simp [hs, hn, hg]
        · simp [hs, hn, hb, hg]
  · simp [hs] at h

/-- C2, on a request for an unknown repository. -/
theorem validateInput_normalizes_repository_witness :
    (validateInput
        { Name := "A", Version := "1.0", Action := "Install", Source := "",
          Repository := "prod" }).1 = true ∧
      (validateInput
        { Name := "A", Version := "1.0", Action := "Install", Source := "",
          Repository := "prod" }).2.2.Repository = "" :=
  ⟨by decide,
    by
      have h := validateInput_normalizes_repository
        { Name := "A", Version := "1.0", Action := "Install", Source := "",
          Repository := "prod" } (by decide)
      simpa using h.1⟩


/-! ## ensurePackage -/

/-- Calls made before a run are put in front of its calls. -/
@[simp] theorem Run.after_mk {σ α : Type} (c : List Event) (v : Res α) (s : St σ)
    (c2 : List Event) :
    Run.after c ({ val := v, st := s, calls := c2 } : Run σ α) =
      { val := v, st := s, calls := c ++ c2 } := rfl

/-- Putting calls in front of a run twice. -/
theorem Run.after_after {σ α : Type} (c c2 : List Event) (r : Run σ α) :
    Run.after c (Run.after c2 r) = Run.after (c ++ c2) r := by
  simp [Run.after]

/-- The refresh condition of `ensurePackage`, as a proposition. -/
theorem refresh_condition_iff (verr : Option Error) (currentState : InstallState)
    (currentVersion version : String) (isSameAsCache : Bool) :
    ((verr.isSome ||
        (currentVersion == version &&
          (currentState == InstallState.Failed || !isSameAsCache))) = true) ↔
      (verr ≠ none ∨
        (currentVersion = version ∧
          (currentState = InstallState.Failed ∨ isSameAsCache = false))) := by
  cases verr <;> simp

/-- No refresh is needed: the installer is built from the local copy. -/
theorem ensurePackage_cached {σ : Type} (deps : Deps σ) (repository : Repository σ)
    (packageService : PackageService σ) (packageName version : String) (isSameAsCache : Bool)
    (config : Configuration) (s : St σ) (verr : Option Error) (h1 : σ)
    (hv : repository.ValidatePackage s.host packageName version = (verr, h1))
    (hc : ¬ (verr ≠ none ∨
      ((repository.GetInstallState s.host packageName).2 = version ∧
        ((repository.GetInstallState s.host packageName).1 = InstallState.Failed ∨
          isSameAsCache = false)))) :
    ensurePackage deps repository packageService packageName version isSameAsCache config s =
      { val := Res.ok (Except.ok (repository.GetInstaller h1 config packageName version)),
        st := { host := h1, out := s.out },
        calls := [Event.GetInstallState packageName, Event.ValidatePackage packageName version,
          Event.GetInstaller packageName version] } := by
  unfold ensurePackage
  simp only [bind_run, M.bind, Repository.getInstallState, Repository.validatePackage, read,
    call, Run.after_mk, hv]
  rw [if_neg (fun h => hc ((refresh_condition_iff _ _ _ _ _).mp h))]
  simp [bind_run, pure_run, M.bind, Repository.getInstaller, read]

/-- The refresh fails: its error is returned. -/
theorem ensurePackage_refresh_error {σ : Type} (deps : Deps σ) (repository : Repository σ)
    (packageService : PackageService σ) (packageName version : String) (isSameAsCache : Bool)
    (config : Configuration) (s : St σ) (verr : Option Error) (h1 h2 : σ) (e : Error)
    (hv : repository.ValidatePackage s.host packageName version = (verr, h1))
    (hc : verr ≠ none ∨
      ((repository.GetInstallState s.host packageName).2 = version ∧
        ((repository.GetInstallState s.host packageName).1 = InstallState.Failed ∨
          isSameAsCache = false)))
    (hr : repository.RefreshPackage h1 packageName version packageService.PackageServiceName
      (buildDownloadDelegate deps packageService packageName version) = (some e, h2)) :
    ensurePackage deps repository packageService packageName version isSameAsCache config s =
      { val := Res.ok (Except.error e),
        st := { host := h2, out := s.out },
        calls := [Event.GetInstallState packageName, Event.ValidatePackage packageName version,
          Event.RefreshPackage packageName version packageService.PackageServiceName] } := by
  unfold ensurePackage
  simp only [bind_run, M.bind, Repository.getInstallState, Repository.validatePackage, read,
    call, Run.after_mk, hv]
  rw [if_pos ((refresh_condition_iff _ _ _ _ _).mpr hc)]
  simp [bind_run, pure_run, M.bind, Repository.refreshPackage, call, hr]

/-- The refresh succeeds and the content still does not validate. -/
theorem ensurePackage_revalidate_error {σ : Type} (deps : Deps σ) (repository : Repository σ)
    (packageService : PackageService σ) (packageName version : String) (isSameAsCache : Bool)
    (config : Configuration) (s : St σ) (verr : Option Error) (h1 h2 h3 : σ) (e : Error)
    (hv : repository.ValidatePackage s.host packageName version = (verr, h1))
    (hc : verr ≠ none ∨
      ((repository.GetInstallState s.host packageName).2 = version ∧
        ((repository.GetInstallState s.host packageName).1 = InstallState.Failed ∨
          isSameAsCache = false)))
    (hr : repository.RefreshPackage h1 packageName version packageService.PackageServiceName
      (buildDownloadDelegate deps packageService packageName version) = (none, h2))
    (hv2 : repository.ValidatePackage h2 packageName version = (some e, h3)) :
    ensurePackage deps repository packageService packageName version isSameAsCache config s =
      { val := Res.ok (Except.error e),
        st := { host := h3, out := s.out },
        calls := [Event.GetInstallState packageName, Event.ValidatePackage packageName version,
          Event.RefreshPackage packageName version packageService.PackageServiceName,
          Event.ValidatePackage packageName version] } := by
  unfold ensurePackage
  simp only [bind_run, M.bind, Repository.getInstallState, Repository.validatePackage, read,
    call, Run.after_mk, hv]
  rw [if_pos ((refresh_condition_iff _ _ _ _ _).mpr hc)]
  simp [bind_run, pure_run, M.bind, Repository.refreshPackage, Repository.validatePackage, call,
    hr, hv2]

/-- The refresh succeeds and the refreshed content validates. -/
theorem ensurePackage_refreshed {σ : Type} (deps : Deps σ) (repository : Repository σ)
    (packageService : PackageService σ) (packageName version : String) (isSameAsCache : Bool)
    (config : Configuration) (s : St σ) (verr : Option Error) (h1 h2 h3 : σ)
    (hv : repository.ValidatePackage s.host packageName version = (verr, h1))
    (hc : verr ≠ none ∨
      ((repository.GetInstallState s.host packageName).2 = version ∧
        ((repository.GetInstallState s.host packageName).1 = InstallState.Failed ∨
          isSameAsCache = false)))
    (hr : repository.RefreshPackage h1 packageName version packageService.PackageServiceName
      (buildDownloadDelegate deps packageService packageName version) = (none, h2))
    (hv2 : repository.ValidatePackage h2 packageName version = (none, h3)) :
    ensurePackage deps repository packageService packageName version isSameAsCache config s =
      { val := Res.ok (Except.ok (repository.GetInstaller h3 config packageName version)),
        st := { host := h3, out := s.out },
        calls := [Event.GetInstallState packageName, Event.ValidatePackage packageName version,
          Event.RefreshPackage packageName version packageService.PackageServiceName,
          Event.ValidatePackage packageName version, Event.GetInstaller packageName version] } := by
  unfold ensurePackage
  simp only [bind_run, M.bind, Repository.getInstallState, Repository.validatePackage, read,
    call, Run.after_mk, hv]
  rw [if_pos ((refresh_condition_iff _ _ _ _ _).mpr hc)]
  simp [bind_run, pure_run, M.bind, Repository.refreshPackage, Repository.validatePackage,
    Repository.getInstaller, call, read, hr, hv2]

/-- What every run of `ensurePackage` has in common: it returns, it leaves the output of the
request alone, it starts by reading the install state and validating the package, and it
calls no installer hook and never writes the install state. -/
theorem ensurePackage_frame {σ : Type} (deps : Deps σ) (repository : Repository σ)
    (packageService : PackageService σ) (packageName version : String) (isSameAsCache : Bool)
    (config : Configuration) (s : St σ) :
    (∃ r, (ensurePackage deps repository packageService packageName version isSameAsCache
        config s).val = Res.ok r) ∧
      (ensurePackage deps repository packageService packageName version isSameAsCache
        config s).st.out = s.out ∧
      (∃ rest, (ensurePackage deps repository packageService packageName version isSameAsCache
        config s).calls =
          Event.GetInstallState packageName :: Event.ValidatePackage packageName version :: rest) ∧
      (∀ e ∈ (ensurePackage deps repository packageService packageName version isSameAsCache
        config s).calls, e.isHook = false ∧ e.isSetInstallState = false) := by
  rcases hv : repository.ValidatePackage s.host packageName version with ⟨verr, h1⟩
  by_cases hc : verr ≠ none ∨
      ((repository.GetInstallState s.host packageName).2 = version ∧
        ((repository.GetInstallState s.host packageName).1 = InstallState.Failed ∨
          isSameAsCache = false))
  · rcases hr : repository.RefreshPackage h1 packageName version
        packageService.PackageServiceName
        (buildDownloadDelegate deps packageService packageName version) with ⟨rerr, h2⟩
    cases rerr with
    | some e =>
      rw [ensurePackage_refresh_error deps repository packageService packageName version
        isSameAsCache config s verr h1 h2 e hv hc hr]
      simp [Event.isHook, Event.isSetInstallState]
    | none =>
      rcases hv2 : repository.ValidatePackage h2 packageName version with ⟨verr2, h3⟩
      cases verr2 with
      | some e =>
        rw [ensurePackage_revalidate_error deps repository packageService packageName version
          isSameAsCache config s verr h1 h2 h3 e hv hc hr hv2]
        simp [Event.isHook, Event.isSetInstallState]
      | none =>
        rw [ensurePackage_refreshed deps repository packageService packageName version
          isSameAsCache config s verr h1 h2 h3 hv hc hr hv2]
        simp [Event.isHook, Event.isSetInstallState]
  · rw [ensurePackage_cached deps repository packageService packageName version
      isSameAsCache config s verr h1 hv hc]
    simp [Event.isHook, Event.isSetInstallState]

/-- C8: ensurePackage calls RefreshPackage if and only if the initial ValidatePackage fails,
or the current version of the record is the requested one and the state is Failed or the
manifest is not the cached one; exactly when neither holds it makes no other call than
GetInstallState, ValidatePackage and GetInstaller and returns the installer for
`(packageName, version)`. -/
theorem ensurePackage_refreshes_iff {σ : Type} (deps : Deps σ) (repository : Repository σ)
    (packageService : PackageService σ) (packageName version : String) (isSameAsCache : Bool)
    (config : Configuration) (s : St σ) :
    ((∃ e ∈ (ensurePackage deps repository packageService packageName version isSameAsCache
          config s).calls, e.isRefreshPackage = true) ↔
        ((repository.ValidatePackage s.host packageName version).1 ≠ none ∨
          ((repository.GetInstallState s.host packageName).2 = version ∧
            ((repository.GetInstallState s.host packageName).1 = InstallState.Failed ∨
              isSameAsCache = false)))) ∧
      (ensurePackage deps repository packageService packageName version isSameAsCache config s =
          { val := Res.ok (Except.ok (repository.GetInstaller
              (repository.ValidatePackage s.host packageName version).2 config packageName
              version)),
            st := { host := (repository.ValidatePackage s.host packageName version).2,
                    out := s.out },
            calls := [Event.GetInstallState packageName,
              Event.ValidatePackage packageName version,
              Event.GetInstaller packageName version] } ↔
        ¬ ((repository.ValidatePackage s.host packageName version).1 ≠ none ∨
          ((repository.GetInstallState s.host packageName).2 = version ∧
            ((repository.GetInstallState s.host packageName).1 = InstallState.Failed ∨
              isSameAsCache = false)))) := by
  rcases hv : repository.ValidatePackage s.host packageName version with ⟨verr, h1⟩
  by_cases hc : verr ≠ none ∨
      ((repository.GetInstallState s.host packageName).2 = version ∧
        ((repository.GetInstallState s.host packageName).1 = InstallState.Failed ∨
          isSameAsCache = false))
  · rcases hr : repository.RefreshPackage h1 packageName version
        packageService.PackageServiceName
        (buildDownloadDelegate deps packageService packageName version) with ⟨rerr, h2⟩
    cases rerr with
    | some e =>
      rw [ensurePackage_refresh_error deps repository packageService packageName version
        isSameAsCache config s verr h1 h2 e hv hc hr]
      simp [Event.isRefreshPackage, hc]
    | none =>
      rcases hv2 : repository.ValidatePackage h2 packageName version with ⟨verr2, h3⟩
      cases verr2 with
      | some e =>
        rw [ensurePackage_revalidate_error deps repository packageService packageName version
          isSameAsCache config s verr h1 h2 h3 e hv hc hr hv2]
        simp [Event.isRefreshPackage, hc]
      | none =>
        rw [ensurePackage_refreshed deps repository packageService packageName version
          isSameAsCache config s verr h1 h2 h3 hv hc hr hv2]
        simp [Event.isRefreshPackage, hc]
  · rw [ensurePackage_cached deps repository packageService packageName version
      isSameAsCache config s verr h1 hv hc]
    simp [Event.isRefreshPackage, hc]


/-- C9: once a refresh is performed, ensurePackage returns the error of RefreshPackage and no
installer when the refresh fails, returns the error of the ValidatePackage run after the
refresh and no installer when that fails, without calling GetInstaller in either case, and
returns an installer only if both succeeded, which is then `GetInstaller` of the
refreshed content. -/
theorem ensurePackage_after_refresh {σ : Type} (deps : Deps σ) (repository : Repository σ)
    (packageService : PackageService σ) (packageName version : String) (isSameAsCache : Bool)
    (config : Configuration) (s : St σ) (verr rerr verr2 : Option Error) (h1 h2 h3 : σ)
    (hv : repository.ValidatePackage s.host packageName version = (verr, h1))
    (hc : verr ≠ none ∨
      ((repository.GetInstallState s.host packageName).2 = version ∧
        ((repository.GetInstallState s.host packageName).1 = InstallState.Failed ∨
          isSameAsCache = false)))
    (hr : repository.RefreshPackage h1 packageName version packageService.PackageServiceName
      (buildDownloadDelegate deps packageService packageName version) = (rerr, h2))
    (hv2 : repository.ValidatePackage h2 packageName version = (verr2, h3)) :
    (∀ e, rerr = some e →
        ensurePackage deps repository packageService packageName version isSameAsCache config s =
          { val := Res.ok (Except.error e), st := { host := h2, out := s.out },
            calls := [Event.GetInstallState packageName,
              Event.ValidatePackage packageName version,
              Event.RefreshPackage packageName version packageService.PackageServiceName] }) ∧
      (∀ e, rerr = none → verr2 = some e →
        ensurePackage deps repository packageService packageName version isSameAsCache config s =
          { val := Res.ok (Except.error e), st := { host := h3, out := s.out },
            calls := [Event.GetInstallState packageName,
              Event.ValidatePackage packageName version,
              Event.RefreshPackage packageName version packageService.PackageServiceName,
              Event.ValidatePackage packageName version] }) ∧
      (∀ i, (ensurePackage deps repository packageService packageName version isSameAsCache
            config s).val = Res.ok (Except.ok i) ↔
          (rerr = none ∧ verr2 = none ∧
            i = repository.GetInstaller h3 config packageName version)) := by
  refine ⟨?_, ?_, ?_⟩
  · intro e he
    subst he
    exact ensurePackage_refresh_error deps repository packageService packageName version
      isSameAsCache config s verr h1 h2 e hv hc hr
  · intro e he he2
    subst he he2
    exact ensurePackage_revalidate_error deps repository packageService packageName version
      isSameAsCache config s verr h1 h2 h3 e hv hc hr hv2
  · intro i
    cases rerr with
    | some e =>
      rw [ensurePackage_refresh_error deps repository packageService packageName version
        isSameAsCache config s verr h1 h2 e hv hc hr]
      simp
    | none =>
      cases verr2 with
      | some e =>
        rw [ensurePackage_revalidate_error deps repository packageService packageName version
          isSameAsCache config s verr h1 h2 h3 e hv hc hr hv2]
        simp
      | none =>
        rw [ensurePackage_refreshed deps repository packageService packageName version
          isSameAsCache config s verr h1 h2 h3 hv hc hr hv2]
        simp [eq_comm]

/-- C9, on a host without a local copy of version 1.0, which the service serves. -/
theorem ensurePackage_after_refresh_witness :
    Sample.repository.ValidatePackage Sample.emptyHost "arn:A" "1.0" =
        (some "package content does not validate", Sample.emptyHost) ∧
      (ensurePackage (Sample.deps Sample.installA) Sample.repository Sample.service "arn:A" "1.0"
          true Sample.config (Sample.start Sample.emptyHost)).val =
        Res.ok (Except.ok (Sample.repository.GetInstaller
          { Sample.emptyHost with valid := ["1.0"] } Sample.config "arn:A" "1.0")) :=
  ⟨by decide,
    ((ensurePackage_after_refresh (Sample.deps Sample.installA) Sample.repository Sample.service
      "arn:A" "1.0" true Sample.config (Sample.start Sample.emptyHost)
      (some "package content does not validate") none none Sample.emptyHost
      { Sample.emptyHost with valid := ["1.0"] } { Sample.emptyHost with valid := ["1.0"] }
      (by decide) (Or.inl (by decide)) (by decide) (by decide)).2.2 _).mpr ⟨rfl, rfl, rfl⟩⟩

/-! ## prepareConfigurePackage -/

/-- The run of `getVersionToInstall`: two reads of the record. -/
theorem getVersionToInstall_run {σ : Type} (repository : Repository σ) (packageArn : String)
    (s : St σ) :
    getVersionToInstall repository packageArn s =
      { val := Res.ok
          (if (repository.GetInstallState s.host packageArn).1 = InstallState.Failed then
              (repository.GetInstallState s.host packageArn).2
            else repository.GetInstalledVersion s.host packageArn,
            (repository.GetInstallState s.host packageArn).1),
        st := s,
        calls := [Event.GetInstalledVersion packageArn, Event.GetInstallState packageArn] } := by
  unfold getVersionToInstall
  simp only [bind_run, M.bind, Repository.getInstalledVersion, Repository.getInstallState, read,
    Run.after_mk]
  split <;> simp_all [pure_run]

/-- The run of `getVersionToUninstall`: two reads of the record. -/
theorem getVersionToUninstall_run {σ : Type} (repository : Repository σ) (packageArn : String)
    (s : St σ) :
    getVersionToUninstall repository packageArn s =
      { val := Res.ok
          (if repository.GetInstalledVersion s.host packageArn = "" then
              ("", InstallState.None)
            else (repository.GetInstalledVersion s.host packageArn,
              (repository.GetInstallState s.host packageArn).1)),
        st := s,
        calls := [Event.GetInstalledVersion packageArn, Event.GetInstallState packageArn] } := by
  unfold getVersionToUninstall
  simp only [bind_run, M.bind, Repository.getInstalledVersion, Repository.getInstallState, read,
    Run.after_mk]
  split <;> simp_all [pure_run]


/-- The run of `prepareConfigurePackage` on an Uninstall request that short-circuits. -/
theorem prepare_uninstall_short {σ : Type} (deps : Deps σ)
    (config : Configuration) (repository : Repository σ) (packageService : PackageService σ)
    (input : ConfigurePackagePluginInput) (packageArn version : String) (isSameAsCache : Bool)
    (s : St σ) (hA : input.Action = UninstallAction)
    (h : repository.GetInstalledVersion s.host packageArn = "" ∨
      (if input.Version = "" ∨ deps.IsLatest input.Version = true then
          repository.GetInstalledVersion s.host packageArn
        else version) ≠ repository.GetInstalledVersion s.host packageArn ∨
      (repository.GetInstallState s.host packageArn).1 = InstallState.None ∨
      (repository.GetInstallState s.host packageArn).1 = InstallState.Uninstalled) :
    prepareConfigurePackage deps config repository packageService input packageArn version
        isSameAsCache s =
      { val := Res.ok (none, none, InstallState.None,
          repository.GetInstalledVersion s.host packageArn),
        st := { host := s.host, out := { s.out with Status := ResultStatus.Success } },
        calls := [Event.GetInstalledVersion packageArn, Event.GetInstallState packageArn] } := by
  unfold prepareConfigurePackage
  rw [hA, if_neg (by decide), if_pos (by decide)]
  simp only [bind_run, M.bind, getVersionToUninstall_run, Run.after_mk]
  by_cases hiv : repository.GetInstalledVersion s.host packageArn = ""
  · simp [hiv, bind_run, pure_run, M.bind, MarkAsSucceeded]
  · simp only [hiv, if_false]
    rw [if_pos]
    · simp [bind_run, pure_run, M.bind, MarkAsSucceeded]
    · rcases h with h | h | h | h
      · exact absurd h hiv
      · simp only [Bool.or_eq_true, bne_iff_ne, ne_eq, beq_iff_eq]
        left; right
        simpa using h
      · simp [h]
      · simp [h]

/-- C3: an Uninstall request short-circuits when nothing is installed, when the version to
uninstall is not the installed one, or when the record is in state None or Uninstalled:
prepareConfigurePackage marks the output succeeded, returns no installer and the state None,
leaves the host as it is, and its only calls are the two reads of the record. -/
theorem prepareConfigurePackage_uninstall_short_circuit {σ : Type} (deps : Deps σ)
    (config : Configuration) (repository : Repository σ) (packageService : PackageService σ)
    (input : ConfigurePackagePluginInput) (packageArn version : String) (isSameAsCache : Bool)
    (s : St σ) (hA : input.Action = UninstallAction)
    (h : repository.GetInstalledVersion s.host packageArn = "" ∨
      (if input.Version = "" ∨ deps.IsLatest input.Version = true then
          repository.GetInstalledVersion s.host packageArn
        else version) ≠ repository.GetInstalledVersion s.host packageArn ∨
      (repository.GetInstallState s.host packageArn).1 = InstallState.None ∨
      (repository.GetInstallState s.host packageArn).1 = InstallState.Uninstalled) :
    (prepareConfigurePackage deps config repository packageService input packageArn version
        isSameAsCache s).val =
        Res.ok (none, none, InstallState.None,
          repository.GetInstalledVersion s.host packageArn) ∧
      (prepareConfigurePackage deps config repository packageService input packageArn version
        isSameAsCache s).st.out.Status = ResultStatus.Success ∧
      (prepareConfigurePackage deps config repository packageService input packageArn version
        isSameAsCache s).st.host = s.host ∧
      (prepareConfigurePackage deps config repository packageService input packageArn version
        isSameAsCache s).calls =
        [Event.GetInstalledVersion packageArn, Event.GetInstallState packageArn] ∧
      (∀ e ∈ (prepareConfigurePackage deps config repository packageService input packageArn
          version isSameAsCache s).calls,
        e.isValidatePackage = false ∧ e.isRefreshPackage = false ∧ e.isGetInstaller = false ∧
          e.isSetInstallState = false ∧ e.isHook = false) := by
  rw [prepare_uninstall_short deps config repository packageService input packageArn version
    isSameAsCache s hA h]
  simp [Event.isValidatePackage, Event.isRefreshPackage, Event.isGetInstaller,
    Event.isSetInstallState, Event.isHook]

/-- C3, on a request to uninstall version 2.0 from a host where version 1.0 is installed. -/
theorem prepareConfigurePackage_uninstall_short_circuit_witness :
    (prepareConfigurePackage (Sample.deps Sample.uninstallA2) Sample.config Sample.repository
        Sample.service Sample.uninstallA2 "arn:A" "2.0" true
        (Sample.start Sample.installedHost)).val =
        Res.ok (none, none, InstallState.None, "1.0") ∧
      (prepareConfigurePackage (Sample.deps Sample.uninstallA2) Sample.config Sample.repository
        Sample.service Sample.uninstallA2 "arn:A" "2.0" true
        (Sample.start Sample.installedHost)).st.out.Status = ResultStatus.Success :=
  ⟨(prepareConfigurePackage_uninstall_short_circuit (Sample.deps Sample.uninstallA2)
      Sample.config Sample.repository Sample.service Sample.uninstallA2 "arn:A" "2.0" true
      (Sample.start Sample.installedHost) rfl (Or.inr (Or.inl (by decide)))).1,
    (prepareConfigurePackage_uninstall_short_circuit (Sample.deps Sample.uninstallA2)
      Sample.config Sample.repository Sample.service Sample.uninstallA2 "arn:A" "2.0" true
      (Sample.start Sample.installedHost) rfl (Or.inr (Or.inl (by decide)))).2.1⟩

/-- An Install request whose target cannot be ensured is marked failed. -/
theorem prepare_install_error {σ : Type} (deps : Deps σ)
    (config : Configuration) (repository : Repository σ) (packageService : PackageService σ)
    (input : ConfigurePackagePluginInput) (packageArn version : String) (isSameAsCache : Bool)
    (s s1 : St σ) (c1 : List Event) (e : Error) (hA : input.Action = InstallAction)
    (h1 : ensurePackage deps repository packageService packageArn version isSameAsCache config s =
      { val := Res.ok (Except.error e), st := s1, calls := c1 }) :
    prepareConfigurePackage deps config repository packageService input packageArn version
        isSameAsCache s =
      { val := Res.ok (none, none, (repository.GetInstallState s.host packageArn).1,
          if (repository.GetInstallState s.host packageArn).1 = InstallState.Failed then
            (repository.GetInstallState s.host packageArn).2
          else repository.GetInstalledVersion s.host packageArn),
        st := { host := s1.host, out := { s1.out with Status := ResultStatus.Failed } },
        calls := [Event.GetInstalledVersion packageArn, Event.GetInstallState packageArn] ++
          c1 } := by
  unfold prepareConfigurePackage
  rw [hA, if_pos (by decide)]
  simp [bind_run, pure_run, M.bind, getVersionToInstall_run, Run.after_mk, h1, MarkAsFailed]

/-- An Install request whose target is ensured and that has no old version to ensure. -/
theorem prepare_install_fresh {σ : Type} (deps : Deps σ)
    (config : Configuration) (repository : Repository σ) (packageService : PackageService σ)
    (input : ConfigurePackagePluginInput) (packageArn version : String) (isSameAsCache : Bool)
    (s s1 : St σ) (c1 : List Event) (inst : Installer σ) (hA : input.Action = InstallAction)
    (h1 : ensurePackage deps repository packageService packageArn version isSameAsCache config s =
      { val := Res.ok (Except.ok inst), st := s1, calls := c1 })
    (hc : ¬ ((if (repository.GetInstallState s.host packageArn).1 = InstallState.Failed then
            (repository.GetInstallState s.host packageArn).2
          else repository.GetInstalledVersion s.host packageArn) ≠ "" ∧
        (repository.GetInstallState s.host packageArn).1 ≠ InstallState.None ∧
        ((if (repository.GetInstallState s.host packageArn).1 = InstallState.Failed then
            (repository.GetInstallState s.host packageArn).2
          else repository.GetInstalledVersion s.host packageArn) ≠ version ∨
          isSameAsCache = false))) :
    prepareConfigurePackage deps config repository packageService input packageArn version
        isSameAsCache s =
      { val := Res.ok (some inst, none, (repository.GetInstallState s.host packageArn).1,
          if (repository.GetInstallState s.host packageArn).1 = InstallState.Failed then
            (repository.GetInstallState s.host packageArn).2
          else repository.GetInstalledVersion s.host packageArn),
        st := s1,
        calls := [Event.GetInstalledVersion packageArn, Event.GetInstallState packageArn] ++
          c1 } := by
  unfold prepareConfigurePackage
  rw [hA, if_pos (by decide)]
  simp only [bind_run, M.bind, getVersionToInstall_run, Run.after_mk, h1]
  rw [if_neg]
  · simp [pure_run]
  · intro hcond
    apply hc
    simpa [and_assoc, not_or] using hcond

/-- An Install request whose target is ensured and that has an old version to ensure. -/
theorem prepare_install_upgrade {σ : Type} (deps : Deps σ)
    (config : Configuration) (repository : Repository σ) (packageService : PackageService σ)
    (input : ConfigurePackagePluginInput) (packageArn version : String) (isSameAsCache : Bool)
    (s s1 s2 : St σ) (c1 c2 : List Event) (inst : Installer σ)
    (r2 : Except Error (Installer σ)) (hA : input.Action = InstallAction)
    (h1 : ensurePackage deps repository packageService packageArn version isSameAsCache config s =
      { val := Res.ok (Except.ok inst), st := s1, calls := c1 })
    (hc : (if (repository.GetInstallState s.host packageArn).1 = InstallState.Failed then
            (repository.GetInstallState s.host packageArn).2
          else repository.GetInstalledVersion s.host packageArn) ≠ "" ∧
        (repository.GetInstallState s.host packageArn).1 ≠ InstallState.None ∧
        ((if (repository.GetInstallState s.host packageArn).1 = InstallState.Failed then
            (repository.GetInstallState s.host packageArn).2
          else repository.GetInstalledVersion s.host packageArn) ≠ version ∨
          isSameAsCache = false))
    (h2 : ensurePackage deps repository packageService packageArn
        (if (repository.GetInstallState s.host packageArn).1 = InstallState.Failed then
            (repository.GetInstallState s.host packageArn).2
          else repository.GetInstalledVersion s.host packageArn) isSameAsCache config s1 =
      { val := Res.ok r2, st := s2, calls := c2 }) :
    prepareConfigurePackage deps config repository packageService input packageArn version
        isSameAsCache s =
      { val := Res.ok (some inst, r2.toOption, (repository.GetInstallState s.host packageArn).1,
          if (repository.GetInstallState s.host packageArn).1 = InstallState.Failed then
            (repository.GetInstallState s.host packageArn).2
          else repository.GetInstalledVersion s.host packageArn),
        st := s2,
        calls := [Event.GetInstalledVersion packageArn, Event.GetInstallState packageArn] ++
          c1 ++ c2 } := by
  unfold prepareConfigurePackage
  rw [hA, if_pos (by decide)]
  simp only [bind_run, M.bind, getVersionToInstall_run, Run.after_mk, h1]
  rw [if_pos]
  · cases r2 <;> simp [bind_run, pure_run, M.bind, h2, Except.toOption]
  · simpa [and_assoc, not_or] using hc

/-- C6: in an Install request whose target is ensured, prepareConfigurePackage runs a second
ensurePackage, for the installed version, and binds its installer to `uninst` if and only if
the installed version is not empty, the state is not None, and the installed version is not
the resolved one or the manifest is not the cached one; exactly otherwise it stops after the
first ensure with `uninst` absent.  The installed version is the one of the record, or the
current version of the record when the state is Failed. -/
theorem prepareConfigurePackage_install_old_version_iff {σ : Type} (deps : Deps σ)
    (config : Configuration) (repository : Repository σ) (packageService : PackageService σ)
    (input : ConfigurePackagePluginInput) (packageArn version : String) (isSameAsCache : Bool)
    (s s1 : St σ) (c1 : List Event) (inst : Installer σ) (installState : InstallState)
    (installedVersion : String) (hA : input.Action = InstallAction)
    (hst : installState = (repository.GetInstallState s.host packageArn).1)
    (hiv : installedVersion =
      if installState = InstallState.Failed then (repository.GetInstallState s.host packageArn).2
      else repository.GetInstalledVersion s.host packageArn)
    (h1 : ensurePackage deps repository packageService packageArn version isSameAsCache config s =
      { val := Res.ok (Except.ok inst), st := s1, calls := c1 }) :
    (prepareConfigurePackage deps config repository packageService input packageArn version
          isSameAsCache s =
        { val :=
            match (ensurePackage deps repository packageService packageArn installedVersion
                isSameAsCache config s1).val with
            | Res.ok r2 => Res.ok (some inst, r2.toOption, installState, installedVersion)
            | Res.panicked msg => Res.panicked msg,
          st := (ensurePackage deps repository packageService packageArn installedVersion
            isSameAsCache config s1).st,
          calls := [Event.GetInstalledVersion packageArn, Event.GetInstallState packageArn] ++
            c1 ++ (ensurePackage deps repository packageService packageArn installedVersion
              isSameAsCache config s1).calls } ↔
        (installedVersion ≠ "" ∧ installState ≠ InstallState.None ∧
          (installedVersion ≠ version ∨ isSameAsCache = false))) ∧
      (prepareConfigurePackage deps config repository packageService input packageArn version
          isSameAsCache s =
        { val := Res.ok (some inst, none, installState, installedVersion),
          st := s1,
          calls := [Event.GetInstalledVersion packageArn, Event.GetInstallState packageArn] ++
            c1 } ↔
        ¬ (installedVersion ≠ "" ∧ installState ≠ InstallState.None ∧
          (installedVersion ≠ version ∨ isSameAsCache = false))) := by
  obtain ⟨⟨r2, hr2⟩, -, ⟨rest, hrest⟩, -⟩ := ensurePackage_frame deps repository packageService
    packageArn installedVersion isSameAsCache config s1
  have hrun : ensurePackage deps repository packageService packageArn installedVersion
      isSameAsCache config s1 =
      { val := Res.ok r2,
        st := (ensurePackage deps repository packageService packageArn installedVersion
          isSameAsCache config s1).st,
        calls := (ensurePackage deps repository packageService packageArn installedVersion
          isSameAsCache config s1).calls } := by
    rw [← hr2]
  subst hst
  subst hiv
  by_cases hc : (if (repository.GetInstallState s.host packageArn).1 = InstallState.Failed then
            (repository.GetInstallState s.host packageArn).2
          else repository.GetInstalledVersion s.host packageArn) ≠ "" ∧
        (repository.GetInstallState s.host packageArn).1 ≠ InstallState.None ∧
        ((if (repository.GetInstallState s.host packageArn).1 = InstallState.Failed then
            (repository.GetInstallState s.host packageArn).2
          else repository.GetInstalledVersion s.host packageArn) ≠ version ∨
          isSameAsCache = false)
  · rw [prepare_install_upgrade deps config repository packageService input packageArn version
      isSameAsCache s s1 _ c1 _ inst r2 hA h1 hc hrun]
    rw [hr2]
    refine ⟨by simp [hc], ?_⟩
    rw [hrest]
    simp [hc]
  · rw [prepare_install_fresh deps config repository packageService input packageArn version
      isSameAsCache s s1 c1 inst hA h1 hc]
    rw [hr2, hrest]
    simp [hc]

/-- C6, on an upgrade from version 1.0 to version 2.0: both versions are ensured. -/
theorem prepareConfigurePackage_install_old_version_iff_witness :
    (prepareConfigurePackage (Sample.deps Sample.installA2) Sample.config Sample.repository
        Sample.service Sample.installA2 "arn:A" "2.0" true
        (Sample.start Sample.upgradeHost)).calls =
      [Event.GetInstalledVersion "arn:A", Event.GetInstallState "arn:A",
        Event.GetInstallState "arn:A", Event.ValidatePackage "arn:A" "2.0",
        Event.RefreshPackage "arn:A" "2.0" "birdwatcher", Event.ValidatePackage "arn:A" "2.0",
        Event.GetInstaller "arn:A" "2.0",
        Event.GetInstallState "arn:A", Event.ValidatePackage "arn:A" "1.0",
        Event.GetInstaller "arn:A" "1.0"] :=
  (congrArg Run.calls
    ((prepareConfigurePackage_install_old_version_iff (Sample.deps Sample.installA2)
      Sample.config Sample.repository Sample.service Sample.installA2 "arn:A" "2.0" true
      (Sample.start Sample.upgradeHost)
      (Sample.start { Sample.upgradeHost with valid := ["2.0", "1.0"] })
      [Event.GetInstallState "arn:A", Event.ValidatePackage "arn:A" "2.0",
        Event.RefreshPackage "arn:A" "2.0" "birdwatcher", Event.ValidatePackage "arn:A" "2.0",
        Event.GetInstaller "arn:A" "2.0"]
      (Sample.installer "arn:A" "2.0") InstallState.Installed "1.0" rfl rfl rfl rfl).1.mpr
      ⟨by decide, by decide, Or.inl (by decide)⟩)).trans (by decide)

/-- C7: when the target of an Install request is ensured and the ensure of the installed
version returns an error, prepareConfigurePackage returns the target installer as `inst` and
no `uninst`, and leaves the output of the request as it found it: the request is not marked
failed. -/
theorem prepareConfigurePackage_old_ensure_error_continues {σ : Type} (deps : Deps σ)
    (config : Configuration) (repository : Repository σ) (packageService : PackageService σ)
    (input : ConfigurePackagePluginInput) (packageArn version : String) (isSameAsCache : Bool)
    (s s1 : St σ) (c1 : List Event) (inst : Installer σ) (installState : InstallState)
    (installedVersion : String) (e : Error) (hA : input.Action = InstallAction)
    (hst : installState = (repository.GetInstallState s.host packageArn).1)
    (hiv : installedVersion =
      if installState = InstallState.Failed then (repository.GetInstallState s.host packageArn).2
      else repository.GetInstalledVersion s.host packageArn)
    (h1 : ensurePackage deps repository packageService packageArn version isSameAsCache config s =
      { val := Res.ok (Except.ok inst), st := s1, calls := c1 })
    (h2 : (ensurePackage deps repository packageService packageArn installedVersion isSameAsCache
      config s1).val = Res.ok (Except.error e)) :
    (prepareConfigurePackage deps config repository packageService input packageArn version
        isSameAsCache s).val = Res.ok (some inst, none, installState, installedVersion) ∧
      (prepareConfigurePackage deps config repository packageService input packageArn version
        isSameAsCache s).st.out = s.out := by
  have hout1 : s1.out = s.out := by
    have h := (ensurePackage_frame deps repository packageService packageArn version
      isSameAsCache config s).2.1
    rw [h1] at h
    exact h
  have hout2 := (ensurePackage_frame deps repository packageService packageArn installedVersion
    isSameAsCache config s1).2.1
  have hrun : ensurePackage deps repository packageService packageArn installedVersion
      isSameAsCache config s1 =
      { val := Res.ok (Except.error e),
        st := (ensurePackage deps repository packageService packageArn installedVersion
          isSameAsCache config s1).st,
        calls := (ensurePackage deps repository packageService packageArn installedVersion
          isSameAsCache config s1).calls } := by
    rw [← h2]
  subst hst
  subst hiv
  by_cases hc : (if (repository.GetInstallState s.host packageArn).1 = InstallState.Failed then
            (repository.GetInstallState s.host packageArn).2
          else repository.GetInstalledVersion s.host packageArn) ≠ "" ∧
        (repository.GetInstallState s.host packageArn).1 ≠ InstallState.None ∧
        ((if (repository.GetInstallState s.host packageArn).1 = InstallState.Failed then
            (repository.GetInstallState s.host packageArn).2
          else repository.GetInstalledVersion s.host packageArn) ≠ version ∨
          isSameAsCache = false)
  · rw [prepare_install_upgrade deps config repository packageService input packageArn version
      isSameAsCache s s1 _ c1 _ inst (Except.error e) hA h1 hc hrun]
    exact ⟨rfl, hout2.trans hout1⟩
  · rw [prepare_install_fresh deps config repository packageService input packageArn version
      isSameAsCache s s1 c1 inst hA h1 hc]
    exact ⟨rfl, hout1⟩

/-- C7, on an upgrade to version 2.0 from a version 1.0 whose content is lost and is not
served any more. -/
theorem prepareConfigurePackage_old_ensure_error_continues_witness :
    (ensurePackage (Sample.deps Sample.installA2) Sample.repository Sample.service "arn:A" "1.0"
        true Sample.config
        (Sample.start { Sample.lostOldHost with valid := ["2.0"] })).val =
        Res.ok (Except.error "package content does not validate") ∧
      ((prepareConfigurePackage (Sample.deps Sample.installA2) Sample.config Sample.repository
          Sample.service Sample.installA2 "arn:A" "2.0" true
          (Sample.start Sample.lostOldHost)).val =
          Res.ok (some (Sample.installer "arn:A" "2.0"), none, InstallState.Installed, "1.0") ∧
        (prepareConfigurePackage (Sample.deps Sample.installA2) Sample.config Sample.repository
          Sample.service Sample.installA2 "arn:A" "2.0" true
          (Sample.start Sample.lostOldHost)).st.out = (Sample.start Sample.lostOldHost).out) :=
  ⟨rfl,
    prepareConfigurePackage_old_ensure_error_continues (Sample.deps Sample.installA2)
      Sample.config Sample.repository Sample.service Sample.installA2 "arn:A" "2.0" true
      (Sample.start Sample.lostOldHost)
      (Sample.start { Sample.lostOldHost with valid := ["2.0"] })
      [Event.GetInstallState "arn:A", Event.ValidatePackage "arn:A" "2.0",
        Event.RefreshPackage "arn:A" "2.0" "birdwatcher", Event.ValidatePackage "arn:A" "2.0",
        Event.GetInstaller "arn:A" "2.0"]
      (Sample.installer "arn:A" "2.0") InstallState.Installed "1.0"
      "package content does not validate" rfl rfl rfl rfl rfl⟩

/-! ## Plugin.execute -/

/-- The message of the panic Go raises for a method call on a nil interface value. -/
theorem deref_none_run {σ α : Type} (s : St σ) :
    (deref (none : Option α) : M σ α) s =
      { val := Res.panicked "invalid memory address or nil pointer dereference", st := s,
        calls := [] } := rfl

/-- With the package locked, an Install request that prepareConfigurePackage has decided
without a target installer panics when the version to report is read. -/
theorem executeLocked_install_decided_without_inst {σ : Type} (p : Plugin σ) (deps : Deps σ)
    (config : Configuration) (packageService : PackageService σ)
    (input : ConfigurePackagePluginInput) (packageArn manifestVersion : String)
    (isSameAsCache : Bool) (s s1 : St σ) (c1 : List Event) (uninst : Option (Installer σ))
    (installState : InstallState) (installedVersion : String)
    (hA : input.Action = InstallAction)
    (hprep : prepareConfigurePackage deps config p.localRepository packageService input
        packageArn manifestVersion isSameAsCache s =
      { val := Res.ok (none, uninst, installState, installedVersion), st := s1, calls := c1 })
    (hs : s1.out.Status = ResultStatus.Failed ∨ s1.out.Status = ResultStatus.Success) :
    executeLocked p deps config packageService input packageArn manifestVersion isSameAsCache s =
      { val := Res.panicked "invalid memory address or nil pointer dereference",
        st := { host := (p.localRepository.LoadTraces s1.host packageArn).2, out := s1.out },
        calls := c1 ++ [Event.LoadTraces packageArn] } := by
  unfold executeLocked
  simp only [bind_run, M.bind, hprep, Run.after_mk, GetStatus]
  rw [if_neg (by rcases hs with hs | hs <;> simp [hs])]
  simp only [bind_run, pure_run, M.bind, Run.after_mk, GetStatus, Repository.loadTraces, call]
  rw [if_neg (by rcases hs with hs | hs <;> simp [hs, ResultStatus.IsReboot])]
  rw [hA, if_pos (by decide)]
  simp [bind_run, M.bind, deref_none_run]


/-- With the package locked, an Uninstall request that prepareConfigurePackage has decided
without an installer to uninstall panics when the version to report is read. -/
theorem executeLocked_uninstall_decided_without_uninst {σ : Type} (p : Plugin σ) (deps : Deps σ)
    (config : Configuration) (packageService : PackageService σ)
    (input : ConfigurePackagePluginInput) (packageArn manifestVersion : String)
    (isSameAsCache : Bool) (s s1 : St σ) (c1 : List Event) (inst : Option (Installer σ))
    (installState : InstallState) (installedVersion : String)
    (hA : input.Action = UninstallAction)
    (hprep : prepareConfigurePackage deps config p.localRepository packageService input
        packageArn manifestVersion isSameAsCache s =
      { val := Res.ok (inst, none, installState, installedVersion), st := s1, calls := c1 })
    (hs : s1.out.Status = ResultStatus.Failed ∨ s1.out.Status = ResultStatus.Success) :
    executeLocked p deps config packageService input packageArn manifestVersion isSameAsCache s =
      { val := Res.panicked "invalid memory address or nil pointer dereference",
        st := { host := (p.localRepository.LoadTraces s1.host packageArn).2, out := s1.out },
        calls := c1 ++ [Event.LoadTraces packageArn] } := by
  unfold executeLocked
  simp only [bind_run, M.bind, hprep, Run.after_mk, GetStatus]
  rw [if_neg (by rcases hs with hs | hs <;> simp [hs])]
  simp only [bind_run, pure_run, M.bind, Run.after_mk, GetStatus, Repository.loadTraces, call]
  rw [if_neg (by rcases hs with hs | hs <;> simp [hs, ResultStatus.IsReboot])]
  rw [hA, if_neg (by decide), if_pos (by decide)]
  simp [bind_run, M.bind, deref_none_run]

/-- The run of `Plugin.execute` up to the lock: with no cancellation, a valid input, a
manifest and the lock, the rest of the function runs with the unlock deferred. -/
theorem execute_locked {σ : Type} (p : Plugin σ) (deps : Deps σ) (config : Configuration)
    (cancelFlag : CancelFlag) (input : ConfigurePackagePluginInput)
    (packageArn manifestVersion : String) (isSameAsCache : Bool) (s : St σ) (h1 h2 : σ)
    (hS : cancelFlag.ShutDown = false) (hC : cancelFlag.Canceled = false)
    (hP : parseAndValidateInput deps config.Properties = Except.ok input)
    (hM : (p.packageServiceSelector input.Repository).DownloadManifest s.host input.Name
        (if deps.IsLatest input.Version then Latest else input.Version) =
      ((packageArn, manifestVersion, isSameAsCache, none), h1))
    (hL : p.localRepository.LockPackage h1 packageArn input.Action = (none, h2)) :
    Plugin.execute p deps config cancelFlag s =
      Run.after
        [Event.parseAndValidateInput config.Properties,
          Event.packageServiceSelector input.Repository,
          Event.DownloadManifest input.Name
            (if deps.IsLatest input.Version then Latest else input.Version),
          Event.LockPackage packageArn input.Action]
        (deferring (p.localRepository.unlockPackage packageArn)
          (executeLocked p deps config (p.packageServiceSelector input.Repository) input
              packageArn manifestVersion isSameAsCache >>= fun _ => setOutput)
          { host := h2, out := {} }) := by
  unfold Plugin.execute
  simp [bind_run, pure_run, M.bind, newOutput, Run.after_after, hS, hC, note, hP,
    getPackageArnAndVersion, PackageService.downloadManifest, call, hM, Repository.lockPackage,
    hL]


/-- The deferred unlock runs after the rest of the function, whatever its outcome. -/
theorem deferring_unlock_run {σ α : Type} (repository : Repository σ) (packageArn : String)
    (rest : M σ α) (s s1 : St σ) (v : Res α) (c1 : List Event)
    (h : rest s = { val := v, st := s1, calls := c1 }) :
    deferring (repository.unlockPackage packageArn) rest s =
      { val := v, st := { host := repository.UnlockPackage s1.host packageArn, out := s1.out },
        calls := c1 ++ [Event.UnlockPackage packageArn] } := by
  simp [deferring, h, Repository.unlockPackage, call]

/-- An Install request whose target cannot be ensured: the request is marked failed, then
`Plugin.execute` panics on the absent installer, after LoadTraces and before any report. -/
theorem execute_install_target_error {σ : Type} (p : Plugin σ) (deps : Deps σ)
    (config : Configuration) (cancelFlag : CancelFlag) (input : ConfigurePackagePluginInput)
    (packageArn manifestVersion : String) (isSameAsCache : Bool) (s s3 : St σ) (h1 h2 : σ)
    (c3 : List Event) (e : Error)
    (hS : cancelFlag.ShutDown = false) (hC : cancelFlag.Canceled = false)
    (hP : parseAndValidateInput deps config.Properties = Except.ok input)
    (hA : input.Action = InstallAction)
    (hM : (p.packageServiceSelector input.Repository).DownloadManifest s.host input.Name
        (if deps.IsLatest input.Version then Latest else input.Version) =
      ((packageArn, manifestVersion, isSameAsCache, none), h1))
    (hL : p.localRepository.LockPackage h1 packageArn input.Action = (none, h2))
    (hE : ensurePackage deps p.localRepository (p.packageServiceSelector input.Repository)
        packageArn manifestVersion isSameAsCache config { host := h2, out := {} } =
      { val := Res.ok (Except.error e), st := s3, calls := c3 }) :
    Plugin.execute p deps config cancelFlag s =
      { val := Res.panicked "invalid memory address or nil pointer dereference",
        st :=
          { host := p.localRepository.UnlockPackage
              (p.localRepository.LoadTraces s3.host packageArn).2 packageArn,
            out := { s3.out with Status := ResultStatus.Failed } },
        calls :=
          [Event.parseAndValidateInput config.Properties,
            Event.packageServiceSelector input.Repository,
            Event.DownloadManifest input.Name
              (if deps.IsLatest input.Version then Latest else input.Version),
            Event.LockPackage packageArn input.Action,
            Event.GetInstalledVersion packageArn, Event.GetInstallState packageArn] ++ c3 ++
            [Event.LoadTraces packageArn, Event.UnlockPackage packageArn] } := by
  rw [execute_locked p deps config cancelFlag input packageArn manifestVersion isSameAsCache s
    h1 h2 hS hC hP hM hL]
  have hprep := prepare_install_error deps config p.localRepository
    (p.packageServiceSelector input.Repository) input packageArn manifestVersion isSameAsCache
    { host := h2, out := {} } s3 c3 e hA hE
  have hlocked := executeLocked_install_decided_without_inst p deps config
    (p.packageServiceSelector input.Repository) input packageArn manifestVersion isSameAsCache
    { host := h2, out := {} } _ _ none _ _ hA hprep (Or.inl rfl)
  have hrest : (executeLocked p deps config (p.packageServiceSelector input.Repository) input
      packageArn manifestVersion isSameAsCache >>= fun _ => setOutput)
      { host := h2, out := {} } =
      { val := Res.panicked "invalid memory address or nil pointer dereference",
        st := { host := (p.localRepository.LoadTraces s3.host packageArn).2,
                out := { s3.out with Status := ResultStatus.Failed } },
        calls := [Event.GetInstalledVersion packageArn, Event.GetInstallState packageArn] ++
          c3 ++ [Event.LoadTraces packageArn] } := by
    simp only [bind_run, M.bind, hlocked]
  rw [deferring_unlock_run p.localRepository packageArn _ _ _ _ _ hrest]
  simp

/-- An Uninstall request for a package that is not installed: the request is marked
succeeded, then `Plugin.execute` panics on the absent installer, after LoadTraces and before
any report. -/
theorem execute_uninstall_short_circuit {σ : Type} (p : Plugin σ) (deps : Deps σ)
    (config : Configuration) (cancelFlag : CancelFlag) (input : ConfigurePackagePluginInput)
    (packageArn manifestVersion : String) (isSameAsCache : Bool) (s : St σ) (h1 h2 : σ)
    (hS : cancelFlag.ShutDown = false) (hC : cancelFlag.Canceled = false)
    (hP : parseAndValidateInput deps config.Properties = Except.ok input)
    (hA : input.Action = UninstallAction)
    (hM : (p.packageServiceSelector input.Repository).DownloadManifest s.host input.Name
        (if deps.IsLatest input.Version then Latest else input.Version) =
      ((packageArn, manifestVersion, isSameAsCache, none), h1))
    (hL : p.localRepository.LockPackage h1 packageArn input.Action = (none, h2))
    (h : p.localRepository.GetInstalledVersion h2 packageArn = "" ∨
      (if input.Version = "" ∨ deps.IsLatest input.Version = true then
          p.localRepository.GetInstalledVersion h2 packageArn
        else manifestVersion) ≠ p.localRepository.GetInstalledVersion h2 packageArn ∨
      (p.localRepository.GetInstallState h2 packageArn).1 = InstallState.None ∨
      (p.localRepository.GetInstallState h2 packageArn).1 = InstallState.Uninstalled) :
    Plugin.execute p deps config cancelFlag s =
      { val := Res.panicked "invalid memory address or nil pointer dereference",
        st :=
          { host := p.localRepository.UnlockPackage
              (p.localRepository.LoadTraces h2 packageArn).2 packageArn,
            out := { Status := ResultStatus.Success } },
        calls :=
          [Event.parseAndValidateInput config.Properties,
            Event.packageServiceSelector input.Repository,
            Event.DownloadManifest input.Name
              (if deps.IsLatest input.Version then Latest else input.Version),
            Event.LockPackage packageArn input.Action,
            Event.GetInstalledVersion packageArn, Event.GetInstallState packageArn,
            Event.LoadTraces packageArn, Event.UnlockPackage packageArn] } := by
  rw [execute_locked p deps config cancelFlag input packageArn manifestVersion isSameAsCache s
    h1 h2 hS hC hP hM hL]
  have hprep := prepare_uninstall_short deps config p.localRepository
    (p.packageServiceSelector input.Repository) input packageArn manifestVersion isSameAsCache
    { host := h2, out := {} } hA h
  have hlocked := executeLocked_uninstall_decided_without_uninst p deps config
    (p.packageServiceSelector input.Repository) input packageArn manifestVersion isSameAsCache
    { host := h2, out := {} } _ _ none _ _ hA hprep (Or.inr rfl)
  have hrest : (executeLocked p deps config (p.packageServiceSelector input.Repository) input
      packageArn manifestVersion isSameAsCache >>= fun _ => setOutput)
      { host := h2, out := {} } =
      { val := Res.panicked "invalid memory address or nil pointer dereference",
        st := { host := (p.localRepository.LoadTraces h2 packageArn).2,
                out := { Status := ResultStatus.Success } },
        calls := [Event.GetInstalledVersion packageArn, Event.GetInstallState packageArn,
          Event.LoadTraces packageArn] } := by
    simp only [bind_run, M.bind, hlocked]
    simp
  rw [deferring_unlock_run p.localRepository packageArn _ _ _ _ _ hrest]
  simp


/-- C4: uninstalling package A from a host where nothing is installed.  prepareConfigurePackage
marks the request succeeded and returns no installer; `Plugin.execute` then reads
`uninst.Version()` for the report and panics: no status reaches the output, and the deferred
unlock is the last call. -/
theorem execute_uninstall_not_installed_panics :
    (Plugin.execute Sample.plugin (Sample.deps Sample.uninstallA) Sample.config Sample.noCancel
        (Sample.start Sample.emptyHost)).val =
        Res.panicked "invalid memory address or nil pointer dereference" ∧
      (Plugin.execute Sample.plugin (Sample.deps Sample.uninstallA) Sample.config Sample.noCancel
        (Sample.start Sample.emptyHost)).st.out.Status = ResultStatus.Success ∧
      (Plugin.execute Sample.plugin (Sample.deps Sample.uninstallA) Sample.config Sample.noCancel
        (Sample.start Sample.emptyHost)).calls =
        [Event.parseAndValidateInput "properties", Event.packageServiceSelector "",
          Event.DownloadManifest "A" "", Event.LockPackage "arn:A" "Uninstall",
          Event.GetInstalledVersion "arn:A", Event.GetInstallState "arn:A",
          Event.LoadTraces "arn:A", Event.UnlockPackage "arn:A"] := by
  decide

/-- C5: installing version 1.0 of package A on a host that has no local copy and cannot reach
the service.  RefreshPackage fails, prepareConfigurePackage marks the request failed and
returns no installer; `Plugin.execute` then reads `inst.Version()` for the report and panics:
no status reaches the output. -/
theorem execute_install_refresh_error_panics :
    (Plugin.execute Sample.plugin (Sample.deps Sample.installA) Sample.config Sample.noCancel
        (Sample.start Sample.unreachableHost)).val =
        Res.panicked "invalid memory address or nil pointer dereference" ∧
      (Plugin.execute Sample.plugin (Sample.deps Sample.installA) Sample.config Sample.noCancel
        (Sample.start Sample.unreachableHost)).st.out.Status = ResultStatus.Failed ∧
      (Plugin.execute Sample.plugin (Sample.deps Sample.installA) Sample.config Sample.noCancel
        (Sample.start Sample.unreachableHost)).calls =
        [Event.parseAndValidateInput "properties", Event.packageServiceSelector "",
          Event.DownloadManifest "A" "1.0", Event.LockPackage "arn:A" "Install",
          Event.GetInstalledVersion "arn:A", Event.GetInstallState "arn:A",
          Event.GetInstallState "arn:A", Event.ValidatePackage "arn:A" "1.0",
          Event.RefreshPackage "arn:A" "1.0" "birdwatcher",
          Event.LoadTraces "arn:A", Event.UnlockPackage "arn:A"] := by
  decide


/-- C10, as stated, fails: installing version 2.0 of package A, for which the service serves
no sound artifact.  The refresh succeeds and the content still does not validate; the run of
`Plugin.execute` contains no SetInstallState, and the record is in state None with no current
version afterwards, as it was before. -/
theorem execute_integrity_error_writes_no_state :
    (Sample.repository.RefreshPackage Sample.emptyHost "arn:A" "2.0" "birdwatcher"
        (buildDownloadDelegate (Sample.deps Sample.installA2) Sample.service "arn:A" "2.0")).1 =
        none ∧
      (Sample.repository.ValidatePackage
        (Sample.repository.RefreshPackage Sample.emptyHost "arn:A" "2.0" "birdwatcher"
          (buildDownloadDelegate (Sample.deps Sample.installA2) Sample.service "arn:A"
            "2.0")).2 "arn:A" "2.0").1 = some "package content does not validate" ∧
      (Plugin.execute Sample.plugin (Sample.deps Sample.installA2) Sample.config Sample.noCancel
        (Sample.start Sample.emptyHost)).calls =
        [Event.parseAndValidateInput "properties", Event.packageServiceSelector "",
          Event.DownloadManifest "A" "2.0", Event.LockPackage "arn:A" "Install",
          Event.GetInstalledVersion "arn:A", Event.GetInstallState "arn:A",
          Event.GetInstallState "arn:A", Event.ValidatePackage "arn:A" "2.0",
          Event.RefreshPackage "arn:A" "2.0" "birdwatcher",
          Event.ValidatePackage "arn:A" "2.0",
          Event.LoadTraces "arn:A", Event.UnlockPackage "arn:A"] ∧
      Event.SetInstallState "arn:A" "2.0" InstallState.Failed ∉
        (Plugin.execute Sample.plugin (Sample.deps Sample.installA2) Sample.config
          Sample.noCancel (Sample.start Sample.emptyHost)).calls ∧
      Sample.repository.GetInstallState
        (Plugin.execute Sample.plugin (Sample.deps Sample.installA2) Sample.config
          Sample.noCancel (Sample.start Sample.emptyHost)).st.host "arn:A" =
        (InstallState.None, "") := by
  decide

/-- C10, amended: when the validation of the target still fails after a refresh during an
Install request, the request is marked failed and `Plugin.execute` performs no
SetInstallState: its calls are the ones listed, and the host is left as the last
ValidatePackage, LoadTraces and UnlockPackage leave it. -/
theorem execute_integrity_error_marks_failed_only {σ : Type} (p : Plugin σ) (deps : Deps σ)
    (config : Configuration) (cancelFlag : CancelFlag) (input : ConfigurePackagePluginInput)
    (packageArn manifestVersion : String) (isSameAsCache : Bool) (s : St σ)
    (h1 h2 h3 h4 h5 : σ) (verr : Option Error) (e : Error)
    (hS : cancelFlag.ShutDown = false) (hC : cancelFlag.Canceled = false)
    (hP : parseAndValidateInput deps config.Properties = Except.ok input)
    (hA : input.Action = InstallAction)
    (hM : (p.packageServiceSelector input.Repository).DownloadManifest s.host input.Name
        (if deps.IsLatest input.Version then Latest else input.Version) =
      ((packageArn, manifestVersion, isSameAsCache, none), h1))
    (hL : p.localRepository.LockPackage h1 packageArn input.Action = (none, h2))
    (hv : p.localRepository.ValidatePackage h2 packageArn manifestVersion = (verr, h3))
    (hc : verr ≠ none ∨
      ((p.localRepository.GetInstallState h2 packageArn).2 = manifestVersion ∧
        ((p.localRepository.GetInstallState h2 packageArn).1 = InstallState.Failed ∨
          isSameAsCache = false)))
    (hr : p.localRepository.RefreshPackage h3 packageArn manifestVersion
        (p.packageServiceSelector input.Repository).PackageServiceName
        (buildDownloadDelegate deps (p.packageServiceSelector input.Repository) packageArn
          manifestVersion) = (none, h4))
    (hv2 : p.localRepository.ValidatePackage h4 packageArn manifestVersion = (some e, h5)) :
    (Plugin.execute p deps config cancelFlag s).st.out.Status = ResultStatus.Failed ∧
      (Plugin.execute p deps config cancelFlag s).calls =
        [Event.parseAndValidateInput config.Properties,
          Event.packageServiceSelector input.Repository,
          Event.DownloadManifest input.Name
            (if deps.IsLatest input.Version then Latest else input.Version),
          Event.LockPackage packageArn input.Action,
          Event.GetInstalledVersion packageArn, Event.GetInstallState packageArn,
          Event.GetInstallState packageArn, Event.ValidatePackage packageArn manifestVersion,
          Event.RefreshPackage packageArn manifestVersion
            (p.packageServiceSelector input.Repository).PackageServiceName,
          Event.ValidatePackage packageArn manifestVersion,
          Event.LoadTraces packageArn, Event.UnlockPackage packageArn] ∧
      (∀ ev ∈ (Plugin.execute p deps config cancelFlag s).calls,
        ev.isSetInstallState = false) ∧
      (Plugin.execute p deps config cancelFlag s).st.host =
        p.localRepository.UnlockPackage (p.localRepository.LoadTraces h5 packageArn).2
          packageArn := by
  have hE := ensurePackage_revalidate_error deps p.localRepository
    (p.packageServiceSelector input.Repository) packageArn manifestVersion isSameAsCache config
    { host := h2, out := {} } verr h3 h4 h5 e hv hc hr hv2
  rw [execute_install_target_error p deps config cancelFlag input packageArn manifestVersion
    isSameAsCache s _ h1 h2 _ e hS hC hP hA hM hL hE]
  simp [Event.isSetInstallState]

/-- C10 amended, on the request for version 2.0 of package A, which the service does not
serve soundly. -/
theorem execute_integrity_error_marks_failed_only_witness :
    (Plugin.execute Sample.plugin (Sample.deps Sample.installA2) Sample.config Sample.noCancel
        (Sample.start Sample.emptyHost)).st.out.Status = ResultStatus.Failed ∧
      (Plugin.execute Sample.plugin (Sample.deps Sample.installA2) Sample.config Sample.noCancel
        (Sample.start Sample.emptyHost)).st.host = Sample.emptyHost :=
  ⟨(execute_integrity_error_marks_failed_only Sample.plugin (Sample.deps Sample.installA2)
      Sample.config Sample.noCancel Sample.installA2 "arn:A" "2.0" true
      (Sample.start Sample.emptyHost) Sample.emptyHost Sample.emptyHost Sample.emptyHost
      Sample.emptyHost Sample.emptyHost (some "package content does not validate")
      "package content does not validate" rfl rfl rfl rfl rfl rfl rfl (Or.inl (by decide))
      rfl rfl).1,
    (execute_integrity_error_marks_failed_only Sample.plugin (Sample.deps Sample.installA2)
      Sample.config Sample.noCancel Sample.installA2 "arn:A" "2.0" true
      (Sample.start Sample.emptyHost) Sample.emptyHost Sample.emptyHost Sample.emptyHost
      Sample.emptyHost Sample.emptyHost (some "package content does not validate")
      "package content does not validate" rfl rfl rfl rfl rfl rfl rfl (Or.inl (by decide))
      rfl rfl).2.2.2⟩

/-! ## checkAlreadyInstalled -/

/-- The run of `checkAlreadyInstalled` on an installed target whose Validate succeeds. -/
theorem check_installed_valid {σ : Type} (deps : Deps σ) (repository : Repository σ)
    (installedVersion : String) (installState : InstallState) (inst : Installer σ)
    (uninst : Option (Installer σ)) (s : St σ)
    (hV : inst.Version = installedVersion)
    (hS : installState = InstallState.Installed ∨ installState = InstallState.Unknown)
    (hval : (inst.Validate s.host).1.Status = ResultStatus.Success) :
    checkAlreadyInstalled deps repository installedVersion installState (some inst) uninst s =
      { val := Res.ok true,
        st := { host := (inst.Validate s.host).2,
                out := { s.out with Status := ResultStatus.Success } },
        calls := [Event.Validate inst.PackageName inst.Version] } := by
  unfold checkAlreadyInstalled
  rcases hS with hS | hS <;>
    simp [hS, hV, bind_run, pure_run, M.bind, Installer.validate, call, hval, MarkAsSucceeded]

/-- C11: for a present `inst` whose version is the installed one, in entry state Installed or
Unknown, a successful Validate makes checkAlreadyInstalled return true with the request marked
succeeded; the only call of the run is that Validate: no SetInstallState, no
cleanupAfterUninstall and no other hook. -/
theorem checkAlreadyInstalled_idempotent {σ : Type} (deps : Deps σ) (repository : Repository σ)
    (installedVersion : String) (installState : InstallState) (inst : Installer σ)
    (uninst : Option (Installer σ)) (s : St σ)
    (hV : inst.Version = installedVersion)
    (hS : installState = InstallState.Installed ∨ installState = InstallState.Unknown)
    (hval : (inst.Validate s.host).1.Status = ResultStatus.Success) :
    checkAlreadyInstalled deps repository installedVersion installState (some inst) uninst s =
      { val := Res.ok true,
        st := { host := (inst.Validate s.host).2,
                out := { s.out with Status := ResultStatus.Success } },
        calls := [Event.Validate inst.PackageName inst.Version] } :=
  check_installed_valid deps repository installedVersion installState inst uninst s hV hS hval

/-- C11, on version 1.0 of package A, installed and valid. -/
theorem checkAlreadyInstalled_idempotent_witness :
    (Sample.installer "arn:A" "1.0").Version = "1.0" ∧
      checkAlreadyInstalled (Sample.deps Sample.installA) Sample.repository "1.0"
          InstallState.Installed (some (Sample.installer "arn:A" "1.0")) none
          (Sample.start Sample.installedHost) =
        { val := Res.ok true,
          st := { host := Sample.installedHost, out := { Status := ResultStatus.Success } },
          calls := [Event.Validate "arn:A" "1.0"] } :=
  ⟨rfl,
    checkAlreadyInstalled_idempotent (Sample.deps Sample.installA) Sample.repository "1.0"
      InstallState.Installed (Sample.installer "arn:A" "1.0") none
      (Sample.start Sample.installedHost) rfl (Or.inl rfl) rfl⟩

/-- C12: with `inst` and `uninst` present in entry state RollbackInstall, a successful Validate
of `uninst` makes checkAlreadyInstalled run cleanupAfterUninstall for `inst`, mark the request
failed, record the state Installed with the version of `uninst`, and return true. -/
theorem checkAlreadyInstalled_rollback_completed {σ : Type} (deps : Deps σ)
    (repository : Repository σ) (installedVersion : String) (installState : InstallState)
    (inst uninst : Installer σ) (s : St σ)
    (hS : installState = InstallState.RollbackInstall)
    (hval : (uninst.Validate s.host).1.Status = ResultStatus.Success) :
    checkAlreadyInstalled deps repository installedVersion installState (some inst)
        (some uninst) s =
      { val := Res.ok true,
        st :=
          { host := (repository.SetInstallState
              (deps.cleanupAfterUninstall repository inst
                { host := (uninst.Validate s.host).2, out := s.out }).host
              inst.PackageName uninst.Version InstallState.Installed).2,
            out :=
              { (deps.cleanupAfterUninstall repository inst
                  { host := (uninst.Validate s.host).2, out := s.out }).out with
                Status := ResultStatus.Failed } },
        calls := [Event.Validate uninst.PackageName uninst.Version,
          Event.cleanupAfterUninstall inst.PackageName inst.Version,
          Event.SetInstallState inst.PackageName uninst.Version InstallState.Installed] } := by
  unfold checkAlreadyInstalled
  subst hS
  simp [bind_run, pure_run, M.bind, Installer.validate, call, hval, MarkAsFailed, deref,
    cleanupAfterUninstall, step, Repository.setInstallState]

/-- C12, on a rollback from version 2.0 to version 1.0 of package A. -/
theorem checkAlreadyInstalled_rollback_completed_witness :
    (checkAlreadyInstalled (Sample.deps Sample.installA2) Sample.repository "1.0"
        InstallState.RollbackInstall (some (Sample.installer "arn:A" "2.0"))
        (some (Sample.installer "arn:A" "1.0")) (Sample.start Sample.upgradeHost)).calls =
      [Event.Validate "arn:A" "1.0", Event.cleanupAfterUninstall "arn:A" "2.0",
        Event.SetInstallState "arn:A" "1.0" InstallState.Installed] :=
  congrArg Run.calls
    (checkAlreadyInstalled_rollback_completed (Sample.deps Sample.installA2) Sample.repository
      "1.0" InstallState.RollbackInstall (Sample.installer "arn:A" "2.0")
      (Sample.installer "arn:A" "1.0") (Sample.start Sample.upgradeHost) rfl rfl)

/-- C13: with `inst` present in entry state Installing, whatever the installed version,
checkAlreadyInstalled returns true if and only if the Validate of `inst` returns Success.  In
that case it runs cleanupAfterUninstall for `uninst` exactly when `uninst` is present, marks
the request succeeded and records the state Installed with the version of `inst`; otherwise
its only call is the Validate, no state is written and the output is left as it was. -/
theorem checkAlreadyInstalled_resumed_install {σ : Type} (deps : Deps σ)
    (repository : Repository σ) (installedVersion : String) (installState : InstallState)
    (inst : Installer σ) (uninst : Option (Installer σ)) (s : St σ)
    (hS : installState = InstallState.Installing) :
    ((checkAlreadyInstalled deps repository installedVersion installState (some inst)
          uninst s).val = Res.ok true ↔
        (inst.Validate s.host).1.Status = ResultStatus.Success) ∧
      checkAlreadyInstalled deps repository installedVersion installState (some inst) uninst s =
        (if (inst.Validate s.host).1.Status = ResultStatus.Success then
          match uninst with
          | some u =>
            { val := Res.ok true,
              st :=
                { host := (repository.SetInstallState
                    (deps.cleanupAfterUninstall repository u
                      { host := (inst.Validate s.host).2, out := s.out }).host
                    inst.PackageName inst.Version InstallState.Installed).2,
                  out :=
                    { (deps.cleanupAfterUninstall repository u
                        { host := (inst.Validate s.host).2, out := s.out }).out with
                      Status := ResultStatus.Success } },
              calls := [Event.Validate inst.PackageName inst.Version,
                Event.cleanupAfterUninstall u.PackageName u.Version,
                Event.SetInstallState inst.PackageName inst.Version InstallState.Installed] }
          | none =>
            { val := Res.ok true,
              st :=
                { host := (repository.SetInstallState (inst.Validate s.host).2
                    inst.PackageName inst.Version InstallState.Installed).2,
                  out := { s.out with Status := ResultStatus.Success } },
              calls := [Event.Validate inst.PackageName inst.Version,
                Event.SetInstallState inst.PackageName inst.Version InstallState.Installed] }
        else
          { val := Res.ok false,
            st := { host := (inst.Validate s.host).2, out := s.out },
            calls := [Event.Validate inst.PackageName inst.Version] }) := by
  unfold checkAlreadyInstalled
  subst hS
  by_cases hval : (inst.Validate s.host).1.Status = ResultStatus.Success
  · cases uninst <;>
      simp [bind_run, pure_run, M.bind, Installer.validate, call, hval, MarkAsSucceeded,
        cleanupAfterUninstall, step, Repository.setInstallState]
  · cases uninst <;>
      simp [bind_run, pure_run, M.bind, Installer.validate, call, hval]

/-- C13, on an install of version 2.0 of package A resumed while version 1.0 remains. -/
theorem checkAlreadyInstalled_resumed_install_witness :
    (checkAlreadyInstalled (Sample.deps Sample.installA2) Sample.repository "1.0"
        InstallState.Installing (some (Sample.installer "arn:A" "2.0"))
        (some (Sample.installer "arn:A" "1.0")) (Sample.start Sample.upgradeHost)).val =
      Res.ok true :=
  (checkAlreadyInstalled_resumed_install (Sample.deps Sample.installA2) Sample.repository
    "1.0" InstallState.Installing (Sample.installer "arn:A" "2.0")
    (some (Sample.installer "arn:A" "1.0")) (Sample.start Sample.upgradeHost) rfl).1.mpr rfl

/-! ## Plugin.execute: the exits before the lock -/

/-- The run of `Plugin.execute` on a cancelled request. -/
theorem execute_cancel_run {σ : Type} (p : Plugin σ) (deps : Deps σ) (config : Configuration)
    (cancelFlag : CancelFlag) (s : St σ)
    (h : cancelFlag.ShutDown = true ∨ cancelFlag.Canceled = true) :
    Plugin.execute p deps config cancelFlag s =
      { val := Res.ok
          { Status := if cancelFlag.ShutDown = true then ResultStatus.Shutdown
              else ResultStatus.Cancelled },
        st :=
          { host := s.host,
            out := { Status := if cancelFlag.ShutDown = true then ResultStatus.Shutdown
              else ResultStatus.Cancelled } },
        calls := [] } := by
  unfold Plugin.execute
  by_cases hS : cancelFlag.ShutDown = true
  · simp [hS, bind_run, pure_run, M.bind, newOutput, MarkAsShutdown, setOutput, GetStatus]
  · have hC : cancelFlag.Canceled = true := by
      rcases h with h | h
      · exact absurd h hS
      · exact h
    simp [hS, hC, bind_run, pure_run, M.bind, newOutput, MarkAsCancelled, setOutput, GetStatus]

/-- C16: when the cancel flag reports ShutDown the final status is Shutdown, otherwise when it
reports Canceled the final status is Cancelled; in both cases `Plugin.execute` makes no call at
all (no parse, no service selection, no DownloadManifest, no LockPackage, no repository write)
and leaves the host as it is. -/
theorem execute_cancelled {σ : Type} (p : Plugin σ) (deps : Deps σ) (config : Configuration)
    (cancelFlag : CancelFlag) (s : St σ)
    (h : cancelFlag.ShutDown = true ∨ cancelFlag.Canceled = true) :
    Plugin.execute p deps config cancelFlag s =
      { val := Res.ok
          { Status := if cancelFlag.ShutDown = true then ResultStatus.Shutdown
              else ResultStatus.Cancelled },
        st :=
          { host := s.host,
            out := { Status := if cancelFlag.ShutDown = true then ResultStatus.Shutdown
              else ResultStatus.Cancelled } },
        calls := [] } :=
  execute_cancel_run p deps config cancelFlag s h

/-- C16, on a request that is both shut down and cancelled: ShutDown wins. -/
theorem execute_cancelled_witness :
    Plugin.execute Sample.plugin (Sample.deps Sample.installA) Sample.config
        { ShutDown := true, Canceled := true } (Sample.start Sample.emptyHost) =
      { val := Res.ok { Status := ResultStatus.Shutdown },
        st := { host := Sample.emptyHost, out := { Status := ResultStatus.Shutdown } },
        calls := [] } :=
  execute_cancelled Sample.plugin (Sample.deps Sample.installA) Sample.config
    { ShutDown := true, Canceled := true } (Sample.start Sample.emptyHost) (Or.inl rfl)

/-- The run of `Plugin.execute` when LockPackage returns an error. -/
theorem execute_lock_error_run {σ : Type} (p : Plugin σ) (deps : Deps σ)
    (config : Configuration) (cancelFlag : CancelFlag) (input : ConfigurePackagePluginInput)
    (packageArn manifestVersion : String) (isSameAsCache : Bool) (s : St σ) (h1 h2 : σ)
    (e : Error)
    (hS : cancelFlag.ShutDown = false) (hC : cancelFlag.Canceled = false)
    (hP : parseAndValidateInput deps config.Properties = Except.ok input)
    (hM : (p.packageServiceSelector input.Repository).DownloadManifest s.host input.Name
        (if deps.IsLatest input.Version then Latest else input.Version) =
      ((packageArn, manifestVersion, isSameAsCache, none), h1))
    (hL : p.localRepository.LockPackage h1 packageArn input.Action = (some e, h2)) :
    Plugin.execute p deps config cancelFlag s =
      { val := Res.ok { Status := ResultStatus.Failed },
        st := { host := h2, out := { Status := ResultStatus.Failed } },
        calls :=
          [Event.parseAndValidateInput config.Properties,
            Event.packageServiceSelector input.Repository,
            Event.DownloadManifest input.Name
              (if deps.IsLatest input.Version then Latest else input.Version),
            Event.LockPackage packageArn input.Action] } := by
  unfold Plugin.execute
  simp [bind_run, pure_run, M.bind, newOutput, hS, hC, note, hP, getPackageArnAndVersion,
    PackageService.downloadManifest, call, hM, Repository.lockPackage, hL, MarkAsFailed,
    setOutput, GetStatus]

/-- C17: for a valid request whose manifest download succeeds, an error of LockPackage ends
the request with status Failed; the calls of the run stop at LockPackage: no SetInstallState,
no RefreshPackage, no installer hook, no ReportResult and no UnlockPackage. -/
theorem execute_lock_contention {σ : Type} (p : Plugin σ) (deps : Deps σ)
    (config : Configuration) (cancelFlag : CancelFlag) (input : ConfigurePackagePluginInput)
    (packageArn manifestVersion : String) (isSameAsCache : Bool) (s : St σ) (h1 h2 : σ)
    (e : Error)
    (hS : cancelFlag.ShutDown = false) (hC : cancelFlag.Canceled = false)
    (hP : parseAndValidateInput deps config.Properties = Except.ok input)
    (hM : (p.packageServiceSelector input.Repository).DownloadManifest s.host input.Name
        (if deps.IsLatest input.Version then Latest else input.Version) =
      ((packageArn, manifestVersion, isSameAsCache, none), h1))
    (hL : p.localRepository.LockPackage h1 packageArn input.Action = (some e, h2)) :
    Plugin.execute p deps config cancelFlag s =
      { val := Res.ok { Status := ResultStatus.Failed },
        st := { host := h2, out := { Status := ResultStatus.Failed } },
        calls :=
          [Event.parseAndValidateInput config.Properties,
            Event.packageServiceSelector input.Repository,
            Event.DownloadManifest input.Name
              (if deps.IsLatest input.Version then Latest else input.Version),
            Event.LockPackage packageArn input.Action] } :=
  execute_lock_error_run p deps config cancelFlag input packageArn manifestVersion isSameAsCache
    s h1 h2 e hS hC hP hM hL

/-- C17, on a host where the package is locked by another request. -/
theorem execute_lock_contention_witness :
    Plugin.execute Sample.lockedPlugin (Sample.deps Sample.installA) Sample.config
        Sample.noCancel (Sample.start Sample.emptyHost) =
      { val := Res.ok { Status := ResultStatus.Failed },
        st := { host := Sample.emptyHost, out := { Status := ResultStatus.Failed } },
        calls :=
          [Event.parseAndValidateInput "properties", Event.packageServiceSelector "",
            Event.DownloadManifest "A" "1.0", Event.LockPackage "arn:A" "Install"] } :=
  execute_lock_contention Sample.lockedPlugin (Sample.deps Sample.installA) Sample.config
    Sample.noCancel Sample.installA "arn:A" "1.0" true (Sample.start Sample.emptyHost)
    Sample.emptyHost Sample.emptyHost "package is locked" rfl rfl rfl rfl rfl

/-! ## Unsupported actions -/

/-- The run of `prepareConfigurePackage` on an action that is neither Install nor
Uninstall. -/
theorem prepare_unsupported {σ : Type} (deps : Deps σ) (config : Configuration)
    (repository : Repository σ) (packageService : PackageService σ)
    (input : ConfigurePackagePluginInput) (packageArn version : String) (isSameAsCache : Bool)
    (s : St σ) (hI : input.Action ≠ InstallAction) (hU : input.Action ≠ UninstallAction) :
    prepareConfigurePackage deps config repository packageService input packageArn version
        isSameAsCache s =
      { val := Res.ok (none, none, InstallState.None, ""),
        st := { host := s.host, out := { s.out with Status := ResultStatus.Failed } },
        calls := [] } := by
  unfold prepareConfigurePackage
  rw [if_neg (by simpa using hI), if_neg (by simpa using hU)]
  simp [bind_run, pure_run, M.bind, MarkAsFailed]

/-- With the package locked, a request for an unsupported action is marked failed by
prepareConfigurePackage and reported with the version of the manifest. -/
theorem executeLocked_unsupported {σ : Type} (p : Plugin σ) (deps : Deps σ)
    (config : Configuration) (packageService : PackageService σ)
    (input : ConfigurePackagePluginInput) (packageArn manifestVersion : String)
    (isSameAsCache : Bool) (s : St σ)
    (hI : input.Action ≠ InstallAction) (hU : input.Action ≠ UninstallAction) :
    (executeLocked p deps config packageService input packageArn manifestVersion isSameAsCache
        s).val = Res.ok () ∧
      (executeLocked p deps config packageService input packageArn manifestVersion
        isSameAsCache s).st.out.Status = ResultStatus.Failed ∧
      (executeLocked p deps config packageService input packageArn manifestVersion
        isSameAsCache s).st.host =
        (packageService.ReportResult (p.localRepository.LoadTraces s.host packageArn).2
          { Operation := input.Action, PackageName := input.Name,
            PreviousPackageVersion := "", Version := manifestVersion }).2 ∧
      (executeLocked p deps config packageService input packageArn manifestVersion
        isSameAsCache s).calls =
        [Event.LoadTraces packageArn,
          Event.ReportResult
            { Operation := input.Action, PackageName := input.Name,
              PreviousPackageVersion := "", Version := manifestVersion }] := by
  unfold executeLocked
  simp only [bind_run, M.bind, Run.after_mk, GetStatus,
    prepare_unsupported deps config p.localRepository packageService input packageArn
      manifestVersion isSameAsCache s hI hU]
  rw [if_neg (by decide)]
  simp only [bind_run, pure_run, M.bind, Run.after_mk, GetStatus, Repository.loadTraces, call]
  rw [if_neg (by decide), if_neg (by simpa using hI), if_neg (by simpa using hU)]
  simp only [bind_run, pure_run, M.bind, Run.after_mk, PackageService.reportResult, call]
  rcases hR : (packageService.ReportResult (p.localRepository.LoadTraces s.host packageArn).2
      { Operation := input.Action, PackageName := input.Name,
        PreviousPackageVersion := "", Version := manifestVersion }) with ⟨err, h3⟩
  cases err <;> simp [pure_run, AppendErrorf]

/-- A run that returns, followed by the end of `Plugin.execute`. -/
theorem bind_setOutput_ok {σ : Type} (m : M σ Unit) (s : St σ) (h : (m s).val = Res.ok ()) :
    (m >>= fun _ => setOutput) s =
      { val := Res.ok { Status := (m s).st.out.Status }, st := (m s).st,
        calls := (m s).calls } := by
  rcases hm : m s with ⟨v, st, c⟩
  rw [hm] at h
  simp only at h
  subst h
  simp [bind_run, pure_run, M.bind, hm, setOutput, GetStatus]

/-- A run that panics stops `Plugin.execute` before its end. -/
theorem bind_setOutput_panicked {σ : Type} (m : M σ Unit) (s : St σ) (msg : String)
    (h : (m s).val = Res.panicked msg) :
    (m >>= fun _ => setOutput) s =
      { val := Res.panicked msg, st := (m s).st, calls := (m s).calls } := by
  rcases hm : m s with ⟨v, st, c⟩
  rw [hm] at h
  simp only at h
  subst h
  simp [bind_run, M.bind, hm]

/-- The run of `Plugin.execute` when the lock is acquired and the locked part returns: the
status of the request goes to the output and the deferred unlock is the last call. -/
theorem execute_locked_ok {σ : Type} (p : Plugin σ) (deps : Deps σ) (config : Configuration)
    (cancelFlag : CancelFlag) (input : ConfigurePackagePluginInput)
    (packageArn manifestVersion : String) (isSameAsCache : Bool) (s : St σ) (h1 h2 : σ)
    (hS : cancelFlag.ShutDown = false) (hC : cancelFlag.Canceled = false)
    (hP : parseAndValidateInput deps config.Properties = Except.ok input)
    (hM : (p.packageServiceSelector input.Repository).DownloadManifest s.host input.Name
        (if deps.IsLatest input.Version then Latest else input.Version) =
      ((packageArn, manifestVersion, isSameAsCache, none), h1))
    (hL : p.localRepository.LockPackage h1 packageArn input.Action = (none, h2))
    (hval : (executeLocked p deps config (p.packageServiceSelector input.Repository) input
      packageArn manifestVersion isSameAsCache { host := h2, out := {} }).val = Res.ok ()) :
    Plugin.execute p deps config cancelFlag s =
      { val := Res.ok
          { Status := (executeLocked p deps config (p.packageServiceSelector input.Repository)
              input packageArn manifestVersion isSameAsCache
              { host := h2, out := {} }).st.out.Status },
        st :=
          { host := p.localRepository.UnlockPackage
              (executeLocked p deps config (p.packageServiceSelector input.Repository) input
                packageArn manifestVersion isSameAsCache { host := h2, out := {} }).st.host
              packageArn,
            out := (executeLocked p deps config (p.packageServiceSelector input.Repository)
              input packageArn manifestVersion isSameAsCache
              { host := h2, out := {} }).st.out },
        calls :=
          [Event.parseAndValidateInput config.Properties,
            Event.packageServiceSelector input.Repository,
            Event.DownloadManifest input.Name
              (if deps.IsLatest input.Version then Latest else input.Version),
            Event.LockPackage packageArn input.Action] ++
            (executeLocked p deps config (p.packageServiceSelector input.Repository) input
              packageArn manifestVersion isSameAsCache { host := h2, out := {} }).calls ++
            [Event.UnlockPackage packageArn] } := by
  rw [execute_locked p deps config cancelFlag input packageArn manifestVersion isSameAsCache s
    h1 h2 hS hC hP hM hL]
  rw [deferring_unlock_run p.localRepository packageArn _ _ _ _ _
    (bind_setOutput_ok _ _ hval)]
  simp

/-- The calls of `Plugin.execute` when the lock is acquired, whatever the locked part
does: the deferred unlock is the last call. -/
theorem execute_locked_calls {σ : Type} (p : Plugin σ) (deps : Deps σ) (config : Configuration)
    (cancelFlag : CancelFlag) (input : ConfigurePackagePluginInput)
    (packageArn manifestVersion : String) (isSameAsCache : Bool) (s : St σ) (h1 h2 : σ)
    (hS : cancelFlag.ShutDown = false) (hC : cancelFlag.Canceled = false)
    (hP : parseAndValidateInput deps config.Properties = Except.ok input)
    (hM : (p.packageServiceSelector input.Repository).DownloadManifest s.host input.Name
        (if deps.IsLatest input.Version then Latest else input.Version) =
      ((packageArn, manifestVersion, isSameAsCache, none), h1))
    (hL : p.localRepository.LockPackage h1 packageArn input.Action = (none, h2)) :
    (Plugin.execute p deps config cancelFlag s).calls =
      [Event.parseAndValidateInput config.Properties,
        Event.packageServiceSelector input.Repository,
        Event.DownloadManifest input.Name
          (if deps.IsLatest input.Version then Latest else input.Version),
        Event.LockPackage packageArn input.Action] ++
        (executeLocked p deps config (p.packageServiceSelector input.Repository) input
          packageArn manifestVersion isSameAsCache { host := h2, out := {} }).calls ++
        [Event.UnlockPackage packageArn] := by
  rw [execute_locked p deps config cancelFlag input packageArn manifestVersion isSameAsCache s
    h1 h2 hS hC hP hM hL]
  rcases hv : (executeLocked p deps config (p.packageServiceSelector input.Repository) input
      packageArn manifestVersion isSameAsCache { host := h2, out := {} }).val with u | msg
  · rw [deferring_unlock_run p.localRepository packageArn _ _ _ _ _
      (bind_setOutput_ok _ _ hv)]
    simp
  · rw [deferring_unlock_run p.localRepository packageArn _ _ _ _ _
      (bind_setOutput_panicked _ _ msg hv)]
    simp

/-- A valid request whose manifest cannot be downloaded ends with status Failed after the
download. -/
theorem execute_manifest_error {σ : Type} (p : Plugin σ) (deps : Deps σ)
    (config : Configuration) (cancelFlag : CancelFlag) (input : ConfigurePackagePluginInput)
    (packageArn manifestVersion : String) (isSameAsCache : Bool) (s : St σ) (h1 : σ)
    (e : Error)
    (hS : cancelFlag.ShutDown = false) (hC : cancelFlag.Canceled = false)
    (hP : parseAndValidateInput deps config.Properties = Except.ok input)
    (hM : (p.packageServiceSelector input.Repository).DownloadManifest s.host input.Name
        (if deps.IsLatest input.Version then Latest else input.Version) =
      ((packageArn, manifestVersion, isSameAsCache, some e), h1)) :
    Plugin.execute p deps config cancelFlag s =
      { val := Res.ok { Status := ResultStatus.Failed },
        st := { host := h1, out := { Status := ResultStatus.Failed } },
        calls :=
          [Event.parseAndValidateInput config.Properties,
            Event.packageServiceSelector input.Repository,
            Event.DownloadManifest input.Name
              (if deps.IsLatest input.Version then Latest else input.Version)] } := by
  unfold Plugin.execute
  simp [bind_run, pure_run, M.bind, newOutput, hS, hC, note, hP, getPackageArnAndVersion,
    PackageService.downloadManifest, call, hM, MarkAsFailed, setOutput, GetStatus]

/-- C20: a request that is not cancelled and whose action is neither Install nor Uninstall
ends with status Failed.  prepareConfigurePackage marks the output failed, returns no
installers and makes no call; `Plugin.execute` calls no installer hook, no SetInstallState,
no cleanupAfterUninstall and does not enter executeConfigurePackage: once the lock is held
its only calls are LoadTraces, ReportResult and UnlockPackage. -/
theorem execute_unsupported_action {σ : Type} (p : Plugin σ) (deps : Deps σ)
    (config : Configuration) (cancelFlag : CancelFlag) (input : ConfigurePackagePluginInput)
    (s : St σ)
    (hS : cancelFlag.ShutDown = false) (hC : cancelFlag.Canceled = false)
    (hP : parseAndValidateInput deps config.Properties = Except.ok input)
    (hI : input.Action ≠ InstallAction) (hU : input.Action ≠ UninstallAction) :
    (∀ (packageService : PackageService σ) (packageArn version : String)
        (isSameAsCache : Bool) (s1 : St σ),
        prepareConfigurePackage deps config p.localRepository packageService input packageArn
            version isSameAsCache s1 =
          { val := Res.ok (none, none, InstallState.None, ""),
            st := { host := s1.host, out := { s1.out with Status := ResultStatus.Failed } },
            calls := [] }) ∧
      (Plugin.execute p deps config cancelFlag s).val =
        Res.ok { Status := ResultStatus.Failed } ∧
      (∀ e ∈ (Plugin.execute p deps config cancelFlag s).calls,
        e.isHook = false ∧ e.isSetInstallState = false ∧
          e ≠ Event.executeConfigurePackage ∧
          ∀ packageName version, e ≠ Event.cleanupAfterUninstall packageName version) ∧
      (∀ (packageArn manifestVersion : String) (isSameAsCache : Bool) (h1 h2 : σ),
        (p.packageServiceSelector input.Repository).DownloadManifest s.host input.Name
            (if deps.IsLatest input.Version then Latest else input.Version) =
          ((packageArn, manifestVersion, isSameAsCache, none), h1) →
        p.localRepository.LockPackage h1 packageArn input.Action = (none, h2) →
        (Plugin.execute p deps config cancelFlag s).calls =
          [Event.parseAndValidateInput config.Properties,
            Event.packageServiceSelector input.Repository,
            Event.DownloadManifest input.Name
              (if deps.IsLatest input.Version then Latest else input.Version),
            Event.LockPackage packageArn input.Action,
            Event.LoadTraces packageArn,
            Event.ReportResult
              { Operation := input.Action, PackageName := input.Name,
                PreviousPackageVersion := "", Version := manifestVersion },
            Event.UnlockPackage packageArn]) := by
  refine ⟨fun packageService packageArn version isSameAsCache s1 =>
    prepare_unsupported deps config p.localRepository packageService input packageArn version
      isSameAsCache s1 hI hU, ?_⟩
  rw [← and_assoc]
  refine ⟨?_, fun packageArn manifestVersion isSameAsCache h1 h2 hM hL => by
    rw [execute_locked_calls p deps config cancelFlag input packageArn manifestVersion
      isSameAsCache s h1 h2 hS hC hP hM hL,
      (executeLocked_unsupported p deps config (p.packageServiceSelector input.Repository)
        input packageArn manifestVersion isSameAsCache { host := h2, out := {} } hI hU).2.2.2]
    simp⟩
  rcases hM : (p.packageServiceSelector input.Repository).DownloadManifest s.host input.Name
      (if deps.IsLatest input.Version then Latest else input.Version) with
    ⟨⟨packageArn, manifestVersion, isSameAsCache, err⟩, h1⟩
  cases err with
  | some e =>
    rw [execute_manifest_error p deps config cancelFlag input packageArn manifestVersion
      isSameAsCache s h1 e hS hC hP hM]
    simp [Event.isHook, Event.isSetInstallState]
  | none =>
    rcases hL : p.localRepository.LockPackage h1 packageArn input.Action with ⟨lerr, h2⟩
    cases lerr with
    | some e =>
      rw [execute_lock_error_run p deps config cancelFlag input packageArn manifestVersion
        isSameAsCache s h1 h2 e hS hC hP hM hL]
      simp [Event.isHook, Event.isSetInstallState]
    | none =>
      obtain ⟨hval, hst, -, hcalls⟩ := executeLocked_unsupported p deps config
        (p.packageServiceSelector input.Repository) input packageArn manifestVersion
        isSameAsCache { host := h2, out := {} } hI hU
      rw [execute_locked_ok p deps config cancelFlag input packageArn manifestVersion
        isSameAsCache s h1 h2 hS hC hP hM hL hval, hst, hcalls]
      simp [Event.isHook, Event.isSetInstallState]

/-- C20, on a request to repair package A. -/
theorem execute_unsupported_action_witness :
    (Plugin.execute Sample.plugin (Sample.deps Sample.repairA) Sample.config Sample.noCancel
        (Sample.start Sample.installedHost)).val = Res.ok { Status := ResultStatus.Failed } ∧
      (Plugin.execute Sample.plugin (Sample.deps Sample.repairA) Sample.config Sample.noCancel
        (Sample.start Sample.installedHost)).calls =
        [Event.parseAndValidateInput "properties", Event.packageServiceSelector "",
          Event.DownloadManifest "A" "1.0", Event.LockPackage "arn:A" "Repair",
          Event.LoadTraces "arn:A",
          Event.ReportResult
            { Operation := "Repair", PackageName := "A", PreviousPackageVersion := "",
              Version := "1.0" },
          Event.UnlockPackage "arn:A"] :=
  ⟨(execute_unsupported_action Sample.plugin (Sample.deps Sample.repairA) Sample.config
      Sample.noCancel Sample.repairA (Sample.start Sample.installedHost) rfl rfl rfl
      (by decide) (by decide)).2.1,
    (execute_unsupported_action Sample.plugin (Sample.deps Sample.repairA) Sample.config
      Sample.noCancel Sample.repairA (Sample.start Sample.installedHost) rfl rfl rfl
      (by decide) (by decide)).2.2.2 "arn:A" "1.0" true Sample.installedHost
      Sample.installedHost rfl rfl⟩

/-! ## selectService -/

/-- C19: selectService returns the s3 client exactly when it is not the case that the
application configuration loaded without error with the force flag set, and the probe for
the endpoint and the region reports active; in every other case it returns the birdwatcher
client.  A configuration that failed to load gives the result of a loaded configuration with
the flag false, and environments with the same probe, the same configuration result and the
same region give the same client. -/
theorem selectService_s3_iff {ρ : Type} (env : HostEnvironment) (serviceEndpoint : String)
    (localrepo : ρ) :
    (selectService env serviceEndpoint localrepo =
          ServiceClient.ssms3 serviceEndpoint env.Region.1 ↔
        (¬ (env.Config.2 = none ∧ env.Config.1.Birdwatcher.ForceEnable = true) ∧
          env.UseSSMS3Service serviceEndpoint env.Region.1 = true)) ∧
      (selectService env serviceEndpoint localrepo =
          ServiceClient.birdwatcher serviceEndpoint localrepo ↔
        ((env.Config.2 = none ∧ env.Config.1.Birdwatcher.ForceEnable = true) ∨
          env.UseSSMS3Service serviceEndpoint env.Region.1 = false)) ∧
      (∀ (cfg : SsmagentConfig) (err : Error),
        selectService { env with Config := (cfg, some err) } serviceEndpoint localrepo =
          selectService
            { env with Config := ({ Birdwatcher := { ForceEnable := false } }, none) }
            serviceEndpoint localrepo) ∧
      (∀ env2 : HostEnvironment,
        env2.UseSSMS3Service = env.UseSSMS3Service → env2.Config = env.Config →
          env2.Region.1 = env.Region.1 →
          selectService env2 serviceEndpoint localrepo =
            selectService env serviceEndpoint localrepo) := by
  refine ⟨?_, ?_, ?_, ?_⟩
  · unfold selectService
    rcases hcfg : env.Config with ⟨cfg, err⟩
    cases err <;> cases hF : cfg.Birdwatcher.ForceEnable <;>
      cases hU : env.UseSSMS3Service serviceEndpoint env.Region.1 <;> simp [hF, hU]
  · unfold selectService
    rcases hcfg : env.Config with ⟨cfg, err⟩
    cases err <;> cases hF : cfg.Birdwatcher.ForceEnable <;>
      cases hU : env.UseSSMS3Service serviceEndpoint env.Region.1 <;> simp [hF, hU]
  · intro cfg err
    simp [selectService]
  · intro env2 hU hCfg hR
    simp [selectService, hU, hCfg, hR]

/-! ## The cache hit -/

/-- With the package locked, an Install request for the installed version with a cached
manifest, valid local content and a successful Validate: the fast path decides the request
and executeConfigurePackage is not entered. -/
theorem executeLocked_cache_hit {σ : Type} (p : Plugin σ) (deps : Deps σ)
    (config : Configuration) (packageService : PackageService σ)
    (input : ConfigurePackagePluginInput) (packageArn v : String) (s : St σ) (h3 : σ)
    (hA : input.Action = InstallAction)
    (hout : s.out.Status = ResultStatus.NotStarted)
    (hiv : p.localRepository.GetInstalledVersion s.host packageArn = v)
    (hst : p.localRepository.GetInstallState s.host packageArn = (InstallState.Installed, v))
    (hv : p.localRepository.ValidatePackage s.host packageArn v = (none, h3))
    (hver : (p.localRepository.GetInstaller h3 config packageArn v).Version = v)
    (hval : ((p.localRepository.GetInstaller h3 config packageArn v).Validate h3).1.Status =
      ResultStatus.Success) :
    (executeLocked p deps config packageService input packageArn v true s).val = Res.ok () ∧
      (executeLocked p deps config packageService input packageArn v true s).st.out.Status =
        ResultStatus.Success ∧
      (executeLocked p deps config packageService input packageArn v true s).calls =
        [Event.GetInstalledVersion packageArn, Event.GetInstallState packageArn,
          Event.GetInstallState packageArn, Event.ValidatePackage packageArn v,
          Event.GetInstaller packageArn v,
          Event.Validate (p.localRepository.GetInstaller h3 config packageArn v).PackageName v,
          Event.LoadTraces packageArn,
          Event.ReportResult
            { Operation := input.Action, PackageName := input.Name,
              PreviousPackageVersion := v, Version := v }] := by
  have hens := ensurePackage_cached deps p.localRepository packageService packageArn v true
    config s none h3 hv (by simp [hst])
  have hprep := prepare_install_fresh deps config p.localRepository packageService input
    packageArn v true s _ _ _ hA hens (by simp [hst, hiv])
  have hchk := check_installed_valid deps p.localRepository v InstallState.Installed
    (p.localRepository.GetInstaller h3 config packageArn v) none
    { host := h3, out := s.out } hver (Or.inl rfl) hval
  simp only [hst, hiv, reduceCtorEq, if_false] at hprep
  simp only at hchk
  unfold executeLocked
  simp only [bind_run, M.bind, Run.after_mk, GetStatus, hprep]
  rw [if_pos (by simp [hout])]
  simp only [bind_run, pure_run, M.bind, Run.after_mk, hchk]
  rw [if_neg (by simp)]
  simp only [bind_run, pure_run, M.bind, Run.after_mk, GetStatus, Repository.loadTraces, call]
  rw [if_neg (by simp [ResultStatus.IsReboot]), hA, if_pos (by decide)]
  simp only [bind_run, pure_run, M.bind, Run.after_mk, deref, PackageService.reportResult, call,
    hver]
  rcases hR : packageService.ReportResult
      (p.localRepository.LoadTraces
        ((p.localRepository.GetInstaller h3 config packageArn v).Validate h3).2 packageArn).2
      { Operation := InstallAction, PackageName := input.Name,
        PreviousPackageVersion := v, Version := v } with ⟨err, h5⟩
  cases err <;> simp [pure_run, AppendErrorf, hver]

/-- C15, as stated, fails on both counts.  First, an Install of version 1.0 of package A with
a cached manifest on a host whose record is Installed(1.0) and whose local copy validates,
with an installer whose Validate hook fails: the fast path does not succeed and
executeConfigurePackage is entered.  Second, the same request on a host whose record is
Installed(1.0) and whose local copy is lost: RefreshPackage is called. -/
theorem execute_cache_hit_can_execute_or_refresh :
    Sample.service.DownloadManifest Sample.installedHost "A" "1.0" =
        (("arn:A", "1.0", true, none), Sample.installedHost) ∧
      Sample.failingRepository.GetInstalledVersion Sample.installedHost "arn:A" = "1.0" ∧
      Sample.failingRepository.GetInstallState Sample.installedHost "arn:A" =
        (InstallState.Installed, "1.0") ∧
      (Plugin.execute Sample.failingPlugin (Sample.deps Sample.installA) Sample.config
        Sample.noCancel (Sample.start Sample.installedHost)).calls =
        [Event.parseAndValidateInput "properties", Event.packageServiceSelector "",
          Event.DownloadManifest "A" "1.0", Event.LockPackage "arn:A" "Install",
          Event.GetInstalledVersion "arn:A", Event.GetInstallState "arn:A",
          Event.GetInstallState "arn:A", Event.ValidatePackage "arn:A" "1.0",
          Event.GetInstaller "arn:A" "1.0", Event.Validate "arn:A" "1.0",
          Event.executeConfigurePackage, Event.LoadTraces "arn:A",
          Event.ReportResult
            { Operation := "Install", PackageName := "A", PreviousPackageVersion := "1.0",
              Version := "1.0" },
          Event.UnlockPackage "arn:A"] ∧
      Sample.repository.GetInstalledVersion Sample.lostHost "arn:A" = "1.0" ∧
      Sample.repository.GetInstallState Sample.lostHost "arn:A" =
        (InstallState.Installed, "1.0") ∧
      (Plugin.execute Sample.plugin (Sample.deps Sample.installA) Sample.config
        Sample.noCancel (Sample.start Sample.lostHost)).calls =
        [Event.parseAndValidateInput "properties", Event.packageServiceSelector "",
          Event.DownloadManifest "A" "1.0", Event.LockPackage "arn:A" "Install",
          Event.GetInstalledVersion "arn:A", Event.GetInstallState "arn:A",
          Event.GetInstallState "arn:A", Event.ValidatePackage "arn:A" "1.0",
          Event.RefreshPackage "arn:A" "1.0" "birdwatcher",
          Event.ValidatePackage "arn:A" "1.0",
          Event.GetInstaller "arn:A" "1.0", Event.Validate "arn:A" "1.0",
          Event.LoadTraces "arn:A",
          Event.ReportResult
            { Operation := "Install", PackageName := "A", PreviousPackageVersion := "1.0",
              Version := "1.0" },
          Event.UnlockPackage "arn:A"] := by
  decide

/-- C15, amended: for an Install request resolved to version `v` with a cached manifest and
a record Installed(v), when the local content of `v` validates, the installer built for it
reports the version `v` and its Validate hook returns Success, `Plugin.execute` ends with
status Success after the calls listed: no RefreshPackage, no hook other than the one
Validate, and executeConfigurePackage is not entered; prepareConfigurePackage runs no second
ensure and returns no `uninst`. -/
theorem execute_cache_hit_validated {σ : Type} (p : Plugin σ) (deps : Deps σ)
    (config : Configuration) (cancelFlag : CancelFlag) (input : ConfigurePackagePluginInput)
    (packageArn v : String) (s : St σ) (h1 h2 h3 : σ)
    (hS : cancelFlag.ShutDown = false) (hC : cancelFlag.Canceled = false)
    (hP : parseAndValidateInput deps config.Properties = Except.ok input)
    (hA : input.Action = InstallAction)
    (hM : (p.packageServiceSelector input.Repository).DownloadManifest s.host input.Name
        (if deps.IsLatest input.Version then Latest else input.Version) =
      ((packageArn, v, true, none), h1))
    (hL : p.localRepository.LockPackage h1 packageArn input.Action = (none, h2))
    (hiv : p.localRepository.GetInstalledVersion h2 packageArn = v)
    (hst : p.localRepository.GetInstallState h2 packageArn = (InstallState.Installed, v))
    (hv : p.localRepository.ValidatePackage h2 packageArn v = (none, h3))
    (hver : (p.localRepository.GetInstaller h3 config packageArn v).Version = v)
    (hval : ((p.localRepository.GetInstaller h3 config packageArn v).Validate h3).1.Status =
      ResultStatus.Success) :
    (Plugin.execute p deps config cancelFlag s).val =
        Res.ok { Status := ResultStatus.Success } ∧
      (Plugin.execute p deps config cancelFlag s).calls =
        [Event.parseAndValidateInput config.Properties,
          Event.packageServiceSelector input.Repository,
          Event.DownloadManifest input.Name
            (if deps.IsLatest input.Version then Latest else input.Version),
          Event.LockPackage packageArn input.Action,
          Event.GetInstalledVersion packageArn, Event.GetInstallState packageArn,
          Event.GetInstallState packageArn, Event.ValidatePackage packageArn v,
          Event.GetInstaller packageArn v,
          Event.Validate (p.localRepository.GetInstaller h3 config packageArn v).PackageName v,
          Event.LoadTraces packageArn,
          Event.ReportResult
            { Operation := input.Action, PackageName := input.Name,
              PreviousPackageVersion := v, Version := v },
          Event.UnlockPackage packageArn] ∧
      (∀ e ∈ (Plugin.execute p deps config cancelFlag s).calls,
        e.isRefreshPackage = false ∧ e ≠ Event.executeConfigurePackage ∧
          (e.isHook = true →
            e = Event.Validate
              (p.localRepository.GetInstaller h3 config packageArn v).PackageName v)) ∧
      (prepareConfigurePackage deps config p.localRepository
          (p.packageServiceSelector input.Repository) input packageArn v true
          { host := h2, out := {} }).val =
        Res.ok (some (p.localRepository.GetInstaller h3 config packageArn v), none,
          InstallState.Installed, v) := by
  obtain ⟨hval2, hst2, hcalls⟩ := executeLocked_cache_hit p deps config
    (p.packageServiceSelector input.Repository) input packageArn v { host := h2, out := {} } h3
    hA rfl hiv hst hv hver hval
  have hens := ensurePackage_cached deps p.localRepository
    (p.packageServiceSelector input.Repository) packageArn v true config
    { host := h2, out := {} } none h3 hv (by simp [hst])
  have hprep := prepare_install_fresh deps config p.localRepository
    (p.packageServiceSelector input.Repository) input packageArn v true
    { host := h2, out := {} } _ _ _ hA hens (by simp [hst, hiv])
  rw [execute_locked_ok p deps config cancelFlag input packageArn v true s h1 h2 hS hC hP hM hL
    hval2, hst2, hcalls, hprep]
  simp [Event.isRefreshPackage, Event.isHook, hst, hiv]

/-- C15 amended, on the request for version 1.0 of package A, installed and valid. -/
theorem execute_cache_hit_validated_witness :
    (Plugin.execute Sample.plugin (Sample.deps Sample.installA) Sample.config Sample.noCancel
        (Sample.start Sample.installedHost)).val =
        Res.ok { Status := ResultStatus.Success } ∧
      (Plugin.execute Sample.plugin (Sample.deps Sample.installA) Sample.config Sample.noCancel
        (Sample.start Sample.installedHost)).calls =
        [Event.parseAndValidateInput "properties", Event.packageServiceSelector "",
          Event.DownloadManifest "A" "1.0", Event.LockPackage "arn:A" "Install",
          Event.GetInstalledVersion "arn:A", Event.GetInstallState "arn:A",
          Event.GetInstallState "arn:A", Event.ValidatePackage "arn:A" "1.0",
          Event.GetInstaller "arn:A" "1.0", Event.Validate "arn:A" "1.0",
          Event.LoadTraces "arn:A",
          Event.ReportResult
            { Operation := "Install", PackageName := "A", PreviousPackageVersion := "1.0",
              Version := "1.0" },
          Event.UnlockPackage "arn:A"] :=
  ⟨(execute_cache_hit_validated Sample.plugin (Sample.deps Sample.installA) Sample.config
      Sample.noCancel Sample.installA "arn:A" "1.0" (Sample.start Sample.installedHost)
      Sample.installedHost Sample.installedHost Sample.installedHost rfl rfl rfl rfl rfl rfl
      rfl rfl rfl rfl rfl).1,
    (execute_cache_hit_validated Sample.plugin (Sample.deps Sample.installA) Sample.config
      Sample.noCancel Sample.installA "arn:A" "1.0" (Sample.start Sample.installedHost)
      Sample.installedHost Sample.installedHost Sample.installedHost rfl rfl rfl rfl rfl rfl
      rfl rfl rfl rfl rfl).2.1⟩

/-! ## The calls of each part of a run -/

/-- Every call of a run satisfies `P` when the run has no call. -/
theorem callsAll_pure {σ α : Type} (P : Event → Bool) (a : α) (s : St σ) :
    ((pure a : M σ α) s).callsAll P = true := by
  simp [Run.callsAll, pure_run]

/-- The calls of a sequence are those of its two parts. -/
theorem callsAll_bind {σ α β : Type} (P : Event → Bool) (m : M σ α) (f : α → M σ β)
    (s : St σ) (hm : (m s).callsAll P = true) (hf : ∀ a s1, (f a s1).callsAll P = true) :
    ((m >>= f) s).callsAll P = true := by
  rcases h : m s with ⟨v, s1, c1⟩
  rw [h] at hm
  cases v with
  | ok a =>
    have h2 := hf a s1
    simp only [Run.callsAll] at hm h2 ⊢
    simp [bind_run, M.bind, h, Run.after, hm, h2]
  | panicked msg =>
    simp only [Run.callsAll] at hm ⊢
    simp [bind_run, M.bind, h, hm]

/-- A method call on an interface value makes no call on a collaborator. -/
theorem callsAll_deref {σ α : Type} (P : Event → Bool) (x : Option α) (s : St σ) :
    ((deref x : M σ α) s).callsAll P = true := by
  cases x <;> simp [Run.callsAll, deref]

/-- Every call of `ensurePackage` is a read of the record or a call on the package content. -/
theorem ensurePackage_calls {σ : Type} (deps : Deps σ) (repository : Repository σ)
    (packageService : PackageService σ) (packageName version : String) (isSameAsCache : Bool)
    (config : Configuration) (s : St σ) :
    (ensurePackage deps repository packageService packageName version isSameAsCache
      config s).callsAll Event.isEnsure = true := by
  unfold ensurePackage
  repeat' first
    | exact callsAll_pure _ _ _
    | apply callsAll_bind
    | intro _
    | split
    | (simp [Run.callsAll, Repository.getInstallState, Repository.validatePackage,
        Repository.refreshPackage, Repository.getInstaller, read, call, Event.isEnsure])

/-- Every call of `prepareConfigurePackage` is a read of the record or a call of
`ensurePackage`. -/
theorem prepareConfigurePackage_calls {σ : Type} (deps : Deps σ) (config : Configuration)
    (repository : Repository σ) (packageService : PackageService σ)
    (input : ConfigurePackagePluginInput) (packageArn version : String) (isSameAsCache : Bool)
    (s : St σ) :
    (prepareConfigurePackage deps config repository packageService input packageArn version
      isSameAsCache s).callsAll Event.isEnsure = true := by
  unfold prepareConfigurePackage getVersionToInstall getVersionToUninstall
  repeat' first
    | exact callsAll_pure _ _ _
    | exact ensurePackage_calls _ _ _ _ _ _ _ _
    | apply callsAll_bind
    | intro _
    | split
    | dsimp only
    | (simp [Run.callsAll, Repository.getInstallState, Repository.getInstalledVersion, read,
        MarkAsFailed, MarkAsSucceeded, Event.isEnsure])

/-- Every call of `checkAlreadyInstalled` is a Validate hook, a cleanupAfterUninstall or a
SetInstallState. -/
theorem checkAlreadyInstalled_calls {σ : Type} (deps : Deps σ) (repository : Repository σ)
    (installedVersion : String) (installState : InstallState)
    (inst uninst : Option (Installer σ)) (s : St σ) :
    (checkAlreadyInstalled deps repository installedVersion installState inst uninst
      s).callsAll Event.isFastPath = true := by
  unfold checkAlreadyInstalled
  cases inst with
  | none => exact callsAll_pure _ _ _
  | some i =>
    dsimp only
    generalize (if (i.Version == installedVersion &&
        (installState == InstallState.Installed || installState == InstallState.Unknown) ||
        installState == InstallState.Installing) = true then some i
      else if (uninst.isSome && installState == InstallState.RollbackInstall) = true then uninst
      else none) = instToCheck
    cases instToCheck with
    | none => exact callsAll_pure _ _ _
    | some c =>
      dsimp only
      repeat' first
        | exact callsAll_pure _ _ _
        | exact callsAll_deref _ _ _
        | apply callsAll_bind
        | intro _
        | split
        | (simp [Run.callsAll, Installer.validate, call, cleanupAfterUninstall, step,
            Repository.setInstallState, MarkAsFailed, MarkAsSucceeded, Event.isFastPath])

/-- Sequencing after a run that returns. -/
theorem bind_ok_run {σ α β : Type} (m : M σ α) (f : α → M σ β) (s : St σ) (a : α) (s1 : St σ)
    (c1 : List Event) (h : m s = { val := Res.ok a, st := s1, calls := c1 }) :
    (m >>= f) s = Run.after c1 (f a s1) := by
  simp [bind_run, M.bind, h]

/-- A call that does not satisfy `P` is not a call of a run whose calls all satisfy `P`. -/
theorem not_mem_of_callsAll {σ α : Type} (P : Event → Bool) (e : Event) (h : P e = false)
    (r : Run σ α) (hr : r.callsAll P = true) : e ∉ r.calls := by
  intro hmem
  simp only [Run.callsAll, List.all_eq_true] at hr
  rw [hr e hmem] at h
  exact absurd h (by decide)

/-- With the package locked and the request left undecided by prepareConfigurePackage,
executeConfigurePackage is entered exactly when checkAlreadyInstalled returned false or the
manifest is not the cached one. -/
theorem executeLocked_gating {σ : Type} (p : Plugin σ) (deps : Deps σ)
    (config : Configuration) (packageService : PackageService σ)
    (input : ConfigurePackagePluginInput) (packageArn manifestVersion : String)
    (isSameAsCache : Bool) (s : St σ) (inst uninst : Option (Installer σ))
    (installState : InstallState) (installedVersion : String) (b : Bool)
    (hprep : (prepareConfigurePackage deps config p.localRepository packageService input
      packageArn manifestVersion isSameAsCache s).val =
        Res.ok (inst, uninst, installState, installedVersion))
    (hund : (prepareConfigurePackage deps config p.localRepository packageService input
        packageArn manifestVersion isSameAsCache s).st.out.Status ≠ ResultStatus.Failed ∧
      (prepareConfigurePackage deps config p.localRepository packageService input
        packageArn manifestVersion isSameAsCache s).st.out.Status ≠ ResultStatus.Success)
    (hchk : (checkAlreadyInstalled deps p.localRepository installedVersion installState inst
      uninst (prepareConfigurePackage deps config p.localRepository packageService input
        packageArn manifestVersion isSameAsCache s).st).val = Res.ok b) :
    Event.executeConfigurePackage ∈
        (executeLocked p deps config packageService input packageArn manifestVersion
          isSameAsCache s).calls ↔
      (b = false ∨ isSameAsCache = false) := by
  have hc1 := prepareConfigurePackage_calls deps config p.localRepository packageService input
    packageArn manifestVersion isSameAsCache s
  rcases hrun : prepareConfigurePackage deps config p.localRepository packageService input
    packageArn manifestVersion isSameAsCache s with ⟨v1, s1, c1⟩
  rw [hrun] at hprep hund hchk hc1
  simp only at hprep hund hchk
  subst hprep
  have hc2 := checkAlreadyInstalled_calls deps p.localRepository installedVersion installState
    inst uninst s1
  rcases hrun2 : checkAlreadyInstalled deps p.localRepository installedVersion installState
    inst uninst s1 with ⟨v2, s2, c2⟩
  rw [hrun2] at hchk hc2
  simp only at hchk
  subst hchk
  have hn1 : Event.executeConfigurePackage ∉ c1 :=
    not_mem_of_callsAll Event.isEnsure Event.executeConfigurePackage rfl _ hc1
  have hn2 : Event.executeConfigurePackage ∉ c2 :=
    not_mem_of_callsAll Event.isFastPath Event.executeConfigurePackage rfl _ hc2
  unfold executeLocked
  rw [bind_ok_run _ _ _ _ _ _ hrun]
  dsimp only
  rw [bind_ok_run _ _ _ _ _ _ (rfl : GetStatus s1 = { val := Res.ok s1.out.Status, st := s1, calls := [] })]
  rw [if_pos (by simp [hund.1, hund.2])]
  rw [bind_ok_run _ _ _ _ _ _ hrun2]
  by_cases hg : b = false ∨ isSameAsCache = false
  · rw [if_pos (by rcases hg with hg | hg <;> simp [hg])]
    rw [bind_ok_run _ _ _ _ _ _
      (rfl : executeConfigurePackage deps p.localRepository inst uninst installState s2 =
        { val := Res.ok (),
          st := deps.executeConfigurePackage p.localRepository inst uninst installState s2,
          calls := [Event.executeConfigurePackage] })]
    simp [Run.after, hg]
  · rw [if_neg (by simpa using hg)]
    rw [bind_ok_run _ _ _ _ _ _ (pure_run () s2)]
    simp only [Run.after, List.nil_append, List.mem_append, hn1, hn2, false_or, hg, iff_false]
    apply not_mem_of_callsAll Event.isReport Event.executeConfigurePackage rfl
    repeat' first
      | exact callsAll_pure _ _ _
      | exact callsAll_deref _ _ _
      | apply callsAll_bind
      | intro _
      | split
      | (simp [Run.callsAll, Repository.loadTraces, Repository.persistTraces,
          PackageService.reportResult, call, GetStatus, AppendErrorf, Event.isReport])

/-- C14: when prepareConfigurePackage leaves the request undecided, `Plugin.execute` enters
executeConfigurePackage if and only if checkAlreadyInstalled returned false or the manifest
is not the cached one; in particular it enters it whenever the manifest is not the cached
one, whatever the fast path returned. -/
theorem execute_gating {σ : Type} (p : Plugin σ) (deps : Deps σ) (config : Configuration)
    (cancelFlag : CancelFlag) (input : ConfigurePackagePluginInput)
    (packageArn manifestVersion : String) (isSameAsCache : Bool) (s : St σ) (h1 h2 : σ)
    (inst uninst : Option (Installer σ)) (installState : InstallState)
    (installedVersion : String) (b : Bool)
    (hS : cancelFlag.ShutDown = false) (hC : cancelFlag.Canceled = false)
    (hP : parseAndValidateInput deps config.Properties = Except.ok input)
    (hM : (p.packageServiceSelector input.Repository).DownloadManifest s.host input.Name
        (if deps.IsLatest input.Version then Latest else input.Version) =
      ((packageArn, manifestVersion, isSameAsCache, none), h1))
    (hL : p.localRepository.LockPackage h1 packageArn input.Action = (none, h2))
    (hprep : (prepareConfigurePackage deps config p.localRepository
        (p.packageServiceSelector input.Repository) input packageArn manifestVersion
        isSameAsCache { host := h2, out := {} }).val =
      Res.ok (inst, uninst, installState, installedVersion))
    (hund : (prepareConfigurePackage deps config p.localRepository
          (p.packageServiceSelector input.Repository) input packageArn manifestVersion
          isSameAsCache { host := h2, out := {} }).st.out.Status ≠ ResultStatus.Failed ∧
        (prepareConfigurePackage deps config p.localRepository
          (p.packageServiceSelector input.Repository) input packageArn manifestVersion
          isSameAsCache { host := h2, out := {} }).st.out.Status ≠ ResultStatus.Success)
    (hchk : (checkAlreadyInstalled deps p.localRepository installedVersion installState inst
        uninst (prepareConfigurePackage deps config p.localRepository
          (p.packageServiceSelector input.Repository) input packageArn manifestVersion
          isSameAsCache { host := h2, out := {} }).st).val = Res.ok b) :
    (Event.executeConfigurePackage ∈ (Plugin.execute p deps config cancelFlag s).calls ↔
        (b = false ∨ isSameAsCache = false)) ∧
      (isSameAsCache = false →
        Event.executeConfigurePackage ∈ (Plugin.execute p deps config cancelFlag s).calls) := by
  have hg := executeLocked_gating p deps config (p.packageServiceSelector input.Repository)
    input packageArn manifestVersion isSameAsCache { host := h2, out := {} } inst uninst
    installState installedVersion b hprep hund hchk
  have hiff : Event.executeConfigurePackage ∈ (Plugin.execute p deps config cancelFlag s).calls ↔
      (b = false ∨ isSameAsCache = false) := by
    rw [execute_locked_calls p deps config cancelFlag input packageArn manifestVersion
      isSameAsCache s h1 h2 hS hC hP hM hL, ← hg]
    simp
  exact ⟨hiff, fun h => hiff.mpr (Or.inr h)⟩

/-- C14, on a re-install of the installed version 1.0 of package A with a manifest that is
not the cached one: the fast path succeeds and executeConfigurePackage is still entered. -/
theorem execute_gating_witness :
    (checkAlreadyInstalled (Sample.deps Sample.installA) Sample.repository "1.0"
        InstallState.Installed (some (Sample.installer "arn:A" "1.0"))
        (some (Sample.installer "arn:A" "1.0"))
        (prepareConfigurePackage (Sample.deps Sample.installA) Sample.config Sample.repository
          Sample.changedService Sample.installA "arn:A" "1.0" false
          (Sample.start Sample.installedHost)).st).val = Res.ok true ∧
      Event.executeConfigurePackage ∈
        (Plugin.execute Sample.changedPlugin (Sample.deps Sample.installA) Sample.config
          Sample.noCancel (Sample.start Sample.installedHost)).calls :=
  ⟨rfl,
    (execute_gating Sample.changedPlugin (Sample.deps Sample.installA) Sample.config
      Sample.noCancel Sample.installA "arn:A" "1.0" false (Sample.start Sample.installedHost)
      Sample.installedHost Sample.installedHost (some (Sample.installer "arn:A" "1.0"))
      (some (Sample.installer "arn:A" "1.0")) InstallState.Installed "1.0" true rfl rfl rfl rfl
      rfl rfl ⟨by decide, by decide⟩ rfl).2 rfl⟩

/-! ## The scoped lock -/

/-- A weaker property of the calls of a run follows from a stronger one. -/
theorem callsAll_mono {σ α : Type} (P Q : Event → Bool) (h : ∀ e, P e = true → Q e = true)
    (r : Run σ α) (hr : r.callsAll P = true) : r.callsAll Q = true := by
  simp only [Run.callsAll, List.all_eq_true] at hr ⊢
  exact fun e he => h e (hr e he)

/-- Every call of the locked part of `Plugin.execute` is a call of prepareConfigurePackage,
of checkAlreadyInstalled, the entry of executeConfigurePackage, or one of LoadTraces,
PersistTraces and ReportResult. -/
theorem executeLocked_calls {σ : Type} (p : Plugin σ) (deps : Deps σ) (config : Configuration)
    (packageService : PackageService σ) (input : ConfigurePackagePluginInput)
    (packageArn manifestVersion : String) (isSameAsCache : Bool) (s : St σ) :
    (executeLocked p deps config packageService input packageArn manifestVersion isSameAsCache
      s).callsAll Event.isLocked = true := by
  unfold executeLocked
  repeat' first
    | exact callsAll_pure _ _ _
    | exact callsAll_deref _ _ _
    | exact callsAll_mono Event.isEnsure _ (fun e h => by simp [Event.isLocked, h]) _
        (prepareConfigurePackage_calls _ _ _ _ _ _ _ _ _)
    | exact callsAll_mono Event.isFastPath _ (fun e h => by simp [Event.isLocked, h]) _
        (checkAlreadyInstalled_calls _ _ _ _ _ _ _)
    | apply callsAll_bind
    | intro _
    | split
    | (simp [Run.callsAll, Repository.loadTraces, Repository.persistTraces,
        PackageService.reportResult, call, GetStatus, AppendErrorf, executeConfigurePackage,
        step, Event.isLocked, Event.isReport, Event.isEnsure, Event.isFastPath])


/-- A request whose input does not parse or validate ends with status Failed after the
parse. -/
theorem execute_parse_error {σ : Type} (p : Plugin σ) (deps : Deps σ) (config : Configuration)
    (cancelFlag : CancelFlag) (s : St σ) (e : Error)
    (hS : cancelFlag.ShutDown = false) (hC : cancelFlag.Canceled = false)
    (hP : parseAndValidateInput deps config.Properties = Except.error e) :
    Plugin.execute p deps config cancelFlag s =
      { val := Res.ok { Status := ResultStatus.Failed },
        st := { host := s.host, out := { Status := ResultStatus.Failed } },
        calls := [Event.parseAndValidateInput config.Properties] } := by
  unfold Plugin.execute
  simp [bind_run, pure_run, M.bind, newOutput, hS, hC, note, hP, MarkAsFailed, setOutput,
    GetStatus]

/-- C18: in a run of `Plugin.execute` in which LockPackage succeeds, the calls end with one
UnlockPackage for the locked package and contain no other UnlockPackage, whatever happens
under the lock; in a run in which the lock is not acquired, there is no UnlockPackage. -/
theorem execute_unlocks_iff_locked {σ : Type} (p : Plugin σ) (deps : Deps σ)
    (config : Configuration) (cancelFlag : CancelFlag) (s : St σ) :
    (∀ (input : ConfigurePackagePluginInput) (packageArn manifestVersion : String)
        (isSameAsCache : Bool) (h1 h2 : σ),
        cancelFlag.ShutDown = false → cancelFlag.Canceled = false →
        parseAndValidateInput deps config.Properties = Except.ok input →
        (p.packageServiceSelector input.Repository).DownloadManifest s.host input.Name
            (if deps.IsLatest input.Version then Latest else input.Version) =
          ((packageArn, manifestVersion, isSameAsCache, none), h1) →
        p.localRepository.LockPackage h1 packageArn input.Action = (none, h2) →
        ∃ before,
          (Plugin.execute p deps config cancelFlag s).calls =
              before ++ [Event.UnlockPackage packageArn] ∧
            ∀ e ∈ before, e.isUnlockPackage = false) ∧
      ((¬ ∃ (input : ConfigurePackagePluginInput) (packageArn manifestVersion : String)
          (isSameAsCache : Bool) (h1 h2 : σ),
          cancelFlag.ShutDown = false ∧ cancelFlag.Canceled = false ∧
          parseAndValidateInput deps config.Properties = Except.ok input ∧
          (p.packageServiceSelector input.Repository).DownloadManifest s.host input.Name
              (if deps.IsLatest input.Version then Latest else input.Version) =
            ((packageArn, manifestVersion, isSameAsCache, none), h1) ∧
          p.localRepository.LockPackage h1 packageArn input.Action = (none, h2)) →
        ∀ e ∈ (Plugin.execute p deps config cancelFlag s).calls, e.isUnlockPackage = false) := by
  constructor
  · intro input packageArn manifestVersion isSameAsCache h1 h2 hS hC hP hM hL
    refine ⟨_, execute_locked_calls p deps config cancelFlag input packageArn manifestVersion
      isSameAsCache s h1 h2 hS hC hP hM hL, ?_⟩
    have hlocked := executeLocked_calls p deps config
      (p.packageServiceSelector input.Repository) input packageArn manifestVersion
      isSameAsCache { host := h2, out := {} }
    simp only [Run.callsAll, List.all_eq_true] at hlocked
    intro e he
    rcases List.mem_append.mp he with he | he
    · simp at he
      rcases he with he | he | he | he <;> subst he <;> rfl
    · have := hlocked e he
      cases e <;> simp [Event.isLocked, Event.isEnsure, Event.isFastPath, Event.isReport,
        Event.isUnlockPackage] at this ⊢
  · intro hno
    by_cases hS : cancelFlag.ShutDown = true
    · rw [execute_cancel_run p deps config cancelFlag s (Or.inl hS)]
      simp
    · by_cases hC : cancelFlag.Canceled = true
      · rw [execute_cancel_run p deps config cancelFlag s (Or.inr hC)]
        simp
      · have hS2 : cancelFlag.ShutDown = false := by simpa using hS
        have hC2 : cancelFlag.Canceled = false := by simpa using hC
        rcases hP : parseAndValidateInput deps config.Properties with e | input
        · rw [execute_parse_error p deps config cancelFlag s e hS2 hC2 hP]
          simp [Event.isUnlockPackage]
        · rcases hM : (p.packageServiceSelector input.Repository).DownloadManifest s.host
              input.Name (if deps.IsLatest input.Version then Latest else input.Version) with
            ⟨⟨packageArn, manifestVersion, isSameAsCache, err⟩, h1⟩
          cases err with
          | some e =>
            rw [execute_manifest_error p deps config cancelFlag input packageArn
              manifestVersion isSameAsCache s h1 e hS2 hC2 hP hM]
            simp [Event.isUnlockPackage]
          | none =>
            rcases hL : p.localRepository.LockPackage h1 packageArn input.Action with
              ⟨lerr, h2⟩
            cases lerr with
            | some e =>
              rw [execute_lock_error_run p deps config cancelFlag input packageArn
                manifestVersion isSameAsCache s h1 h2 e hS2 hC2 hP hM hL]
              simp [Event.isUnlockPackage]
            | none =>
              exact absurd ⟨input, packageArn, manifestVersion, isSameAsCache, h1, h2, hS2,
                hC2, hP, hM, hL⟩ hno

/-- C18, on the uninstall of a package that is not installed: the run panics under the lock
and the deferred unlock is still its last call. -/
theorem execute_unlocks_iff_locked_witness :
    ∃ before,
      (Plugin.execute Sample.plugin (Sample.deps Sample.uninstallA) Sample.config
          Sample.noCancel (Sample.start Sample.emptyHost)).calls =
          before ++ [Event.UnlockPackage "arn:A"] ∧
        ∀ e ∈ before, e.isUnlockPackage = false :=
  (execute_unlocks_iff_locked Sample.plugin (Sample.deps Sample.uninstallA) Sample.config
    Sample.noCancel (Sample.start Sample.emptyHost)).1 Sample.uninstallA "arn:A" "" true
    Sample.emptyHost Sample.emptyHost rfl rfl rfl rfl rfl


/-! ## The Uninstall plan -/

/-- An installer returned by `ensurePackage` is `GetInstaller` on the host it leaves. -/
theorem ensurePackage_installer {σ : Type} (deps : Deps σ) (repository : Repository σ)
    (packageService : PackageService σ) (packageName version : String) (isSameAsCache : Bool)
    (config : Configuration) (s : St σ) (u : Installer σ)
    (h : (ensurePackage deps repository packageService packageName version isSameAsCache
      config s).val = Res.ok (Except.ok u)) :
    u = repository.GetInstaller
      (ensurePackage deps repository packageService packageName version isSameAsCache
        config s).st.host config packageName version := by
  rcases hv : repository.ValidatePackage s.host packageName version with ⟨verr, h1⟩
  by_cases hc : verr ≠ none ∨
      ((repository.GetInstallState s.host packageName).2 = version ∧
        ((repository.GetInstallState s.host packageName).1 = InstallState.Failed ∨
          isSameAsCache = false))
  · rcases hr : repository.RefreshPackage h1 packageName version
        packageService.PackageServiceName
        (buildDownloadDelegate deps packageService packageName version) with ⟨rerr, h2⟩
    cases rerr with
    | some e =>
      rw [ensurePackage_refresh_error deps repository packageService packageName version
        isSameAsCache config s verr h1 h2 e hv hc hr] at h
      simp at h
    | none =>
      rcases hv2 : repository.ValidatePackage h2 packageName version with ⟨verr2, h3⟩
      cases verr2 with
      | some e =>
        rw [ensurePackage_revalidate_error deps repository packageService packageName version
          isSameAsCache config s verr h1 h2 h3 e hv hc hr hv2] at h
        simp at h
      | none =>
        rw [ensurePackage_refreshed deps repository packageService packageName version
          isSameAsCache config s verr h1 h2 h3 hv hc hr hv2] at h ⊢
        simp at h
        exact h.symm
  · rw [ensurePackage_cached deps repository packageService packageName version
      isSameAsCache config s verr h1 hv hc] at h ⊢
    simp at h
    exact h.symm

/-- The run of `prepareConfigurePackage` on an Uninstall request that is not
short-circuited: the installed version is ensured. -/
theorem prepare_uninstall_ensure {σ : Type} (deps : Deps σ) (config : Configuration)
    (repository : Repository σ) (packageService : PackageService σ)
    (input : ConfigurePackagePluginInput) (packageArn version v : String)
    (isSameAsCache : Bool) (s s2 : St σ) (c2 : List Event)
    (r2 : Except Error (Installer σ)) (hA : input.Action = UninstallAction)
    (hv : repository.GetInstalledVersion s.host packageArn = v) (hne : v ≠ "")
    (hst : (repository.GetInstallState s.host packageArn).1 ≠ InstallState.None ∧
      (repository.GetInstallState s.host packageArn).1 ≠ InstallState.Uninstalled)
    (ht : input.Version = "" ∨ deps.IsLatest input.Version = true ∨ version = v)
    (h2 : ensurePackage deps repository packageService packageArn v isSameAsCache config s =
      { val := Res.ok r2, st := s2, calls := c2 }) :
    prepareConfigurePackage deps config repository packageService input packageArn version
        isSameAsCache s =
      { val := Res.ok (none, r2.toOption, (repository.GetInstallState s.host packageArn).1, v),
        st :=
          { host := s2.host,
            out :=
              match r2 with
              | Except.ok _ => s2.out
              | Except.error _ => { s2.out with Status := ResultStatus.Failed } },
        calls := [Event.GetInstalledVersion packageArn, Event.GetInstallState packageArn] ++
          c2 } := by
  unfold prepareConfigurePackage
  rw [hA, if_neg (by decide), if_pos (by decide)]
  simp only [bind_run, M.bind, getVersionToUninstall_run, Run.after_mk, hv, hne, if_false]
  rw [if_neg]
  · cases r2 <;> simp [bind_run, pure_run, M.bind, h2, MarkAsFailed, Except.toOption]
  · rcases ht with ht | ht | ht
    · simp [ht, hne, hst.1, hst.2]
    · simp [ht, hne, hst.1, hst.2]
    · by_cases hx : (input.Version == "" || deps.IsLatest input.Version) = true
      · simp only [hx, if_true]
        simp [hne, hst.1, hst.2]
      · simp only [hx]
        simp [ht, hne, hst.1, hst.2]

/-- C21: for an Uninstall request that is not short-circuited (installed version `v` not
empty, state neither None nor Uninstalled, and `input.Version` empty or latest, or the
resolved version equal to `v`), prepareConfigurePackage reads the record and runs
`ensurePackage` once, for `v`.  When that returns an installer, it is the installer for `v`,
it is returned as `uninst` with no `inst`, and the output is left as it was; when it returns
an error the request is marked failed and no installer is returned. -/
theorem prepareConfigurePackage_uninstall_binding {σ : Type} (deps : Deps σ)
    (config : Configuration) (repository : Repository σ) (packageService : PackageService σ)
    (input : ConfigurePackagePluginInput) (packageArn version v : String)
    (isSameAsCache : Bool) (s : St σ) (hA : input.Action = UninstallAction)
    (hv : repository.GetInstalledVersion s.host packageArn = v) (hne : v ≠ "")
    (hst : (repository.GetInstallState s.host packageArn).1 ≠ InstallState.None ∧
      (repository.GetInstallState s.host packageArn).1 ≠ InstallState.Uninstalled)
    (ht : input.Version = "" ∨ deps.IsLatest input.Version = true ∨ version = v) :
    (prepareConfigurePackage deps config repository packageService input packageArn version
        isSameAsCache s).calls =
        [Event.GetInstalledVersion packageArn, Event.GetInstallState packageArn] ++
          (ensurePackage deps repository packageService packageArn v isSameAsCache config
            s).calls ∧
      (prepareConfigurePackage deps config repository packageService input packageArn version
        isSameAsCache s).st.host =
        (ensurePackage deps repository packageService packageArn v isSameAsCache config
          s).st.host ∧
      (∀ u, (ensurePackage deps repository packageService packageArn v isSameAsCache config
            s).val = Res.ok (Except.ok u) →
          (prepareConfigurePackage deps config repository packageService input packageArn
              version isSameAsCache s).val =
            Res.ok (none, some u, (repository.GetInstallState s.host packageArn).1, v) ∧
          (prepareConfigurePackage deps config repository packageService input packageArn
              version isSameAsCache s).st.out = s.out ∧
          u = repository.GetInstaller
            (ensurePackage deps repository packageService packageArn v isSameAsCache config
              s).st.host config packageArn v) ∧
      (∀ e, (ensurePackage deps repository packageService packageArn v isSameAsCache config
            s).val = Res.ok (Except.error e) →
          (prepareConfigurePackage deps config repository packageService input packageArn
              version isSameAsCache s).val =
            Res.ok (none, none, (repository.GetInstallState s.host packageArn).1, v) ∧
          (prepareConfigurePackage deps config repository packageService input packageArn
              version isSameAsCache s).st.out.Status = ResultStatus.Failed) := by
  obtain ⟨⟨r2, hr2⟩, hout, -, -⟩ := ensurePackage_frame deps repository packageService
    packageArn v isSameAsCache config s
  have hrun : ensurePackage deps repository packageService packageArn v isSameAsCache config
      s =
      { val := Res.ok r2,
        st := (ensurePackage deps repository packageService packageArn v isSameAsCache config
          s).st,
        calls := (ensurePackage deps repository packageService packageArn v isSameAsCache
          config s).calls } := by
    rw [← hr2]
  have hprep := prepare_uninstall_ensure deps config repository packageService input
    packageArn version v isSameAsCache s _ _ r2 hA hv hne hst ht hrun
  refine ⟨by rw [hprep], by rw [hprep], ?_, ?_⟩
  · intro u hu
    have hr : r2 = Except.ok u := by
      rw [hr2] at hu
      simpa using hu
    subst hr
    refine ⟨by rw [hprep]; rfl, by rw [hprep]; exact hout, ?_⟩
    exact ensurePackage_installer deps repository packageService packageArn v isSameAsCache
      config s u hu
  · intro e he
    have hr : r2 = Except.error e := by
      rw [hr2] at he
      simpa using he
    subst hr
    exact ⟨by rw [hprep]; rfl, by rw [hprep]⟩

/-- C21, on the uninstall of package A from a host where version 1.0 is installed. -/
theorem prepareConfigurePackage_uninstall_binding_witness :
    (prepareConfigurePackage (Sample.deps Sample.uninstallA) Sample.config Sample.repository
        Sample.service Sample.uninstallA "arn:A" "" true
        (Sample.start Sample.installedHost)).calls =
        [Event.GetInstalledVersion "arn:A", Event.GetInstallState "arn:A",
          Event.GetInstallState "arn:A", Event.ValidatePackage "arn:A" "1.0",
          Event.GetInstaller "arn:A" "1.0"] ∧
      (prepareConfigurePackage (Sample.deps Sample.uninstallA) Sample.config Sample.repository
        Sample.service Sample.uninstallA "arn:A" "" true
        (Sample.start Sample.installedHost)).val =
        Res.ok (none, some (Sample.installer "arn:A" "1.0"), InstallState.Installed, "1.0") :=
  ⟨((prepareConfigurePackage_uninstall_binding (Sample.deps Sample.uninstallA) Sample.config
      Sample.repository Sample.service Sample.uninstallA "arn:A" "" "1.0" true
      (Sample.start Sample.installedHost) rfl rfl (by decide) ⟨by decide, by decide⟩
      (Or.inl rfl)).1).trans (by decide),
    ((prepareConfigurePackage_uninstall_binding (Sample.deps Sample.uninstallA) Sample.config
      Sample.repository Sample.service Sample.uninstallA "arn:A" "" "1.0" true
      (Sample.start Sample.installedHost) rfl rfl (by decide) ⟨by decide, by decide⟩
      (Or.inl rfl)).2.2.1 (Sample.installer "arn:A" "1.0") rfl).1⟩


/-! ## Reboot and report -/

/-- A sequence returns when both of its parts do. -/
theorem returns_bind {σ α β : Type} (m : M σ α) (f : α → M σ β) (s : St σ)
    (hm : ∃ a, (m s).val = Res.ok a) (hf : ∀ a s1, ∃ b, (f a s1).val = Res.ok b) :
    ∃ b, ((m >>= f) s).val = Res.ok b := by
  obtain ⟨a, ha⟩ := hm
  rcases h : m s with ⟨v, s1, c1⟩
  rw [h] at ha
  simp only at ha
  subst ha
  obtain ⟨b, hb⟩ := hf a s1
  exact ⟨b, by simp [bind_run, M.bind, h, Run.after, hb]⟩

/-- `prepareConfigurePackage` always returns. -/
theorem prepareConfigurePackage_returns {σ : Type} (deps : Deps σ) (config : Configuration)
    (repository : Repository σ) (packageService : PackageService σ)
    (input : ConfigurePackagePluginInput) (packageArn version : String) (isSameAsCache : Bool)
    (s : St σ) :
    ∃ r, (prepareConfigurePackage deps config repository packageService input packageArn
      version isSameAsCache s).val = Res.ok r := by
  unfold prepareConfigurePackage getVersionToInstall getVersionToUninstall
  repeat' first
    | exact ⟨_, rfl⟩
    | exact (ensurePackage_frame _ _ _ _ _ _ _ _).1
    | apply returns_bind
    | intro _
    | split
    | dsimp only

/-- `checkAlreadyInstalled` always returns: the installer to uninstall is only read on a
branch where it is present. -/
theorem checkAlreadyInstalled_returns {σ : Type} (deps : Deps σ) (repository : Repository σ)
    (installedVersion : String) (installState : InstallState)
    (inst uninst : Option (Installer σ)) (s : St σ) :
    ∃ b, (checkAlreadyInstalled deps repository installedVersion installState inst uninst
      s).val = Res.ok b := by
  unfold checkAlreadyInstalled
  cases inst with
  | none => exact ⟨_, rfl⟩
  | some i =>
    by_cases hval : (i.Validate s.host).1.Status = ResultStatus.Success <;>
    by_cases hver : i.Version = installedVersion <;>
    cases uninst with
    | none =>
      cases installState <;>
        simp [bind_run, pure_run, M.bind, Installer.validate, call, hval, hver,
          MarkAsSucceeded, MarkAsFailed, Repository.setInstallState]
    | some u =>
      by_cases hval2 : (u.Validate s.host).1.Status = ResultStatus.Success <;>
      cases installState <;>
        simp [bind_run, pure_run, M.bind, Installer.validate, call, hval, hver, hval2,
          MarkAsSucceeded, MarkAsFailed, Repository.setInstallState, cleanupAfterUninstall,
          step, deref]

/-- The end of the locked part of `Plugin.execute`: after the calls of the plan, the fast
path and the execution, LoadTraces is called; then PersistTraces when the status is a reboot
status, and otherwise ReportResult unless the version to report cannot be read.  The status
is the one the request has when the locked part is over. -/
theorem executeLocked_report {σ : Type} (p : Plugin σ) (deps : Deps σ)
    (config : Configuration) (packageService : PackageService σ)
    (input : ConfigurePackagePluginInput) (packageArn manifestVersion : String)
    (isSameAsCache : Bool) (s : St σ) :
    ∃ (before : List Event) (status : ResultStatus),
      (∀ e ∈ before, e.isReport = false) ∧
        (executeLocked p deps config packageService input packageArn manifestVersion
          isSameAsCache s).st.out.Status = status ∧
        ((status.IsReboot = true ∧
            (executeLocked p deps config packageService input packageArn manifestVersion
              isSameAsCache s).calls =
              before ++ [Event.LoadTraces packageArn, Event.PersistTraces packageArn]) ∨
          (status.IsReboot = false ∧
            ((executeLocked p deps config packageService input packageArn manifestVersion
                isSameAsCache s).calls = before ++ [Event.LoadTraces packageArn] ∨
              ∃ result,
                (executeLocked p deps config packageService input packageArn manifestVersion
                  isSameAsCache s).calls =
                  before ++ [Event.LoadTraces packageArn, Event.ReportResult result]))) := by
  have hc1 := prepareConfigurePackage_calls deps config p.localRepository packageService input
    packageArn manifestVersion isSameAsCache s
  obtain ⟨⟨inst, uninst, installState, installedVersion⟩, hr⟩ :=
    prepareConfigurePackage_returns deps config p.localRepository packageService input
      packageArn manifestVersion isSameAsCache s
  rcases hrun : prepareConfigurePackage deps config p.localRepository packageService input
    packageArn manifestVersion isSameAsCache s with ⟨v1, s1, c1⟩
  rw [hrun] at hr hc1
  simp only at hr
  subst hr
  have hc2 := checkAlreadyInstalled_calls deps p.localRepository installedVersion installState
    inst uninst s1
  obtain ⟨b, hb⟩ := checkAlreadyInstalled_returns deps p.localRepository installedVersion
    installState inst uninst s1
  rcases hrun2 : checkAlreadyInstalled deps p.localRepository installedVersion installState
    inst uninst s1 with ⟨v2, s2, c2⟩
  rw [hrun2] at hb hc2
  simp only at hb
  subst hb
  simp only [Run.callsAll, List.all_eq_true] at hc1 hc2
  have hn1 : ∀ e ∈ c1, e.isReport = false := fun e he => by
    have := hc1 e he
    cases e <;> simp [Event.isEnsure, Event.isReport] at this ⊢
  have hn2 : ∀ e ∈ c2, e.isReport = false := fun e he => by
    have := hc2 e he
    cases e <;> simp [Event.isFastPath, Event.isReport] at this ⊢
  have hfront : ∃ (cF : List Event) (sF : St σ), (∀ e ∈ cF, e.isReport = false) ∧
      ∀ k : Unit → M σ Unit,
        (if (s1.out.Status != ResultStatus.Failed &&
              s1.out.Status != ResultStatus.Success) = true then
            (checkAlreadyInstalled deps p.localRepository installedVersion installState inst
              uninst >>= fun alreadyInstalled =>
                if (!alreadyInstalled || !isSameAsCache) = true then
                  executeConfigurePackage deps p.localRepository inst uninst installState >>= k
                else pure () >>= k)
          else pure () >>= k) s1 = Run.after cF (k () sF) := by
    by_cases hund : (s1.out.Status != ResultStatus.Failed &&
        s1.out.Status != ResultStatus.Success) = true
    · by_cases hg : (!b || !isSameAsCache) = true
      · refine ⟨c2 ++ [Event.executeConfigurePackage],
          deps.executeConfigurePackage p.localRepository inst uninst installState s2, ?_, ?_⟩
        · intro e he
          simp only [List.mem_append, List.mem_singleton] at he
          rcases he with he | he
          · exact hn2 e he
          · subst he; rfl
        · intro k
          rw [if_pos hund, bind_ok_run _ _ _ _ _ _ hrun2, if_pos hg, bind_ok_run _ _ _ _ _ _
            (rfl : executeConfigurePackage deps p.localRepository inst uninst installState s2 =
              { val := Res.ok (),
                st := deps.executeConfigurePackage p.localRepository inst uninst installState
                  s2,
                calls := [Event.executeConfigurePackage] }), Run.after_after]
      · refine ⟨c2, s2, hn2, ?_⟩
        intro k
        rw [if_pos hund, bind_ok_run _ _ _ _ _ _ hrun2, if_neg hg, bind_ok_run _ _ _ _ _ _
          (rfl : (pure () : M σ Unit) s2 = { val := Res.ok (), st := s2, calls := [] })]
        simp [Run.after]
    · refine ⟨[], s1, fun e he => by simp at he, ?_⟩
      intro k
      rw [if_neg hund, bind_ok_run _ _ _ _ _ _
        (rfl : (pure () : M σ Unit) s1 = { val := Res.ok (), st := s1, calls := [] })]
  obtain ⟨cF, sF, hnF, hF⟩ := hfront
  unfold executeLocked
  rw [bind_ok_run _ _ _ _ _ _ hrun]
  dsimp only
  rw [bind_ok_run _ _ _ _ _ _
    (rfl : GetStatus s1 = { val := Res.ok s1.out.Status, st := s1, calls := [] })]
  rw [hF]
  rw [bind_ok_run _ _ _ _ _ _
    (rfl : p.localRepository.loadTraces packageArn sF =
      { val := Res.ok (p.localRepository.LoadTraces sF.host packageArn).1,
        st := { host := (p.localRepository.LoadTraces sF.host packageArn).2, out := sF.out },
        calls := [Event.LoadTraces packageArn] })]
  rw [bind_ok_run _ _ _ _ _ _
    (rfl : GetStatus
        ({ host := (p.localRepository.LoadTraces sF.host packageArn).2, out := sF.out } :
          St σ) =
      { val := Res.ok sF.out.Status,
        st := { host := (p.localRepository.LoadTraces sF.host packageArn).2, out := sF.out },
        calls := [] })]
  refine ⟨c1 ++ cF, sF.out.Status, ?_, ?_⟩
  · intro e he
    rcases List.mem_append.1 he with he | he
    · exact hn1 e he
    · exact hnF e he
  by_cases hreb : sF.out.Status.IsReboot = true
  · rw [if_pos hreb]
    refine ⟨?_, Or.inl ⟨hreb, ?_⟩⟩ <;>
      simp [Run.after, bind_run, M.bind, Repository.persistTraces, call, pure_run]
  · rw [if_neg hreb]
    have hreb2 : sF.out.Status.IsReboot = false := by simpa using hreb
    have hsL :
        ({ host := (p.localRepository.LoadTraces sF.host packageArn).2, out := sF.out } :
          St σ).out.Status = sF.out.Status := rfl
    generalize
      ({ host := (p.localRepository.LoadTraces sF.host packageArn).2, out := sF.out } :
        St σ) = sL at hsL ⊢
    have hrep : ∀ result : PackageResult, ∃ sT : St σ, sT.out.Status = sL.out.Status ∧
        (packageService.reportResult result >>= fun err =>
          match err with
          | some e => AppendErrorf ("Error reporting results: " ++ e)
          | none => pure ()) sL =
          { val := Res.ok (), st := sT, calls := [Event.ReportResult result] } := by
      intro result
      rw [bind_ok_run _ _ _ _ _ _
        (rfl : packageService.reportResult result sL =
          { val := Res.ok (packageService.ReportResult sL.host result).1,
            st := { host := (packageService.ReportResult sL.host result).2, out := sL.out },
            calls := [Event.ReportResult result] })]
      cases (packageService.ReportResult sL.host result).1 <;> exact ⟨_, by rfl, rfl⟩
    by_cases hI : (input.Action == InstallAction) = true
    · rw [if_pos hI]
      cases inst with
      | none =>
        refine ⟨?_, Or.inr ⟨hreb2, Or.inl ?_⟩⟩ <;>
          simp [Run.after, bind_run, M.bind, deref, hsL]
      | some i =>
        obtain ⟨sT, hsT, hT⟩ := hrep
          { Operation := input.Action, PackageName := input.Name,
            PreviousPackageVersion := installedVersion, Version := i.Version }
        rw [bind_ok_run _ _ _ _ _ _
          (rfl : deref (some i) sL = { val := Res.ok i, st := sL, calls := [] }),
          bind_ok_run _ _ _ _ _ _
            (rfl : (pure i.Version : M σ String) sL =
              { val := Res.ok i.Version, st := sL, calls := [] }), hT]
        refine ⟨?_, Or.inr ⟨hreb2, Or.inr
          ⟨{ Operation := input.Action, PackageName := input.Name,
              PreviousPackageVersion := installedVersion, Version := i.Version }, ?_⟩⟩⟩ <;>
          simp [Run.after, hsL, hsT]
    · rw [if_neg hI]
      by_cases hU : (input.Action == UninstallAction) = true
      · rw [if_pos hU]
        cases uninst with
        | none =>
          refine ⟨?_, Or.inr ⟨hreb2, Or.inl ?_⟩⟩ <;>
            simp [Run.after, bind_run, M.bind, deref, hsL]
        | some u =>
          obtain ⟨sT, hsT, hT⟩ := hrep
            { Operation := input.Action, PackageName := input.Name,
              PreviousPackageVersion := installedVersion, Version := u.Version }
          rw [bind_ok_run _ _ _ _ _ _
            (rfl : deref (some u) sL = { val := Res.ok u, st := sL, calls := [] }),
            bind_ok_run _ _ _ _ _ _
              (rfl : (pure u.Version : M σ String) sL =
                { val := Res.ok u.Version, st := sL, calls := [] }), hT]
          refine ⟨?_, Or.inr ⟨hreb2, Or.inr
            ⟨{ Operation := input.Action, PackageName := input.Name,
                PreviousPackageVersion := installedVersion, Version := u.Version }, ?_⟩⟩⟩ <;>
            simp [Run.after, hsL, hsT]
      · rw [if_neg hU]
        obtain ⟨sT, hsT, hT⟩ := hrep
          { Operation := input.Action, PackageName := input.Name,
            PreviousPackageVersion := installedVersion, Version := manifestVersion }
        rw [bind_ok_run _ _ _ _ _ _
            (rfl : (pure manifestVersion : M σ String) sL =
              { val := Res.ok manifestVersion, st := sL, calls := [] }), hT]
        refine ⟨?_, Or.inr ⟨hreb2, Or.inr
          ⟨{ Operation := input.Action, PackageName := input.Name,
              PreviousPackageVersion := installedVersion, Version := manifestVersion }, ?_⟩⟩⟩ <;>
          simp [Run.after, hsL, hsT]


/-- The status of the request at the end of `Plugin.execute` when the lock is acquired is
the status the locked part leaves, whether it returns or panics. -/
theorem execute_locked_status {σ : Type} (p : Plugin σ) (deps : Deps σ)
    (config : Configuration) (cancelFlag : CancelFlag) (input : ConfigurePackagePluginInput)
    (packageArn manifestVersion : String) (isSameAsCache : Bool) (s : St σ) (h1 h2 : σ)
    (hS : cancelFlag.ShutDown = false) (hC : cancelFlag.Canceled = false)
    (hP : parseAndValidateInput deps config.Properties = Except.ok input)
    (hM : (p.packageServiceSelector input.Repository).DownloadManifest s.host input.Name
        (if deps.IsLatest input.Version then Latest else input.Version) =
      ((packageArn, manifestVersion, isSameAsCache, none), h1))
    (hL : p.localRepository.LockPackage h1 packageArn input.Action = (none, h2)) :
    (Plugin.execute p deps config cancelFlag s).st.out.Status =
      (executeLocked p deps config (p.packageServiceSelector input.Repository) input
        packageArn manifestVersion isSameAsCache { host := h2, out := {} }).st.out.Status := by
  rw [execute_locked p deps config cancelFlag input packageArn manifestVersion isSameAsCache s
    h1 h2 hS hC hP hM hL]
  rcases hv : (executeLocked p deps config (p.packageServiceSelector input.Repository) input
      packageArn manifestVersion isSameAsCache { host := h2, out := {} }).val with u | msg
  · rw [deferring_unlock_run p.localRepository packageArn _ _ _ _ _
      (bind_setOutput_ok _ _ hv)]
    simp
  · rw [deferring_unlock_run p.localRepository packageArn _ _ _ _ _
      (bind_setOutput_panicked _ _ msg hv)]
    simp

/-- C22: in a run of `Plugin.execute` that acquires the lock, PersistTraces is called if and
only if the status the request ends with is a reboot status; when it is, ReportResult is not
called; when it is not, PersistTraces is not called. -/
theorem execute_reboot_versus_report {σ : Type} (p : Plugin σ) (deps : Deps σ)
    (config : Configuration) (cancelFlag : CancelFlag) (input : ConfigurePackagePluginInput)
    (packageArn manifestVersion : String) (isSameAsCache : Bool) (s : St σ) (h1 h2 : σ)
    (hS : cancelFlag.ShutDown = false) (hC : cancelFlag.Canceled = false)
    (hP : parseAndValidateInput deps config.Properties = Except.ok input)
    (hM : (p.packageServiceSelector input.Repository).DownloadManifest s.host input.Name
        (if deps.IsLatest input.Version then Latest else input.Version) =
      ((packageArn, manifestVersion, isSameAsCache, none), h1))
    (hL : p.localRepository.LockPackage h1 packageArn input.Action = (none, h2)) :
    ((∃ id, Event.PersistTraces id ∈ (Plugin.execute p deps config cancelFlag s).calls) ↔
        (Plugin.execute p deps config cancelFlag s).st.out.Status.IsReboot = true) ∧
      ((Plugin.execute p deps config cancelFlag s).st.out.Status.IsReboot = true →
        ∀ result, Event.ReportResult result ∉
          (Plugin.execute p deps config cancelFlag s).calls) ∧
      ((Plugin.execute p deps config cancelFlag s).st.out.Status.IsReboot = false →
        ∀ id, Event.PersistTraces id ∉ (Plugin.execute p deps config cancelFlag s).calls) := by
  rw [execute_locked_calls p deps config cancelFlag input packageArn manifestVersion
    isSameAsCache s h1 h2 hS hC hP hM hL,
    execute_locked_status p deps config cancelFlag input packageArn manifestVersion
      isSameAsCache s h1 h2 hS hC hP hM hL]
  obtain ⟨before, status, hb, hst, hcases⟩ := executeLocked_report p deps config
    (p.packageServiceSelector input.Repository) input packageArn manifestVersion
    isSameAsCache { host := h2, out := {} }
  rw [hst]
  have hbP : ∀ id, Event.PersistTraces id ∉ before := fun id h => by
    have := hb _ h
    simp [Event.isReport] at this
  have hbR : ∀ result, Event.ReportResult result ∉ before := fun result h => by
    have := hb _ h
    simp [Event.isReport] at this
  rcases hcases with ⟨hreb, hc⟩ | ⟨hreb, hc | ⟨result, hc⟩⟩
  · rw [hc]
    simp [hreb, hbP, hbR]
  · rw [hc]
    simp [hreb, hbP, hbR]
  · rw [hc]
    simp [hreb, hbP, hbR]

/-- C22, on an installation that ends asking for a reboot: the status is RebootRequested,
PersistTraces is called and ReportResult is not. -/
theorem execute_reboot_versus_report_witness :
    (Plugin.execute Sample.plugin (Sample.rebootDeps Sample.installA) Sample.config
        Sample.noCancel (Sample.start Sample.emptyHost)).st.out.Status =
        ResultStatus.RebootRequested ∧
      ((∃ id, Event.PersistTraces id ∈
          (Plugin.execute Sample.plugin (Sample.rebootDeps Sample.installA) Sample.config
            Sample.noCancel (Sample.start Sample.emptyHost)).calls) ↔
        (Plugin.execute Sample.plugin (Sample.rebootDeps Sample.installA) Sample.config
          Sample.noCancel (Sample.start Sample.emptyHost)).st.out.Status.IsReboot = true) ∧
      ((Plugin.execute Sample.plugin (Sample.rebootDeps Sample.installA) Sample.config
          Sample.noCancel (Sample.start Sample.emptyHost)).st.out.Status.IsReboot = true →
        ∀ result, Event.ReportResult result ∉
          (Plugin.execute Sample.plugin (Sample.rebootDeps Sample.installA) Sample.config
            Sample.noCancel (Sample.start Sample.emptyHost)).calls) ∧
      ((Plugin.execute Sample.plugin (Sample.rebootDeps Sample.installA) Sample.config
          Sample.noCancel (Sample.start Sample.emptyHost)).st.out.Status.IsReboot = false →
        ∀ id, Event.PersistTraces id ∉
          (Plugin.execute Sample.plugin (Sample.rebootDeps Sample.installA) Sample.config
            Sample.noCancel (Sample.start Sample.emptyHost)).calls) :=
  ⟨by decide,
    execute_reboot_versus_report Sample.plugin (Sample.rebootDeps Sample.installA)
      Sample.config Sample.noCancel Sample.installA "arn:A" "1.0" true
      (Sample.start Sample.emptyHost) Sample.emptyHost Sample.emptyHost rfl rfl rfl rfl rfl⟩

end ConfigurePackage

/-! ## Reading a file -/

namespace FileManager

/-- The UTF-8 encoding of a character has at least one byte. -/
theorem utf8EncodeChar_ne_nil (c : Char) : String.utf8EncodeChar c ≠ [] := by
  unfold String.utf8EncodeChar
  dsimp only
  split_ifs <;> simp

/-- Only the empty string has no bytes. -/
theorem bytes_eq_nil_iff (s : String) : bytes s = [] ↔ s = "" := by
  unfold bytes
  simp only [String.toUTF8, Array.toList_toArray, List.map_eq_nil_iff,
    List.flatMap_eq_nil_iff]
  constructor
  · intro h
    rcases s with ⟨l⟩
    cases l with
    | nil => rfl
    | cons c l => exact absurd (h c (List.mem_cons_self c l)) (utf8EncodeChar_ne_nil c)
  · intro h
    subst h
    intro c hc
    simp at hc

/-- C23: `ReadFileContents` on a path.  If the read of the file system returns an error, the
result is the nil slice and that error; if it returns the empty content without error, the
result is the empty slice and the error "File is empty!"; otherwise the result is the bytes
of the content, which are not empty, and no error.  So the error is non-nil exactly on a read
error or an empty file, and the file system is left as the read leaves it. -/
theorem ReadFileContents_fails_iff {φ : Type} (filesysdep : FileSystem φ)
    (destinationPath : String) (fs : φ) :
    (∀ err, (filesysdep.ReadFile fs destinationPath).1.2 = some err →
        (ReadFileContents filesysdep destinationPath fs).1 = (none, some err)) ∧
      ((filesysdep.ReadFile fs destinationPath).1.2 = none →
        (filesysdep.ReadFile fs destinationPath).1.1 = "" →
        (ReadFileContents filesysdep destinationPath fs).1 =
          (some [], some "File is empty!")) ∧
      ((filesysdep.ReadFile fs destinationPath).1.2 = none →
        (filesysdep.ReadFile fs destinationPath).1.1 ≠ "" →
        (ReadFileContents filesysdep destinationPath fs).1 =
            (some (bytes (filesysdep.ReadFile fs destinationPath).1.1), none) ∧
          bytes (filesysdep.ReadFile fs destinationPath).1.1 ≠ []) ∧
      ((ReadFileContents filesysdep destinationPath fs).1.2 ≠ none ↔
        ((filesysdep.ReadFile fs destinationPath).1.2 ≠ none ∨
          (filesysdep.ReadFile fs destinationPath).1.1 = "")) ∧
      (ReadFileContents filesysdep destinationPath fs).2 =
        (filesysdep.ReadFile fs destinationPath).2 := by
  unfold ReadFileContents
  rcases hread : filesysdep.ReadFile fs destinationPath with ⟨⟨rawFile, err⟩, fs1⟩
  cases err with
  | some e => simp
  | none =>
    by_cases hempty : rawFile = ""
    · subst hempty
      simp [(bytes_eq_nil_iff "").2 rfl]
    · simp [hempty, bytes_eq_nil_iff]

/-- C23, on a disk with a script and an empty file: a missing file gives the nil slice and
the error of the read, the empty file gives the empty slice and an error, and the script
gives its two bytes and no error. -/
theorem ReadFileContents_fails_iff_witness :
    (ReadFileContents Sample.disk "absent" Sample.files).1 =
        (none, some "open absent: no such file or directory") ∧
      (ReadFileContents Sample.disk "empty.txt" Sample.files).1 =
        (some [], some "File is empty!") ∧
      (ReadFileContents Sample.disk "run.sh" Sample.files).1 = (some [111, 107], none) :=
  ⟨(ReadFileContents_fails_iff Sample.disk "absent" Sample.files).1 _ rfl,
    (ReadFileContents_fails_iff Sample.disk "empty.txt" Sample.files).2.1 rfl rfl,
    ((ReadFileContents_fails_iff Sample.disk "run.sh" Sample.files).2.2.1 rfl
      (by decide)).1⟩

end FileManager
